import Mathlib

/-!
# DGIProject: the shot-difficulty analyzer (`source/difficultyanalyzer.cpp`)

A shallow embedding of `DifficultyAnalyzer` and the properties of it that the
specification states.

Numbers: the `float` of the source is modelled by an arbitrary linearly ordered
field `α` (exact arithmetic), instantiated at `ℚ` or `ℝ` for concrete inputs.
`sqrtf` / `glm::length` need a square root, which is taken as a parameter
`sqrt : α → α`; `ceil` is `Int.ceil`.  The `int` counters are `Int`; the conversion of
a floating value to the 32-bit `int heightSteps` (line 57) is explicit in `baseArcInt32`
and `CalculateDifficultyInt32`, which agree with `baseArc` and `CalculateDifficulty`
while the vertical delta of the shot stays below `2^31`.

Parts of the program that are declared outside `difficultyanalyzer.cpp` are
parameters of the embedding: the terrain (`gTerrain.vertexData` and the macros
`X_INTERVAL`, `Y_INTERVAL`, `FLOATS_PER_TRIANGLE`, in `RangeTerrain`) and the
three cost functions (`HeightDifficulty`, `CurveDifficulty`, `ComboDifficulty`,
in `CostModel`).
-/

namespace DGI

/-! ## glm: vectors and 3x3 matrices -/

/-- The `vec3` of glm: three components. -/
@[ext]
structure Vec3 (α : Type) where
  x : α
  y : α
  z : α

/-- The `mat3` of glm, column major: `mat3(c0, c1, c2)` has the columns `c0`, `c1`, `c2`,
and `m[i][j]` is component `j` of column `i`. -/
structure Mat3 (α : Type) where
  c0 : Vec3 α
  c1 : Vec3 α
  c2 : Vec3 α

section Defs

variable {α : Type} [LinearOrderedField α]

/-- Component-wise sum, `a + b` on `vec3`. -/
def Vec3.add (a b : Vec3 α) : Vec3 α := ⟨a.x + b.x, a.y + b.y, a.z + b.z⟩

/-- Component-wise difference, `a - b` on `vec3`. -/
def Vec3.sub (a b : Vec3 α) : Vec3 α := ⟨a.x - b.x, a.y - b.y, a.z - b.z⟩

/-- Component-wise negation, `-a` on `vec3`. -/
def Vec3.neg (a : Vec3 α) : Vec3 α := ⟨-a.x, -a.y, -a.z⟩

/-- Product with a scalar on the right, `v * s` on `vec3`. -/
def Vec3.scale (v : Vec3 α) (s : α) : Vec3 α := ⟨v.x * s, v.y * s, v.z * s⟩

instance : Add (Vec3 α) := ⟨Vec3.add⟩
instance : Sub (Vec3 α) := ⟨Vec3.sub⟩
instance : Neg (Vec3 α) := ⟨Vec3.neg⟩

/-- The function `glm::dot`. -/
def dot (a b : Vec3 α) : α := a.x * b.x + a.y * b.y + a.z * b.z

/-- The function `glm::cross`. -/
def cross (a b : Vec3 α) : Vec3 α :=
  ⟨a.y * b.z - b.y * a.z, a.z * b.x - b.z * a.x, a.x * b.y - b.x * a.y⟩

/-- The function `glm::length`: `sqrt(dot(v, v))`. -/
def length (sqrt : α → α) (v : Vec3 α) : α := sqrt (dot v v)

/-- The function `glm::normalize`: `v * inversesqrt(dot(v, v))`, where `inversesqrt(x)`
is `1 / sqrt(x)`. -/
def normalize (sqrt : α → α) (v : Vec3 α) : Vec3 α := v.scale (1 / sqrt (dot v v))

/-- The function `glm::determinant` on `mat3`, the expression `glm::inverse` divides by. -/
def Mat3.determinant (m : Mat3 α) : α :=
  m.c0.x * (m.c1.y * m.c2.z - m.c2.y * m.c1.z)
    - m.c1.x * (m.c0.y * m.c2.z - m.c2.y * m.c0.z)
    + m.c2.x * (m.c0.y * m.c1.z - m.c1.y * m.c0.z)

/-- The function `glm::inverse` on `mat3`: the transposed cofactors times
`OneOverDeterminant = 1 / determinant`.  glm does not test the determinant.  In the
field `α` a division by zero yields `0`, so for a singular matrix the inverse is the
zero matrix here (with IEEE floats its entries are infinities or NaN). -/
def Mat3.inverse (m : Mat3 α) : Mat3 α :=
  let OneOverDeterminant : α := 1 / m.determinant
  { c0 := ⟨(m.c1.y * m.c2.z - m.c2.y * m.c1.z) * OneOverDeterminant,
           -(m.c0.y * m.c2.z - m.c2.y * m.c0.z) * OneOverDeterminant,
           (m.c0.y * m.c1.z - m.c1.y * m.c0.z) * OneOverDeterminant⟩
    c1 := ⟨-(m.c1.x * m.c2.z - m.c2.x * m.c1.z) * OneOverDeterminant,
           (m.c0.x * m.c2.z - m.c2.x * m.c0.z) * OneOverDeterminant,
           -(m.c0.x * m.c1.z - m.c1.x * m.c0.z) * OneOverDeterminant⟩
    c2 := ⟨(m.c1.x * m.c2.y - m.c2.x * m.c1.y) * OneOverDeterminant,
           -(m.c0.x * m.c2.y - m.c2.x * m.c0.y) * OneOverDeterminant,
           (m.c0.x * m.c1.y - m.c1.x * m.c0.y) * OneOverDeterminant⟩ }

/-- The product `m * v` of a `mat3` with a `vec3` (a combination of the columns). -/
def Mat3.mulVec (m : Mat3 α) (v : Vec3 α) : Vec3 α :=
  ⟨m.c0.x * v.x + m.c1.x * v.y + m.c2.x * v.z,
   m.c0.y * v.x + m.c1.y * v.y + m.c2.y * v.z,
   m.c0.z * v.x + m.c1.z * v.y + m.c2.z * v.z⟩

/-! ## The terrain (declared in `rangeterrain.h`, a parameter here) -/

/-- The global `gTerrain` as the analyzer reads it: the flat array `vertexData` and the
three macros that give its size. -/
structure RangeTerrain (α : Type) where
  X_INTERVAL : Int
  Y_INTERVAL : Int
  FLOATS_PER_TRIANGLE : Int
  vertexData : Int → α

/-- Number of floats of `vertexData` as the loops compute it:
`(X_INTERVAL-1) * (Y_INTERVAL-1) * FLOATS_PER_TRIANGLE * 2`. -/
def RangeTerrain.floatCount (T : RangeTerrain α) : Int :=
  (T.X_INTERVAL - 1) * (T.Y_INTERVAL - 1) * T.FLOATS_PER_TRIANGLE * 2

/-- The bound of both scanning loops, `i < (X_INTERVAL-1) * (Y_INTERVAL-1) *
FLOATS_PER_TRIANGLE * 2 - 36`. -/
def RangeTerrain.loopBound (T : RangeTerrain α) : Int := T.floatCount - 36

/-- The vertex `v0` read at offset `i`. -/
def RangeTerrain.v0 (T : RangeTerrain α) (i : Int) : Vec3 α :=
  ⟨T.vertexData i, T.vertexData (i + 1), T.vertexData (i + 2)⟩

/-- The vertex `v1` read at offset `i`. -/
def RangeTerrain.v1 (T : RangeTerrain α) (i : Int) : Vec3 α :=
  ⟨T.vertexData (i + 12), T.vertexData (i + 13), T.vertexData (i + 14)⟩

/-- The vertex `v2` read at offset `i`. -/
def RangeTerrain.v2 (T : RangeTerrain α) (i : Int) : Vec3 α :=
  ⟨T.vertexData (i + 24), T.vertexData (i + 25), T.vertexData (i + 26)⟩

/-- The matrix `A( -dir, e1, e2 )` built for the triangle at offset `i`. -/
def RangeTerrain.systemMatrix (T : RangeTerrain α) (dir : Vec3 α) (i : Int) : Mat3 α :=
  let e1 := T.v1 i - T.v0 i
  let e2 := T.v2 i - T.v0 i
  ⟨-dir, e1, e2⟩

/-- The vector `x = glm::inverse( A ) * b`, that is `(t, u, v)`, for the triangle at offset
`i` and the ray `start + t * dir`. -/
def RangeTerrain.solve (T : RangeTerrain α) (start dir : Vec3 α) (i : Int) : Vec3 α :=
  let b := start - T.v0 i
  (T.systemMatrix dir i).inverse.mulVec b

/-! ## `IntersectionBetweenPoints` -/

/-- The test of `IntersectionBetweenPoints` on one triangle:
`x.x > 0 && x.x < 1 && x.y >= 0 && x.z >= 0 && x.y + x.z <= 1`. -/
def segmentTest (x : Vec3 α) : Bool :=
  decide (x.x > 0) && decide (x.x < 1) && decide (x.y ≥ 0) && decide (x.z ≥ 0)
    && decide (x.y + x.z ≤ 1)

/-- The `for` loop of `IntersectionBetweenPoints`, from offset `i` on, in steps of 36. -/
def IntersectionBetweenPoints.loop (T : RangeTerrain α) (start dir : Vec3 α) (i : Int) :
    Bool :=
  if i < T.loopBound then
    if segmentTest (T.solve start dir i) then true
    else IntersectionBetweenPoints.loop T start dir (i + 36)
  else false
termination_by (T.loopBound - i).toNat
decreasing_by omega

/-- The method `DifficultyAnalyzer::IntersectionBetweenPoints`. -/
def IntersectionBetweenPoints (T : RangeTerrain α) (start end_ : Vec3 α) : Bool :=
  let dir := end_ - start
  IntersectionBetweenPoints.loop T start dir 0

/-- The method `DifficultyAnalyzer::PathIsClear`. -/
def PathIsClear (T : RangeTerrain α) (tee p1 p2 target : Vec3 α) : Bool :=
  !IntersectionBetweenPoints T tee p1 && !IntersectionBetweenPoints T p1 p2
    && !IntersectionBetweenPoints T p2 target

/-! ## `ClosestIntersection` -/

/-- The struct `Intersection` that `ClosestIntersection` fills in. -/
structure Intersection (α : Type) where
  position : Vec3 α
  distance : α

/-- The test of `ClosestIntersection` on one triangle:
`x.x < closest_t && x.x > 0 && x.y >= 0 && x.z >= 0 && x.y + x.z <= 1`. -/
def rayTest (closest_t : α) (x : Vec3 α) : Bool :=
  decide (x.x < closest_t) && decide (x.x > 0) && decide (x.y ≥ 0) && decide (x.z ≥ 0)
    && decide (x.y + x.z ≤ 1)

/-- The `for` loop of `ClosestIntersection`, from offset `i` on, with the running
`closest_t` and `closest_index`; it yields their final values. -/
def ClosestIntersection.loop (T : RangeTerrain α) (start dir : Vec3 α) (i : Int)
    (closest_t : α) (closest_index : Int) : α × Int :=
  if i < T.loopBound then
    if rayTest closest_t (T.solve start dir i) then
      ClosestIntersection.loop T start dir (i + 36) (T.solve start dir i).x i
    else ClosestIntersection.loop T start dir (i + 36) closest_t closest_index
  else (closest_t, closest_index)
termination_by (T.loopBound - i).toNat
decreasing_by all_goals omega

/-- The method `DifficultyAnalyzer::ClosestIntersection`.  `FLT_MAX` stands for
`std::numeric_limits<float>::max()`; the reference parameter `closestIntersection` is
passed in and returned next to the boolean result. -/
def ClosestIntersection (T : RangeTerrain α) (FLT_MAX : α) (start dir : Vec3 α)
    (closestIntersection : Intersection α) : Bool × Intersection α :=
  let r := ClosestIntersection.loop T start dir 0 FLT_MAX (-1)
  let closest_t := r.1
  let closest_index := r.2
  if closest_index ≥ 0 then
    (true, { position := start + dir.scale closest_t, distance := closest_t })
  else (false, closestIntersection)

/-! ## `CalculateDifficulty` -/

variable [FloorRing α]

/-- The three cost functions `HeightDifficulty`, `CurveDifficulty` and `ComboDifficulty`
of `DifficultyAnalyzer`; their bodies are not in `difficultyanalyzer.cpp`. -/
structure CostModel (α : Type) where
  HeightDifficulty : α → α
  CurveDifficulty : α → α
  ComboDifficulty : α → α → α

/-- The constant `p1_relative = 0.5`. -/
def p1_relative : α := 1 / 2

/-- The constant `p2_relative = 0.7`. -/
def p2_relative : α := 7 / 10

/-- The constant `DifficultyAnalyzer::IMPOSSIBLE = 400`. -/
def IMPOSSIBLE : α := 400

/-- The constant `defaultShotHeight = 20`. -/
def defaultShotHeight : α := 20

/-- The constant `heightPerStep = 1`. -/
def heightPerStep : α := 1

/-- The constant `curvePerStep = 1`. -/
def curvePerStep : α := 1

/-- The constant `comboPerStep = 1.0f / sqrtf(2.0f)`. -/
def comboPerStep (sqrt : α → α) : α := 1 / sqrt 2

/-- The locals of `CalculateDifficulty` that are fixed before the path tests
(lines 36 to 69 of the source). -/
structure BaseArc (α : Type) where
  distance : α
  adjustedTee : Vec3 α
  adjustedTarget : Vec3 α
  L : α
  h : α
  heightSteps : Int
  initialHeightDifficulty : α
  adjustedHeight : α
  l : α
  dir : Vec3 α
  up : Vec3 α
  right : Vec3 α
  p1 : Vec3 α
  p2 : Vec3 α

/-- The first part of `CalculateDifficulty`: `distance`, the lifted tee and target, the
forced elevation and the two control points `p1`, `p2`. -/
def baseArc (sqrt : α → α) (C : CostModel α) (tee target : Vec3 α) : BaseArc α :=
  let distance := length sqrt (target - tee)
  let adjustedTee := tee + ⟨0, 1 / 10, 0⟩
  let adjustedTarget := target + ⟨0, 1 / 10, 0⟩
  let tee_to_target_xz : Vec3 α := { (adjustedTarget - adjustedTee) with y := 0 }
  let L := length sqrt tee_to_target_xz
  let h := adjustedTarget.y - adjustedTee.y
  let elevate : Bool := decide (h + heightPerStep > defaultShotHeight)
  let heightSteps : Int :=
    if elevate then 1 + Int.ceil ((h - defaultShotHeight) / heightPerStep) else 0
  let adjustedHeight : α :=
    if elevate then defaultShotHeight + (heightSteps : α) * heightPerStep
    else defaultShotHeight
  let initialHeightDifficulty : α :=
    if elevate then C.HeightDifficulty ((heightSteps : α) * heightPerStep) else 0
  let l := (L * adjustedHeight) / (adjustedHeight - h * (1 - p2_relative))
  let dir := normalize sqrt tee_to_target_xz
  let up : Vec3 α := ⟨0, 1, 0⟩
  let right := cross dir up
  let p1 := adjustedTee + (dir.scale l).scale p1_relative + up.scale adjustedHeight
  let p2 := adjustedTee + (dir.scale l).scale p2_relative + up.scale adjustedHeight
  { distance := distance, adjustedTee := adjustedTee, adjustedTarget := adjustedTarget,
    L := L, h := h, heightSteps := heightSteps,
    initialHeightDifficulty := initialHeightDifficulty, adjustedHeight := adjustedHeight,
    l := l, dir := dir, up := up, right := right, p1 := p1, p2 := p2 }

/-- The variables that the `while (true)` loop changes: the three step counters and the
output parameters `p1_adjusted`, `p2_adjusted`. -/
structure SearchState (α : Type) where
  heightSteps : Int
  curveSteps : Int
  comboSteps : Int
  p1_adjusted : Vec3 α
  p2_adjusted : Vec3 α

/-- What one pass through the loop body does: it returns from the function with a value
(and the output parameters as they are then), or it falls through to the next pass. -/
inductive Step (α : Type) where
  | ret (value : α) (p1_adjusted p2_adjusted : Vec3 α) : Step α
  | next (s : SearchState α) : Step α

/-- The local `heightDifficulty` of the loop body. -/
def heightDifficulty (C : CostModel α) (b : BaseArc α) (s : SearchState α) : α :=
  b.distance + C.HeightDifficulty (((s.heightSteps + 1 : Int) : α) * heightPerStep)

/-- The local `curveDifficulty` of the loop body. -/
def curveDifficulty (C : CostModel α) (b : BaseArc α) (s : SearchState α) : α :=
  b.distance + C.CurveDifficulty (((s.curveSteps + 1 : Int) : α) * curvePerStep)
    + b.initialHeightDifficulty

/-- The local `comboDifficulty` of the loop body. -/
def comboDifficulty (sqrt : α → α) (C : CostModel α) (b : BaseArc α) (s : SearchState α) :
    α :=
  b.distance + C.ComboDifficulty (((s.comboSteps + 1 : Int) : α) * comboPerStep sqrt)
    (((s.comboSteps + 1 : Int) : α) * comboPerStep sqrt)

/-- The body of the `while (true)` loop of `CalculateDifficulty` (lines 81 to 141). -/
def iteration (sqrt : α → α) (C : CostModel α) (T : RangeTerrain α) (b : BaseArc α)
    (s : SearchState α) : Step α :=
  let heightDifficulty := heightDifficulty C b s
  let curveDifficulty := curveDifficulty C b s
  let comboDifficulty := comboDifficulty sqrt C b s
  if heightDifficulty > IMPOSSIBLE ∧ curveDifficulty > IMPOSSIBLE
      ∧ comboDifficulty > IMPOSSIBLE then
    Step.ret (-1) s.p1_adjusted s.p2_adjusted
  else
    let minDifficulty := min heightDifficulty (min curveDifficulty comboDifficulty)
    if minDifficulty = heightDifficulty then
      let heightSteps := s.heightSteps + 1
      let diff := b.up.scale ((heightSteps : α) * heightPerStep)
      if PathIsClear T b.adjustedTee (b.p1 + diff) (b.p2 + diff) b.adjustedTarget then
        Step.ret heightDifficulty (b.p1 + diff) (b.p2 + diff)
      else
        Step.next { s with heightSteps := heightSteps, p1_adjusted := b.p1 + diff,
                           p2_adjusted := b.p2 + diff }
    else if minDifficulty = curveDifficulty then
      let curveSteps := s.curveSteps + 1
      let diff := b.right.scale ((curveSteps : α) * curvePerStep)
      if PathIsClear T b.adjustedTee (b.p1 + diff) (b.p2 + diff) b.adjustedTarget then
        Step.ret curveDifficulty (b.p1 + diff) (b.p2 + diff)
      else
        let diff := (-b.right).scale ((curveSteps : α) * curvePerStep)
        if PathIsClear T b.adjustedTee (b.p1 + diff) (b.p2 + diff) b.adjustedTarget then
          Step.ret curveDifficulty (b.p1 + diff) (b.p2 + diff)
        else
          Step.next { s with curveSteps := curveSteps, p1_adjusted := b.p1 + diff,
                             p2_adjusted := b.p2 + diff }
    else if minDifficulty = comboDifficulty then
      let comboSteps := s.comboSteps + 1
      let diff := b.up.scale ((comboSteps : α) * heightPerStep)
        + b.right.scale ((comboSteps : α) * curvePerStep)
      if PathIsClear T b.adjustedTee (b.p1 + diff) (b.p2 + diff) b.adjustedTarget then
        Step.ret comboDifficulty (b.p1 + diff) (b.p2 + diff)
      else
        let diff := b.up.scale ((comboSteps : α) * heightPerStep)
          - b.right.scale ((comboSteps : α) * curvePerStep)
        if PathIsClear T b.adjustedTee (b.p1 + diff) (b.p2 + diff) b.adjustedTarget then
          Step.ret comboDifficulty (b.p1 + diff) (b.p2 + diff)
        else
          Step.next { s with comboSteps := comboSteps, p1_adjusted := b.p1 + diff,
                             p2_adjusted := b.p2 + diff }
    else Step.next s

/-- The four results of `CalculateDifficulty`: the returned value and the reference
parameters `p1_adjusted`, `p2_adjusted`, `distance`. -/
structure Outcome (α : Type) where
  difficulty : α
  p1_adjusted : Vec3 α
  p2_adjusted : Vec3 α
  distance : α

/-- The `while (true)` loop of `CalculateDifficulty`, run for at most `fuel` passes;
`none` when the passes are used up before a `return`. -/
def searchLoop (sqrt : α → α) (C : CostModel α) (T : RangeTerrain α) (b : BaseArc α) :
    Nat → SearchState α → Option (Outcome α)
  | 0, _ => none
  | fuel + 1, s =>
    match iteration sqrt C T b s with
    | Step.ret value p1_adjusted p2_adjusted =>
      some { difficulty := value, p1_adjusted := p1_adjusted, p2_adjusted := p2_adjusted,
             distance := b.distance }
    | Step.next s' => searchLoop sqrt C T b fuel s'

/-- The state in which the loop is entered: `heightSteps` from the forced elevation,
`curveSteps = comboSteps = 0`, `p1_adjusted = p1`, `p2_adjusted = p2`. -/
def initialState (b : BaseArc α) : SearchState α :=
  { heightSteps := b.heightSteps, curveSteps := 0, comboSteps := 0,
    p1_adjusted := b.p1, p2_adjusted := b.p2 }

/-- The method `DifficultyAnalyzer::CalculateDifficulty`, its loop limited to `fuel`
passes. -/
def CalculateDifficulty (sqrt : α → α) (C : CostModel α) (T : RangeTerrain α) (fuel : Nat)
    (tee target : Vec3 α) : Option (Outcome α) :=
  let b := baseArc sqrt C tee target
  if PathIsClear T b.adjustedTee b.p1 b.p2 b.adjustedTarget then
    some { difficulty := b.distance + C.HeightDifficulty ((b.heightSteps : α) * heightPerStep)
             + b.initialHeightDifficulty,
           p1_adjusted := b.p1, p2_adjusted := b.p2, distance := b.distance }
  else searchLoop sqrt C T b fuel (initialState b)

end Defs

/-! ## What the scanning loops read -/

section Mesh

variable {α : Type} [LinearOrderedField α]

/-- Offsets that the two `for` loops visit: `0, 36, 72, ...` below `loopBound`. -/
def RangeTerrain.scanned (T : RangeTerrain α) (i : Int) : Prop :=
  0 ≤ i ∧ 36 ∣ i ∧ i < T.loopBound

/-- Offsets at which `vertexData` stores a triangle: the loops read a triangle as 36
consecutive floats (vertices at `i`, `i+12`, `i+24`, stride 36), so the triangles of the
mesh are the blocks `[i, i+36)` with `36 ∣ i` that lie inside the `floatCount` floats. -/
def RangeTerrain.stored (T : RangeTerrain α) (i : Int) : Prop :=
  0 ≤ i ∧ 36 ∣ i ∧ i + 36 ≤ T.floatCount

/-- The point `start + t * dir` is the point `v0 + u * e1 + v * e2` of the triangle stored
at offset `i`, where `x = (t, u, v)`. -/
def RangeTerrain.solves (T : RangeTerrain α) (start dir : Vec3 α) (i : Int) (x : Vec3 α) :
    Prop :=
  start + dir.scale x.x = T.v0 i + (T.v1 i - T.v0 i).scale x.y + (T.v2 i - T.v0 i).scale x.z

end Mesh

/-! ## The passes of the search loop, described -/

section Passes

variable {α : Type} [LinearOrderedField α]

/-- The condition under which a pass returns `-1`: all three candidates exceed
`IMPOSSIBLE`. -/
def allExceed (sqrt : α → α) (C : CostModel α) (b : BaseArc α) (s : SearchState α) : Prop :=
  heightDifficulty C b s > IMPOSSIBLE ∧ curveDifficulty C b s > IMPOSSIBLE
    ∧ comboDifficulty sqrt C b s > IMPOSSIBLE

/-- The local `minDifficulty` of the loop body. -/
def minDifficulty (sqrt : α → α) (C : CostModel α) (b : BaseArc α) (s : SearchState α) : α :=
  min (heightDifficulty C b s) (min (curveDifficulty C b s) (comboDifficulty sqrt C b s))

/-- The state in which a pass that tests its track and finds it blocked leaves the loop
variables: the counter of the chosen track is one higher, and `p1_adjusted`, `p2_adjusted`
hold the last perturbation that was tested. -/
def advance (sqrt : α → α) (C : CostModel α) (b : BaseArc α) (s : SearchState α) :
    SearchState α :=
  if minDifficulty sqrt C b s = heightDifficulty C b s then
    { s with heightSteps := s.heightSteps + 1,
             p1_adjusted := b.p1 + b.up.scale (((s.heightSteps + 1 : Int) : α) * heightPerStep),
             p2_adjusted := b.p2 + b.up.scale (((s.heightSteps + 1 : Int) : α) * heightPerStep) }
  else if minDifficulty sqrt C b s = curveDifficulty C b s then
    { s with curveSteps := s.curveSteps + 1,
             p1_adjusted :=
               b.p1 + (-b.right).scale (((s.curveSteps + 1 : Int) : α) * curvePerStep),
             p2_adjusted :=
               b.p2 + (-b.right).scale (((s.curveSteps + 1 : Int) : α) * curvePerStep) }
  else if minDifficulty sqrt C b s = comboDifficulty sqrt C b s then
    { s with comboSteps := s.comboSteps + 1,
             p1_adjusted :=
               b.p1 + (b.up.scale (((s.comboSteps + 1 : Int) : α) * heightPerStep)
                 - b.right.scale (((s.comboSteps + 1 : Int) : α) * curvePerStep)),
             p2_adjusted :=
               b.p2 + (b.up.scale (((s.comboSteps + 1 : Int) : α) * heightPerStep)
                 - b.right.scale (((s.comboSteps + 1 : Int) : α) * curvePerStep)) }
  else s

/-- Every perturbation that the pass from state `s` tests is blocked in the terrain `T`:
the raised arc when the height track is chosen, the arcs shifted to the right and to the
left when the curve track is chosen, the two diagonal shifts when the combo track is. -/
def testedBlocked (sqrt : α → α) (C : CostModel α) (T : RangeTerrain α) (b : BaseArc α)
    (s : SearchState α) : Bool :=
  if minDifficulty sqrt C b s = heightDifficulty C b s then
    !PathIsClear T b.adjustedTee
      (b.p1 + b.up.scale (((s.heightSteps + 1 : Int) : α) * heightPerStep))
      (b.p2 + b.up.scale (((s.heightSteps + 1 : Int) : α) * heightPerStep)) b.adjustedTarget
  else if minDifficulty sqrt C b s = curveDifficulty C b s then
    !PathIsClear T b.adjustedTee
        (b.p1 + b.right.scale (((s.curveSteps + 1 : Int) : α) * curvePerStep))
        (b.p2 + b.right.scale (((s.curveSteps + 1 : Int) : α) * curvePerStep))
        b.adjustedTarget
    && !PathIsClear T b.adjustedTee
        (b.p1 + (-b.right).scale (((s.curveSteps + 1 : Int) : α) * curvePerStep))
        (b.p2 + (-b.right).scale (((s.curveSteps + 1 : Int) : α) * curvePerStep))
        b.adjustedTarget
  else if minDifficulty sqrt C b s = comboDifficulty sqrt C b s then
    !PathIsClear T b.adjustedTee
        (b.p1 + (b.up.scale (((s.comboSteps + 1 : Int) : α) * heightPerStep)
          + b.right.scale (((s.comboSteps + 1 : Int) : α) * curvePerStep)))
        (b.p2 + (b.up.scale (((s.comboSteps + 1 : Int) : α) * heightPerStep)
          + b.right.scale (((s.comboSteps + 1 : Int) : α) * curvePerStep)))
        b.adjustedTarget
    && !PathIsClear T b.adjustedTee
        (b.p1 + (b.up.scale (((s.comboSteps + 1 : Int) : α) * heightPerStep)
          - b.right.scale (((s.comboSteps + 1 : Int) : α) * curvePerStep)))
        (b.p2 + (b.up.scale (((s.comboSteps + 1 : Int) : α) * heightPerStep)
          - b.right.scale (((s.comboSteps + 1 : Int) : α) * curvePerStep)))
        b.adjustedTarget
  else true

/-- The loop variables after `n` passes that all found their perturbations blocked, when
the first of these passes starts in state `s`. -/
def stateAfter (sqrt : α → α) (C : CostModel α) (b : BaseArc α) (s : SearchState α)
    (n : Nat) : SearchState α :=
  (advance sqrt C b)^[n] s

/-- The pass from state `s` returns, and `out` is what `CalculateDifficulty` then yields. -/
def returnsWith (sqrt : α → α) (C : CostModel α) (T : RangeTerrain α) (b : BaseArc α)
    (s : SearchState α) (out : Outcome α) : Prop :=
  ∃ v p1 p2, iteration sqrt C T b s = Step.ret v p1 p2 ∧
    out = { difficulty := v, p1_adjusted := p1, p2_adjusted := p2, distance := b.distance }

/-- The loop variables of `CalculateDifficulty` at the start of pass `n` (counted from 0)
of its loop, when all earlier passes found their perturbations blocked. -/
def passState [FloorRing α] (sqrt : α → α) (C : CostModel α) (tee target : Vec3 α)
    (n : Nat) : SearchState α :=
  stateAfter sqrt C (baseArc sqrt C tee target) (initialState (baseArc sqrt C tee target)) n

end Passes

/-! ## Concrete terrains -/

section Examples

/-- Vertex data holding the triangles of a list one after the other: triangle `k` fills the
floats `36k .. 36k+35`, its vertex positions at `36k`, `36k+12` and `36k+24` (where the
loops read them) and `0` in the remaining floats of each vertex. -/
def packTriangles {α : Type} [Zero α] (ts : List (Vec3 α × Vec3 α × Vec3 α)) (i : Int) : α :=
  match ts.get? (i / 36).toNat with
  | none => 0
  | some (a, b, c) =>
    let r := i % 36
    if r = 0 then a.x else if r = 1 then a.y else if r = 2 then a.z
    else if r = 12 then b.x else if r = 13 then b.y else if r = 14 then b.z
    else if r = 24 then c.x else if r = 25 then c.y else if r = 26 then c.z
    else 0

/-- A terrain of `2 x 2` grid points, hence two triangles of 36 floats each: the first one
far from the origin, the second (and last) one in the plane `y = 0` around the origin. -/
def twoTriangles : RangeTerrain ℚ :=
  { X_INTERVAL := 2, Y_INTERVAL := 2, FLOATS_PER_TRIANGLE := 36,
    vertexData := packTriangles
      [(⟨10, 0, 10⟩, ⟨11, 0, 10⟩, ⟨10, 0, 11⟩), (⟨-1, 0, -1⟩, ⟨3, 0, -1⟩, ⟨-1, 0, 3⟩)] }

/-- The terrain `twoTriangles` with its two triangles stored in the other order. -/
def twoTrianglesSwapped : RangeTerrain ℚ :=
  { X_INTERVAL := 2, Y_INTERVAL := 2, FLOATS_PER_TRIANGLE := 36,
    vertexData := packTriangles
      [(⟨-1, 0, -1⟩, ⟨3, 0, -1⟩, ⟨-1, 0, 3⟩), (⟨10, 0, 10⟩, ⟨11, 0, 10⟩, ⟨10, 0, 11⟩)] }

/-- A terrain of two triangles over the origin: the one stored first in the plane `y = -5`,
the one stored last in the plane `y = 0`. -/
def nearStoredLast : RangeTerrain ℚ :=
  { X_INTERVAL := 2, Y_INTERVAL := 2, FLOATS_PER_TRIANGLE := 36,
    vertexData := packTriangles
      [(⟨-1, -5, -1⟩, ⟨3, -5, -1⟩, ⟨-1, -5, 3⟩), (⟨-1, 0, -1⟩, ⟨3, 0, -1⟩, ⟨-1, 0, 3⟩)] }

/-- The value of `std::numeric_limits<float>::max()`, `(2 - 2^(-23)) * 2^127`. -/
def FLT_MAX : ℚ := 340282346638528859811704183484516925440

/-- A terrain of a single grid point: it has no triangle. -/
def noTriangles {α : Type} [Zero α] : RangeTerrain α :=
  { X_INTERVAL := 1, Y_INTERVAL := 1, FLOATS_PER_TRIANGLE := 36, vertexData := fun _ => 0 }

/-- A cost model within the contract of the specification (0 at 0, strictly increasing,
continuous): every cost is the step magnitude itself, the combined cost the sum of its
two magnitudes. -/
def linearCosts {α : Type} [Add α] : CostModel α :=
  { HeightDifficulty := fun h => h, CurveDifficulty := fun c => c,
    ComboDifficulty := fun h c => h + c }

/-- A terrain of `2 x 2` grid points whose first triangle lies in the plane `y = 1/5`
over the origin, just above a tee at height `1/10`; the last triangle is far away. -/
def teeCover {α : Type} [LinearOrderedField α] : RangeTerrain α :=
  { X_INTERVAL := 2, Y_INTERVAL := 2, FLOATS_PER_TRIANGLE := 36,
    vertexData := packTriangles
      [(⟨-1, 1 / 5, -1⟩, ⟨3, 1 / 5, -1⟩, ⟨-1, 1 / 5, 3⟩),
       (⟨10, 0, 10⟩, ⟨11, 0, 10⟩, ⟨10, 0, 11⟩)] }

/-- A cost model within the contract of the specification (0 at 0, strictly increasing,
continuous) whose height cost stays below 1. -/
def boundedHeightCosts {α : Type} [LinearOrderedField α] : CostModel α :=
  { HeightDifficulty := fun h => h / (1 + |h|), CurveDifficulty := fun c => 2 * c,
    ComboDifficulty := fun h c => 2 * h + 2 * c }

/-- A cost model within the contract of the specification (0 at 0, strictly increasing,
continuous) with a cost of 1000 per unit of step magnitude. -/
def steepCosts {α : Type} [LinearOrderedField α] : CostModel α :=
  { HeightDifficulty := fun h => 1000 * h, CurveDifficulty := fun c => 1000 * c,
    ComboDifficulty := fun h c => 1000 * h + 1000 * c }

/-- The locals of `CalculateDifficulty` for the tee `(0,0,0)` and the target `(4,0,0)`
(see `baseArc_example`). -/
def exampleArc {α : Type} [LinearOrderedField α] : BaseArc α :=
  { distance := 4, adjustedTee := ⟨0, 1 / 10, 0⟩, adjustedTarget := ⟨4, 1 / 10, 0⟩,
    L := 4, h := 0, heightSteps := 0, initialHeightDifficulty := 0,
    adjustedHeight := 20, l := 4, dir := ⟨1, 0, 0⟩, up := ⟨0, 1, 0⟩,
    right := ⟨0, 0, 1⟩, p1 := ⟨2, 201 / 10, 0⟩, p2 := ⟨14 / 5, 201 / 10, 0⟩ }

/-- A terrain of `2 x 2` grid points whose first triangle stands in the plane `x = 12/5`,
between the heights 20 and 20.5, across the middle leg of the base arc from `(0,0,0)` to
`(4,0,0)`; the last triangle is far away. -/
def wall {α : Type} [LinearOrderedField α] : RangeTerrain α :=
  { X_INTERVAL := 2, Y_INTERVAL := 2, FLOATS_PER_TRIANGLE := 36,
    vertexData := packTriangles
      [(⟨12 / 5, 20, -1⟩, ⟨12 / 5, 20, 1⟩, ⟨12 / 5, 41 / 2, 0⟩),
       (⟨10, 0, 10⟩, ⟨11, 0, 10⟩, ⟨10, 0, 11⟩)] }

/-! ## More concrete inputs -/

/-- A terrain of `2 x 2` grid points whose first triangle lies in the plane `y = 0` around
the origin; segments and rays inside that plane give a singular system matrix. -/
def coplanar : RangeTerrain ℚ :=
  { X_INTERVAL := 2, Y_INTERVAL := 2, FLOATS_PER_TRIANGLE := 36,
    vertexData := packTriangles
      [(⟨-1, 0, -1⟩, ⟨3, 0, -1⟩, ⟨-1, 0, 3⟩), (⟨10, 0, 10⟩, ⟨11, 0, 10⟩, ⟨10, 0, 11⟩)] }

/-- The locals of `CalculateDifficulty` for the tee `(0,0,0)`, the target `(7,24,0)` and the
costs `linearCosts` (see `baseArc_elevated`): the elevation is forced, with 5 steps. -/
def elevatedArc {α : Type} [LinearOrderedField α] : BaseArc α :=
  { distance := 25, adjustedTee := ⟨0, 1 / 10, 0⟩, adjustedTarget := ⟨7, 241 / 10, 0⟩,
    L := 7, h := 24, heightSteps := 5, initialHeightDifficulty := 5,
    adjustedHeight := 25, l := 875 / 89, dir := ⟨1, 0, 0⟩, up := ⟨0, 1, 0⟩,
    right := ⟨0, 0, 1⟩, p1 := ⟨875 / 178, 251 / 10, 0⟩, p2 := ⟨1225 / 178, 251 / 10, 0⟩ }

/-- A terrain of `2 x 2` grid points whose first triangle stands in the plane `x = 6`,
between the heights 25 and 25.5, across the middle leg of the base arc from `(0,0,0)` to
`(7,24,0)`; the last triangle is far away. -/
def highWall {α : Type} [LinearOrderedField α] : RangeTerrain α :=
  { X_INTERVAL := 2, Y_INTERVAL := 2, FLOATS_PER_TRIANGLE := 36,
    vertexData := packTriangles
      [(⟨6, 25, -1⟩, ⟨6, 25, 1⟩, ⟨6, 51 / 2, 0⟩),
       (⟨100, 0, 100⟩, ⟨101, 0, 100⟩, ⟨100, 0, 101⟩)] }

/-- A cost model within the contract of the specification (0 at 0, strictly increasing,
continuous) in which a curve costs twice its magnitude. -/
def dearCurveCosts {α : Type} [LinearOrderedField α] : CostModel α :=
  { HeightDifficulty := fun h => h, CurveDifficulty := fun c => 2 * c,
    ComboDifficulty := fun h c => h + c }

/-- A terrain of `2 x 2` grid points whose first triangle stands in the plane `x = 12/5`,
between the heights 20 and 23 and narrower than 1, across the middle leg of the base arc
from `(0,0,0)` to `(4,0,0)` and of the arc raised by 1; the last triangle is far away. -/
def tallWall {α : Type} [LinearOrderedField α] : RangeTerrain α :=
  { X_INTERVAL := 2, Y_INTERVAL := 2, FLOATS_PER_TRIANGLE := 36,
    vertexData := packTriangles
      [(⟨12 / 5, 20, -1 / 2⟩, ⟨12 / 5, 20, 1 / 2⟩, ⟨12 / 5, 23, 0⟩),
       (⟨10, 0, 10⟩, ⟨11, 0, 10⟩, ⟨10, 0, 11⟩)] }

end Examples

/-! ## The three tracks -/

section Tracks

variable {α : Type} [LinearOrderedField α]

/-- The three adjustment tracks of the search: more height, a lateral curve, or both. -/
inductive Track where
  | height : Track
  | curve : Track
  | combo : Track
deriving DecidableEq

/-- The step counter of a track: `heightSteps`, `curveSteps` or `comboSteps`. -/
def SearchState.counter (s : SearchState α) : Track → Int
  | Track.height => s.heightSteps
  | Track.curve => s.curveSteps
  | Track.combo => s.comboSteps

/-- The vector `diff` that a pass adds to `p1` and `p2` when its track stands at step
count `k`; `mirrored` tells the second trial of the curve and combo tracks (to the left)
from the first (to the right).  The height track has one trial only. -/
def shift (b : BaseArc α) : Track → Bool → Int → Vec3 α
  | Track.height, _, k => b.up.scale ((k : α) * heightPerStep)
  | Track.curve, false, k => b.right.scale ((k : α) * curvePerStep)
  | Track.curve, true, k => (-b.right).scale ((k : α) * curvePerStep)
  | Track.combo, false, k =>
    b.up.scale ((k : α) * heightPerStep) + b.right.scale ((k : α) * curvePerStep)
  | Track.combo, true, k =>
    b.up.scale ((k : α) * heightPerStep) - b.right.scale ((k : α) * curvePerStep)

/-- The candidate difficulty that the loop body computes for bringing a track to step
count `k` (lines 82 to 84, where `k` is the counter plus one). -/
def candidate (sqrt : α → α) (C : CostModel α) (b : BaseArc α) : Track → Int → α
  | Track.height, k => b.distance + C.HeightDifficulty ((k : α) * heightPerStep)
  | Track.curve, k =>
    b.distance + C.CurveDifficulty ((k : α) * curvePerStep) + b.initialHeightDifficulty
  | Track.combo, k =>
    b.distance + C.ComboDifficulty ((k : α) * comboPerStep sqrt) ((k : α) * comboPerStep sqrt)

/-- The branch that the chain `if (minDifficulty == heightDifficulty) ... else if
(minDifficulty == curveDifficulty) ... else if (minDifficulty == comboDifficulty)` enters;
`none` when no comparison holds. -/
def chosenTrack (sqrt : α → α) (C : CostModel α) (b : BaseArc α) (s : SearchState α) :
    Option Track :=
  if minDifficulty sqrt C b s = heightDifficulty C b s then some Track.height
  else if minDifficulty sqrt C b s = curveDifficulty C b s then some Track.curve
  else if minDifficulty sqrt C b s = comboDifficulty sqrt C b s then some Track.combo
  else none

/-- The arc shifted by `v` is clear: `PathIsClear(adjustedTee, p1 + v, p2 + v,
adjustedTarget)`. -/
def clearWith (T : RangeTerrain α) (b : BaseArc α) (v : Vec3 α) : Bool :=
  PathIsClear T b.adjustedTee (b.p1 + v) (b.p2 + v) b.adjustedTarget

/-- The loop variables after a pass on track `t` that found it blocked: the counter of `t`
is one higher and `p1_adjusted`, `p2_adjusted` are shifted by `v`, the last shift tried. -/
def SearchState.bump (b : BaseArc α) (s : SearchState α) (t : Track) (v : Vec3 α) :
    SearchState α :=
  match t with
  | Track.height =>
    { s with heightSteps := s.heightSteps + 1, p1_adjusted := b.p1 + v,
             p2_adjusted := b.p2 + v }
  | Track.curve =>
    { s with curveSteps := s.curveSteps + 1, p1_adjusted := b.p1 + v,
             p2_adjusted := b.p2 + v }
  | Track.combo =>
    { s with comboSteps := s.comboSteps + 1, p1_adjusted := b.p1 + v,
             p2_adjusted := b.p2 + v }

/-- What the branch of track `t` does in a pass from state `s`: with `k` the counter of
`t` plus one, it tries the shift of `t` at `k` (and, for curve and combo, the mirrored
shift when the first is blocked); on a clear path it returns the candidate of `t` at `k`
with the shifted control points, otherwise it goes on with the counter at `k`. -/
def trackPass (sqrt : α → α) (C : CostModel α) (T : RangeTerrain α) (b : BaseArc α)
    (s : SearchState α) (t : Track) : Step α :=
  if clearWith T b (shift b t false (s.counter t + 1)) then
    Step.ret (candidate sqrt C b t (s.counter t + 1))
      (b.p1 + shift b t false (s.counter t + 1)) (b.p2 + shift b t false (s.counter t + 1))
  else if t = Track.height then
    Step.next (s.bump b t (shift b t false (s.counter t + 1)))
  else if clearWith T b (shift b t true (s.counter t + 1)) then
    Step.ret (candidate sqrt C b t (s.counter t + 1))
      (b.p1 + shift b t true (s.counter t + 1)) (b.p2 + shift b t true (s.counter t + 1))
  else Step.next (s.bump b t (shift b t true (s.counter t + 1)))

end Tracks

/-! ## The 32-bit `int heightSteps` -/

section Int32

variable {α : Type} [LinearOrderedField α] [FloorRing α]

/-- The conversion of a floating value to `int`, as on line 57, where the floating value
`1 + ceil(...)` is assigned to `int heightSteps`: the value is truncated towards zero when
the result fits 32 bits; for a value out of that range (where C++ leaves the result
open) the conversion instruction of x86 yields `INT_MIN`. -/
def toInt32 (x : α) : Int :=
  if -2147483649 < x ∧ x < 2147483648 then
    if 0 ≤ x then Int.floor x else Int.ceil x
  else -2147483648

/-- The first part of `CalculateDifficulty` (lines 36 to 69), as `baseArc`, with the
conversion to the 32-bit `int heightSteps` on line 57 made explicit. -/
def baseArcInt32 (sqrt : α → α) (C : CostModel α) (tee target : Vec3 α) : BaseArc α :=
  let distance := length sqrt (target - tee)
  let adjustedTee := tee + ⟨0, 1 / 10, 0⟩
  let adjustedTarget := target + ⟨0, 1 / 10, 0⟩
  let tee_to_target_xz : Vec3 α := { (adjustedTarget - adjustedTee) with y := 0 }
  let L := length sqrt tee_to_target_xz
  let h := adjustedTarget.y - adjustedTee.y
  let elevate : Bool := decide (h + heightPerStep > defaultShotHeight)
  let heightSteps : Int :=
    if elevate then
      toInt32 ((1 : α) + ((Int.ceil ((h - defaultShotHeight) / heightPerStep) : Int) : α))
    else 0
  let adjustedHeight : α :=
    if elevate then defaultShotHeight + (heightSteps : α) * heightPerStep
    else defaultShotHeight
  let initialHeightDifficulty : α :=
    if elevate then C.HeightDifficulty ((heightSteps : α) * heightPerStep) else 0
  let l := (L * adjustedHeight) / (adjustedHeight - h * (1 - p2_relative))
  let dir := normalize sqrt tee_to_target_xz
  let up : Vec3 α := ⟨0, 1, 0⟩
  let right := cross dir up
  let p1 := adjustedTee + (dir.scale l).scale p1_relative + up.scale adjustedHeight
  let p2 := adjustedTee + (dir.scale l).scale p2_relative + up.scale adjustedHeight
  { distance := distance, adjustedTee := adjustedTee, adjustedTarget := adjustedTarget,
    L := L, h := h, heightSteps := heightSteps,
    initialHeightDifficulty := initialHeightDifficulty, adjustedHeight := adjustedHeight,
    l := l, dir := dir, up := up, right := right, p1 := p1, p2 := p2 }

/-- The method `DifficultyAnalyzer::CalculateDifficulty`, as `CalculateDifficulty`, with
the conversion to the 32-bit `int heightSteps` on line 57 made explicit. -/
def CalculateDifficultyInt32 (sqrt : α → α) (C : CostModel α) (T : RangeTerrain α)
    (fuel : Nat) (tee target : Vec3 α) : Option (Outcome α) :=
  let b := baseArcInt32 sqrt C tee target
  if PathIsClear T b.adjustedTee b.p1 b.p2 b.adjustedTarget then
    some { difficulty := b.distance + C.HeightDifficulty ((b.heightSteps : α) * heightPerStep)
             + b.initialHeightDifficulty,
           p1_adjusted := b.p1, p2_adjusted := b.p2, distance := b.distance }
  else searchLoop sqrt C T b fuel (initialState b)

/-- The loop variables of `CalculateDifficultyInt32` at the start of pass `n` (counted
from 0) of its loop, when all earlier passes found their perturbations blocked. -/
def passStateInt32 (sqrt : α → α) (C : CostModel α) (tee target : Vec3 α) (n : Nat) :
    SearchState α :=
  stateAfter sqrt C (baseArcInt32 sqrt C tee target)
    (initialState (baseArcInt32 sqrt C tee target)) n

end Int32

/-! ## Lemmas: scanned and stored offsets -/

section MeshLemmas

/-- Every offset that the loops visit holds a stored triangle. -/
theorem RangeTerrain.scanned_stored {α : Type} (T : RangeTerrain α) (i : Int) (h : T.scanned i) :
    T.stored i := by
  obtain ⟨h0, hd, hb⟩ := h
  refine ⟨h0, hd, ?_⟩
  unfold RangeTerrain.loopBound at hb
  omega

end MeshLemmas

/-! ## Lemmas: vectors and the linear solve -/

section Lemmas

variable {α : Type} [LinearOrderedField α]

@[simp] theorem Vec3.add_x (a b : Vec3 α) : (a + b).x = a.x + b.x := rfl
@[simp] theorem Vec3.add_y (a b : Vec3 α) : (a + b).y = a.y + b.y := rfl
@[simp] theorem Vec3.add_z (a b : Vec3 α) : (a + b).z = a.z + b.z := rfl
@[simp] theorem Vec3.sub_x (a b : Vec3 α) : (a - b).x = a.x - b.x := rfl
@[simp] theorem Vec3.sub_y (a b : Vec3 α) : (a - b).y = a.y - b.y := rfl
@[simp] theorem Vec3.sub_z (a b : Vec3 α) : (a - b).z = a.z - b.z := rfl
@[simp] theorem Vec3.neg_x (a : Vec3 α) : (-a).x = -a.x := rfl
@[simp] theorem Vec3.neg_y (a : Vec3 α) : (-a).y = -a.y := rfl
@[simp] theorem Vec3.neg_z (a : Vec3 α) : (-a).z = -a.z := rfl
@[simp] theorem Vec3.scale_x (a : Vec3 α) (s : α) : (a.scale s).x = a.x * s := rfl
@[simp] theorem Vec3.scale_y (a : Vec3 α) (s : α) : (a.scale s).y = a.y * s := rfl
@[simp] theorem Vec3.scale_z (a : Vec3 α) (s : α) : (a.scale s).z = a.z * s := rfl

/-- For a regular matrix, `glm::inverse(A) * b` solves `A * x = b`. -/
theorem Mat3.mulVec_inverse (m : Mat3 α) (b : Vec3 α) (hdet : m.determinant ≠ 0) :
    m.mulVec (m.inverse.mulVec b) = b := by
  have hd := hdet
  unfold Mat3.determinant at hd
  ext <;> simp only [Mat3.mulVec, Mat3.inverse, Mat3.determinant] <;> field_simp <;> ring

/-- For a regular matrix, `glm::inverse(A) * (A * x)` is `x`. -/
theorem Mat3.inverse_mulVec (m : Mat3 α) (x : Vec3 α) (hdet : m.determinant ≠ 0) :
    m.inverse.mulVec (m.mulVec x) = x := by
  have hd := hdet
  unfold Mat3.determinant at hd
  ext <;> simp only [Mat3.mulVec, Mat3.inverse, Mat3.determinant] <;> field_simp <;> ring

/-- For a singular matrix the modelled `glm::inverse(A) * b` is the zero vector. -/
theorem Mat3.inverse_mulVec_singular (m : Mat3 α) (b : Vec3 α) (hdet : m.determinant = 0) :
    m.inverse.mulVec b = ⟨0, 0, 0⟩ := by
  ext <;> simp [Mat3.mulVec, Mat3.inverse, hdet]

/-- `A * x = start - v0` says that `x = (t, u, v)` gives a common point of ray and triangle. -/
theorem RangeTerrain.solves_iff (T : RangeTerrain α) (start dir : Vec3 α) (i : Int)
    (x : Vec3 α) :
    T.solves start dir i x ↔ (T.systemMatrix dir i).mulVec x = start - T.v0 i := by
  unfold RangeTerrain.solves RangeTerrain.systemMatrix Mat3.mulVec
  constructor
  · intro h
    have hx := congrArg Vec3.x h
    have hy := congrArg Vec3.y h
    have hz := congrArg Vec3.z h
    simp only [Vec3.add_x, Vec3.add_y, Vec3.add_z, Vec3.scale_x, Vec3.scale_y, Vec3.scale_z,
      Vec3.sub_x, Vec3.sub_y, Vec3.sub_z] at hx hy hz
    ext <;> simp only [Vec3.neg_x, Vec3.neg_y, Vec3.neg_z, Vec3.sub_x, Vec3.sub_y, Vec3.sub_z]
      <;> linarith
  · intro h
    have hx := congrArg Vec3.x h
    have hy := congrArg Vec3.y h
    have hz := congrArg Vec3.z h
    simp only [Vec3.neg_x, Vec3.neg_y, Vec3.neg_z, Vec3.sub_x, Vec3.sub_y, Vec3.sub_z]
      at hx hy hz
    ext <;> simp only [Vec3.add_x, Vec3.add_y, Vec3.add_z, Vec3.scale_x, Vec3.scale_y,
      Vec3.scale_z, Vec3.sub_x, Vec3.sub_y, Vec3.sub_z] <;> linarith

/-- With a regular system matrix the computed `x` is a solution. -/
theorem RangeTerrain.solve_solves (T : RangeTerrain α) (start dir : Vec3 α) (i : Int)
    (hdet : (T.systemMatrix dir i).determinant ≠ 0) :
    T.solves start dir i (T.solve start dir i) := by
  rw [RangeTerrain.solves_iff]
  exact Mat3.mulVec_inverse _ _ hdet

/-- With a regular system matrix every solution is the computed `x`. -/
theorem RangeTerrain.solve_unique (T : RangeTerrain α) (start dir : Vec3 α) (i : Int)
    (x : Vec3 α) (hdet : (T.systemMatrix dir i).determinant ≠ 0)
    (hx : T.solves start dir i x) : T.solve start dir i = x := by
  rw [RangeTerrain.solves_iff] at hx
  unfold RangeTerrain.solve
  rw [← hx]
  exact Mat3.inverse_mulVec _ _ hdet

/-- With a singular system matrix the computed `t` is `0`. -/
theorem RangeTerrain.solve_singular (T : RangeTerrain α) (start dir : Vec3 α) (i : Int)
    (hdet : (T.systemMatrix dir i).determinant = 0) :
    T.solve start dir i = ⟨0, 0, 0⟩ :=
  Mat3.inverse_mulVec_singular _ _ hdet

theorem segmentTest_iff (x : Vec3 α) :
    segmentTest x = true ↔ 0 < x.x ∧ x.x < 1 ∧ 0 ≤ x.y ∧ 0 ≤ x.z ∧ x.y + x.z ≤ 1 := by
  simp [segmentTest, and_assoc]

theorem rayTest_iff (c : α) (x : Vec3 α) :
    rayTest c x = true ↔ x.x < c ∧ 0 < x.x ∧ 0 ≤ x.y ∧ 0 ≤ x.z ∧ x.y + x.z ≤ 1 := by
  simp [rayTest, and_assoc]

/-- A triangle that passes the segment test has a regular system matrix. -/
theorem segmentTest_regular (T : RangeTerrain α) (start dir : Vec3 α) (i : Int)
    (h : segmentTest (T.solve start dir i) = true) :
    (T.systemMatrix dir i).determinant ≠ 0 := by
  intro hdet
  rw [RangeTerrain.solve_singular T start dir i hdet, segmentTest_iff] at h
  exact lt_irrefl _ h.1

/-- A triangle that passes the ray test has a regular system matrix. -/
theorem rayTest_regular (T : RangeTerrain α) (start dir : Vec3 α) (i : Int) (c : α)
    (h : rayTest c (T.solve start dir i) = true) :
    (T.systemMatrix dir i).determinant ≠ 0 := by
  intro hdet
  rw [RangeTerrain.solve_singular T start dir i hdet, rayTest_iff] at h
  exact lt_irrefl _ h.2.1

/-- The loop of `IntersectionBetweenPoints` started at `i` answers `true` exactly when one
of the offsets `i, i+36, ...` below the bound passes the test. -/
theorem IntersectionBetweenPoints.loop_iff (T : RangeTerrain α) (start dir : Vec3 α)
    (i : Int) :
    IntersectionBetweenPoints.loop T start dir i = true ↔
      ∃ k : Nat, i + 36 * k < T.loopBound ∧
        segmentTest (T.solve start dir (i + 36 * k)) = true := by
  induction i using IntersectionBetweenPoints.loop.induct T start dir with
  | case1 i h1 h2 =>
    rw [IntersectionBetweenPoints.loop]
    simp only [h1, h2, if_true, true_iff]
    exact ⟨0, by simpa using h1, by simpa using h2⟩
  | case2 i h1 h2 ih =>
    rw [IntersectionBetweenPoints.loop]
    simp only [h1, h2, if_true, if_false, Bool.false_eq_true]
    rw [ih]
    constructor
    · rintro ⟨k, hk1, hk2⟩
      refine ⟨k + 1, ?_, ?_⟩
      · push_cast; omega
      · have e : i + 36 * ((k + 1 : Nat) : Int) = i + 36 + 36 * (k : Int) := by
          push_cast; ring
        rw [e]; exact hk2
    · rintro ⟨k, hk1, hk2⟩
      cases k with
      | zero =>
        simp only [Nat.cast_zero, mul_zero, add_zero] at hk2
        exact absurd hk2 h2
      | succ k =>
        have e : i + 36 * ((k + 1 : Nat) : Int) = i + 36 + 36 * (k : Int) := by
          push_cast; ring
        rw [e] at hk1 hk2
        exact ⟨k, hk1, hk2⟩
  | case3 i h1 =>
    rw [IntersectionBetweenPoints.loop]
    simp only [h1, if_false, Bool.false_eq_true, false_iff]
    rintro ⟨k, hk1, -⟩
    omega

/-- The method `IntersectionBetweenPoints` answers `true` exactly when a scanned triangle
passes the test. -/
theorem IntersectionBetweenPoints_iff (T : RangeTerrain α) (start end_ : Vec3 α) :
    IntersectionBetweenPoints T start end_ = true ↔
      ∃ i, T.scanned i ∧ segmentTest (T.solve start (end_ - start) i) = true := by
  unfold IntersectionBetweenPoints
  rw [IntersectionBetweenPoints.loop_iff]
  constructor
  · rintro ⟨k, hk1, hk2⟩
    refine ⟨0 + 36 * (k : Int), ⟨by omega, ⟨k, by ring⟩, hk1⟩, hk2⟩
  · rintro ⟨i, ⟨h0, ⟨c, hc⟩, hb⟩, ht⟩
    refine ⟨c.toNat, ?_, ?_⟩
    · have : ((c.toNat : Nat) : Int) = c := Int.toNat_of_nonneg (by omega)
      rw [this]; omega
    · have : ((c.toNat : Nat) : Int) = c := Int.toNat_of_nonneg (by omega)
      rw [this, zero_add, ← hc]; exact ht

/-- The loop of `ClosestIntersection` either leaves `closest_t`, `closest_index` as they
were, or ends with the offset of a visited triangle that passed the test and with its `t`. -/
theorem ClosestIntersection.loop_spec (T : RangeTerrain α) (start dir : Vec3 α) (i : Int)
    (c : α) (ci : Int) :
    ClosestIntersection.loop T start dir i c ci = (c, ci) ∨
      ∃ k : Nat, i + 36 * k < T.loopBound ∧
        (ClosestIntersection.loop T start dir i c ci).2 = i + 36 * k ∧
        (ClosestIntersection.loop T start dir i c ci).1 = (T.solve start dir (i + 36 * k)).x ∧
        rayTest c (T.solve start dir (i + 36 * k)) = true := by
  induction i, c, ci using ClosestIntersection.loop.induct T start dir with
  | case1 i c ci h1 h2 ih =>
    rw [ClosestIntersection.loop]
    simp only [h1, h2, if_true]
    right
    rcases ih with ih | ⟨k, hk1, hk2, hk3, hk4⟩
    · refine ⟨0, by simpa using h1, ?_, ?_, ?_⟩
      · rw [ih]; simp
      · rw [ih]; simp
      · simpa using h2
    · have e : i + 36 * ((k + 1 : Nat) : Int) = i + 36 + 36 * (k : Int) := by
        push_cast; ring
      refine ⟨k + 1, ?_, ?_, ?_, ?_⟩
      · rw [e]; exact hk1
      · rw [e]; exact hk2
      · rw [e]; exact hk3
      · rw [e]
        rw [rayTest_iff] at hk4 h2 ⊢
        exact ⟨lt_trans hk4.1 h2.1, hk4.2⟩
  | case2 i c ci h1 h2 ih =>
    rw [ClosestIntersection.loop]
    simp only [h1, h2, if_true, if_false, Bool.false_eq_true]
    rcases ih with ih | ⟨k, hk1, hk2, hk3, hk4⟩
    · left; exact ih
    · right
      have e : i + 36 * ((k + 1 : Nat) : Int) = i + 36 + 36 * (k : Int) := by
        push_cast; ring
      exact ⟨k + 1, by rw [e]; exact hk1, by rw [e]; exact hk2, by rw [e]; exact hk3,
        by rw [e]; exact hk4⟩
  | case3 i c ci h1 =>
    rw [ClosestIntersection.loop]
    simp only [h1, if_false]
    left; trivial

/-- A scanned triangle with a regular system matrix that the open segment crosses makes
`IntersectionBetweenPoints` answer `true`. -/
theorem IntersectionBetweenPoints_of_scanned (T : RangeTerrain α) (start end_ : Vec3 α)
    (i : Int) (x : Vec3 α) (hi : T.scanned i)
    (hdet : (T.systemMatrix (end_ - start) i).determinant ≠ 0)
    (hx : T.solves start (end_ - start) i x) (ht : segmentTest x = true) :
    IntersectionBetweenPoints T start end_ = true := by
  rw [IntersectionBetweenPoints_iff]
  exact ⟨i, hi, by rw [RangeTerrain.solve_unique T start _ i x hdet hx]; exact ht⟩

end Lemmas

/-! ## Lemmas: one pass of the search loop -/

section PassLemmas

variable {α : Type} [LinearOrderedField α]

/-- What a pass does, by cases: it returns `-1` when all candidates exceed `IMPOSSIBLE`;
otherwise it falls through to `advance s` when the tested perturbations are blocked, and
returns `minDifficulty` with a clear path when one of them is not. -/
theorem iteration_cases (sqrt : α → α) (C : CostModel α) (T : RangeTerrain α)
    (b : BaseArc α) (s : SearchState α) :
    (allExceed sqrt C b s ∧
      iteration sqrt C T b s = Step.ret (-1) s.p1_adjusted s.p2_adjusted) ∨
    (¬ allExceed sqrt C b s ∧ testedBlocked sqrt C T b s = true ∧
      iteration sqrt C T b s = Step.next (advance sqrt C b s)) ∨
    (¬ allExceed sqrt C b s ∧ testedBlocked sqrt C T b s = false ∧
      ∃ p1 p2, iteration sqrt C T b s = Step.ret (minDifficulty sqrt C b s) p1 p2 ∧
        PathIsClear T b.adjustedTee p1 p2 b.adjustedTarget = true) := by
  by_cases hall : allExceed sqrt C b s
  · left
    refine ⟨hall, ?_⟩
    unfold allExceed at hall
    simp only [iteration, hall, and_self, if_true]
  · right
    have hall2 := hall
    unfold allExceed at hall2
    unfold iteration testedBlocked advance minDifficulty
    simp only [hall2, if_false]
    split_ifs <;> simp_all [allExceed, minDifficulty] <;>
      exact ⟨_, _, ⟨rfl, rfl⟩, by assumption⟩

theorem stateAfter_zero (sqrt : α → α) (C : CostModel α) (b : BaseArc α)
    (s : SearchState α) : stateAfter sqrt C b s 0 = s := rfl

theorem stateAfter_succ (sqrt : α → α) (C : CostModel α) (b : BaseArc α)
    (s : SearchState α) (n : Nat) :
    stateAfter sqrt C b s (n + 1) = advance sqrt C b (stateAfter sqrt C b s n) :=
  Function.iterate_succ_apply' _ _ _

theorem stateAfter_advance (sqrt : α → α) (C : CostModel α) (b : BaseArc α)
    (s : SearchState α) (n : Nat) :
    stateAfter sqrt C b (advance sqrt C b s) n = stateAfter sqrt C b s (n + 1) :=
  (Function.iterate_succ_apply _ _ _).symm

/-- The trace of the loop: it yields `out` within `fuel` passes exactly when, for some
`n < fuel`, the first `n` passes fall through (no all-exceed, tested perturbations
blocked) and pass `n` returns with `out`. -/
theorem searchLoop_eq_some_iff (sqrt : α → α) (C : CostModel α) (T : RangeTerrain α)
    (b : BaseArc α) (fuel : Nat) (s : SearchState α) (out : Outcome α) :
    searchLoop sqrt C T b fuel s = some out ↔
      ∃ n, n < fuel ∧
        (∀ m, m < n → ¬ allExceed sqrt C b (stateAfter sqrt C b s m) ∧
          testedBlocked sqrt C T b (stateAfter sqrt C b s m) = true) ∧
        returnsWith sqrt C T b (stateAfter sqrt C b s n) out := by
  induction fuel generalizing s with
  | zero =>
    simp only [searchLoop]
    constructor
    · intro h; exact absurd h (by simp)
    · rintro ⟨n, hn, -⟩; exact absurd hn (Nat.not_lt_zero n)
  | succ fuel ih =>
    rcases iteration_cases sqrt C T b s with ⟨hall, hit⟩ | ⟨hall, hblk, hit⟩ |
      ⟨hall, hblk, p1, p2, hit, -⟩
    · simp only [searchLoop, hit]
      constructor
      · intro h
        refine ⟨0, Nat.succ_pos _, fun m hm => absurd hm (Nat.not_lt_zero m), ?_⟩
        exact ⟨_, _, _, hit, (Option.some.inj h).symm⟩
      · rintro ⟨n, -, hpre, v, q1, q2, hv, hout⟩
        cases n with
        | zero =>
          rw [stateAfter_zero, hit] at hv
          cases hv
          rw [hout]
        | succ n => exact absurd hall (hpre 0 (Nat.succ_pos n)).1
    · simp only [searchLoop, hit]
      rw [ih]
      constructor
      · rintro ⟨n, hn, hpre, hret⟩
        refine ⟨n + 1, Nat.succ_lt_succ hn, ?_, ?_⟩
        · intro m hm
          cases m with
          | zero => exact ⟨hall, hblk⟩
          | succ m =>
            rw [← stateAfter_advance]
            exact hpre m (Nat.lt_of_succ_lt_succ hm)
        · rw [← stateAfter_advance]; exact hret
      · rintro ⟨n, hn, hpre, v, q1, q2, hv, hout⟩
        cases n with
        | zero =>
          rw [stateAfter_zero, hit] at hv
          cases hv
        | succ n =>
          refine ⟨n, Nat.lt_of_succ_lt_succ hn, ?_, ?_⟩
          · intro m hm
            rw [stateAfter_advance]
            exact hpre (m + 1) (Nat.succ_lt_succ hm)
          · rw [stateAfter_advance]; exact ⟨v, q1, q2, hv, hout⟩
    · simp only [searchLoop, hit]
      constructor
      · intro h
        refine ⟨0, Nat.succ_pos _, fun m hm => absurd hm (Nat.not_lt_zero m), ?_⟩
        exact ⟨_, _, _, hit, (Option.some.inj h).symm⟩
      · rintro ⟨n, -, hpre, v, q1, q2, hv, hout⟩
        cases n with
        | zero =>
          rw [stateAfter_zero, hit] at hv
          cases hv
          rw [hout]
        | succ n =>
          have := (hpre 0 (Nat.succ_pos n)).2
          rw [stateAfter_zero, hblk] at this
          exact absurd this (by simp)

/-- The track whose counter `advance` raises: its candidate is `minDifficulty`, its counter
goes up by one and the two other counters stay. -/
theorem advance_cases (sqrt : α → α) (C : CostModel α) (b : BaseArc α) (s : SearchState α) :
    (minDifficulty sqrt C b s = heightDifficulty C b s ∧
      (advance sqrt C b s).heightSteps = s.heightSteps + 1 ∧
      (advance sqrt C b s).curveSteps = s.curveSteps ∧
      (advance sqrt C b s).comboSteps = s.comboSteps) ∨
    (minDifficulty sqrt C b s = curveDifficulty C b s ∧
      (advance sqrt C b s).heightSteps = s.heightSteps ∧
      (advance sqrt C b s).curveSteps = s.curveSteps + 1 ∧
      (advance sqrt C b s).comboSteps = s.comboSteps) ∨
    (minDifficulty sqrt C b s = comboDifficulty sqrt C b s ∧
      (advance sqrt C b s).heightSteps = s.heightSteps ∧
      (advance sqrt C b s).curveSteps = s.curveSteps ∧
      (advance sqrt C b s).comboSteps = s.comboSteps + 1) := by
  unfold advance
  by_cases h1 : minDifficulty sqrt C b s = heightDifficulty C b s
  · left; refine ⟨h1, ?_⟩; rw [if_pos h1]; exact ⟨rfl, rfl, rfl⟩
  · by_cases h2 : minDifficulty sqrt C b s = curveDifficulty C b s
    · right; left; refine ⟨h2, ?_⟩; rw [if_neg h1, if_pos h2]; exact ⟨rfl, rfl, rfl⟩
    · have h3 : minDifficulty sqrt C b s = comboDifficulty sqrt C b s := by
        unfold minDifficulty at h1 h2 ⊢
        rcases min_choice (heightDifficulty C b s)
          (min (curveDifficulty C b s) (comboDifficulty sqrt C b s)) with h | h
        · exact absurd h h1
        · rcases min_choice (curveDifficulty C b s) (comboDifficulty sqrt C b s) with h' | h'
          · exact absurd (h.trans h') h2
          · exact h.trans h'
      right; right; refine ⟨h3, ?_⟩; rw [if_neg h1, if_neg h2, if_pos h3]
      exact ⟨rfl, rfl, rfl⟩

/-- The counters never go down along the passes. -/
theorem stateAfter_counters_le (sqrt : α → α) (C : CostModel α) (b : BaseArc α)
    (s : SearchState α) (n : Nat) :
    s.heightSteps ≤ (stateAfter sqrt C b s n).heightSteps ∧
    s.curveSteps ≤ (stateAfter sqrt C b s n).curveSteps ∧
    s.comboSteps ≤ (stateAfter sqrt C b s n).comboSteps := by
  induction n with
  | zero => exact ⟨le_refl _, le_refl _, le_refl _⟩
  | succ n ih =>
    rw [stateAfter_succ]
    rcases advance_cases sqrt C b (stateAfter sqrt C b s n) with ⟨-, h1, h2, h3⟩ |
      ⟨-, h1, h2, h3⟩ | ⟨-, h1, h2, h3⟩ <;>
    · rw [h1, h2, h3]
      omega

/-- The counters never go down from one pass to a later one. -/
theorem stateAfter_counters_mono (sqrt : α → α) (C : CostModel α) (b : BaseArc α)
    (s : SearchState α) (m n : Nat) (hmn : m ≤ n) :
    (stateAfter sqrt C b s m).heightSteps ≤ (stateAfter sqrt C b s n).heightSteps ∧
    (stateAfter sqrt C b s m).curveSteps ≤ (stateAfter sqrt C b s n).curveSteps ∧
    (stateAfter sqrt C b s m).comboSteps ≤ (stateAfter sqrt C b s n).comboSteps := by
  obtain ⟨k, rfl⟩ := Nat.exists_eq_add_of_le hmn
  have e : stateAfter sqrt C b s (m + k)
      = stateAfter sqrt C b (stateAfter sqrt C b s m) k := by
    unfold stateAfter
    rw [Nat.add_comm, Function.iterate_add_apply]
  rw [e]
  exact stateAfter_counters_le sqrt C b _ k

/-- With costs that are 0 at 0 and increasing, and `sqrt 2` not negative, every candidate
of a state with non-negative counters is at least `distance`. -/
theorem distance_le_minDifficulty (sqrt : α → α) (C : CostModel α) (b : BaseArc α)
    (s : SearchState α) (hsqrt2 : 0 ≤ sqrt 2)
    (hH0 : C.HeightDifficulty 0 = 0) (hH : Monotone C.HeightDifficulty)
    (hC0 : C.CurveDifficulty 0 = 0) (hC : Monotone C.CurveDifficulty)
    (hK0 : C.ComboDifficulty 0 0 = 0)
    (hK : ∀ x x' y y', x ≤ x' → y ≤ y' → C.ComboDifficulty x y ≤ C.ComboDifficulty x' y')
    (hinit : 0 ≤ b.initialHeightDifficulty)
    (hh : 0 ≤ s.heightSteps) (hc : 0 ≤ s.curveSteps) (hk : 0 ≤ s.comboSteps) :
    b.distance ≤ minDifficulty sqrt C b s := by
  have c1 : (0 : α) ≤ ((s.heightSteps + 1 : Int) : α) * heightPerStep := by
    have : (0 : α) ≤ ((s.heightSteps + 1 : Int) : α) := by exact_mod_cast (by omega)
    simpa [heightPerStep] using this
  have c2 : (0 : α) ≤ ((s.curveSteps + 1 : Int) : α) * curvePerStep := by
    have : (0 : α) ≤ ((s.curveSteps + 1 : Int) : α) := by exact_mod_cast (by omega)
    simpa [curvePerStep] using this
  have c3 : (0 : α) ≤ ((s.comboSteps + 1 : Int) : α) * comboPerStep sqrt := by
    have : (0 : α) ≤ ((s.comboSteps + 1 : Int) : α) := by exact_mod_cast (by omega)
    exact mul_nonneg this (div_nonneg zero_le_one hsqrt2)
  have e1 : 0 ≤ C.HeightDifficulty (((s.heightSteps + 1 : Int) : α) * heightPerStep) := by
    rw [← hH0]; exact hH c1
  have e2 : 0 ≤ C.CurveDifficulty (((s.curveSteps + 1 : Int) : α) * curvePerStep) := by
    rw [← hC0]; exact hC c2
  have e3 : 0 ≤ C.ComboDifficulty (((s.comboSteps + 1 : Int) : α) * comboPerStep sqrt)
      (((s.comboSteps + 1 : Int) : α) * comboPerStep sqrt) := by
    rw [← hK0]; exact hK _ _ _ _ c3 c3
  unfold minDifficulty heightDifficulty curveDifficulty comboDifficulty
  refine le_min ?_ (le_min ?_ ?_) <;> linarith

theorem searchLoop_of_ret (sqrt : α → α) (C : CostModel α) (T : RangeTerrain α)
    (b : BaseArc α) (fuel : Nat) (s : SearchState α) (v : α) (p1 p2 : Vec3 α)
    (h : iteration sqrt C T b s = Step.ret v p1 p2) :
    searchLoop sqrt C T b (fuel + 1) s
      = some { difficulty := v, p1_adjusted := p1, p2_adjusted := p2,
               distance := b.distance } := by
  simp only [searchLoop, h]

theorem searchLoop_of_next (sqrt : α → α) (C : CostModel α) (T : RangeTerrain α)
    (b : BaseArc α) (fuel : Nat) (s s' : SearchState α)
    (h : iteration sqrt C T b s = Step.next s') :
    searchLoop sqrt C T b (fuel + 1) s = searchLoop sqrt C T b fuel s' := by
  simp only [searchLoop, h]

/-- A pass that does not return `-1` has its least candidate at most `IMPOSSIBLE`. -/
theorem minDifficulty_le_of_not_allExceed (sqrt : α → α) (C : CostModel α) (b : BaseArc α)
    (s : SearchState α) (h : ¬ allExceed sqrt C b s) :
    minDifficulty sqrt C b s ≤ IMPOSSIBLE := by
  by_contra hlt
  rw [not_le] at hlt
  apply h
  unfold minDifficulty at hlt
  exact ⟨lt_of_lt_of_le hlt (min_le_left _ _),
    lt_of_lt_of_le hlt (le_trans (min_le_right _ _) (min_le_left _ _)),
    lt_of_lt_of_le hlt (le_trans (min_le_right _ _) (min_le_right _ _))⟩

/-- Termination of the loop: when each candidate exceeds `IMPOSSIBLE` from some value of
its counter on, the loop returns within as many passes as the counters are below these
values, plus one. -/
theorem searchLoop_terminates (sqrt : α → α) (C : CostModel α) (T : RangeTerrain α)
    (b : BaseArc α) (Nh Nc Nk : Int)
    (hH : ∀ s : SearchState α, Nh ≤ s.heightSteps → IMPOSSIBLE < heightDifficulty C b s)
    (hC : ∀ s : SearchState α, Nc ≤ s.curveSteps → IMPOSSIBLE < curveDifficulty C b s)
    (hK : ∀ s : SearchState α, Nk ≤ s.comboSteps → IMPOSSIBLE < comboDifficulty sqrt C b s)
    (μ : Nat) (s : SearchState α)
    (hμ : (Nh - s.heightSteps).toNat + (Nc - s.curveSteps).toNat
      + (Nk - s.comboSteps).toNat = μ) :
    ∃ out, searchLoop sqrt C T b (μ + 1) s = some out := by
  induction μ generalizing s with
  | zero =>
    have hall : allExceed sqrt C b s :=
      ⟨hH s (by omega), hC s (by omega), hK s (by omega)⟩
    rcases iteration_cases sqrt C T b s with ⟨-, hit⟩ | ⟨hn, -, -⟩ | ⟨hn, -, -⟩
    · exact ⟨_, searchLoop_of_ret sqrt C T b _ s _ _ _ hit⟩
    · exact absurd hall hn
    · exact absurd hall hn
  | succ μ ih =>
    rcases iteration_cases sqrt C T b s with ⟨-, hit⟩ | ⟨hn, -, hit⟩ | ⟨-, -, p1, p2, hit, -⟩
    · exact ⟨_, searchLoop_of_ret sqrt C T b _ s _ _ _ hit⟩
    · have hmin := minDifficulty_le_of_not_allExceed sqrt C b s hn
      have hdec : (Nh - (advance sqrt C b s).heightSteps).toNat
          + (Nc - (advance sqrt C b s).curveSteps).toNat
          + (Nk - (advance sqrt C b s).comboSteps).toNat = μ := by
        rcases advance_cases sqrt C b s with ⟨hm, h1, h2, h3⟩ | ⟨hm, h1, h2, h3⟩ |
          ⟨hm, h1, h2, h3⟩
        · have : s.heightSteps < Nh := by
            by_contra hge
            exact absurd (hH s (not_lt.mp hge)) (not_lt.mpr (hm ▸ hmin))
          rw [h1, h2, h3]; omega
        · have : s.curveSteps < Nc := by
            by_contra hge
            exact absurd (hC s (not_lt.mp hge)) (not_lt.mpr (hm ▸ hmin))
          rw [h1, h2, h3]; omega
        · have : s.comboSteps < Nk := by
            by_contra hge
            exact absurd (hK s (not_lt.mp hge)) (not_lt.mpr (hm ▸ hmin))
          rw [h1, h2, h3]; omega
      obtain ⟨out, hout⟩ := ih (advance sqrt C b s) hdec
      exact ⟨out, by rw [searchLoop_of_next sqrt C T b _ s _ hit]; exact hout⟩
    · exact ⟨_, searchLoop_of_ret sqrt C T b _ s _ _ _ hit⟩

/-- What a returning pass yields: `-1` with the output parameters as they were, when all
candidates exceed `IMPOSSIBLE`; otherwise `minDifficulty` and a clear path. -/
theorem returnsWith_cases (sqrt : α → α) (C : CostModel α) (T : RangeTerrain α)
    (b : BaseArc α) (s : SearchState α) (out : Outcome α)
    (h : returnsWith sqrt C T b s out) :
    out.distance = b.distance ∧
    ((allExceed sqrt C b s ∧ out.difficulty = -1 ∧ out.p1_adjusted = s.p1_adjusted ∧
        out.p2_adjusted = s.p2_adjusted) ∨
      (¬ allExceed sqrt C b s ∧ testedBlocked sqrt C T b s = false ∧
        out.difficulty = minDifficulty sqrt C b s ∧
        PathIsClear T b.adjustedTee out.p1_adjusted out.p2_adjusted b.adjustedTarget
          = true)) := by
  obtain ⟨v, p1, p2, hv, rfl⟩ := h
  refine ⟨rfl, ?_⟩
  rcases iteration_cases sqrt C T b s with ⟨hall, hit⟩ | ⟨hall, hblk, hit⟩ |
    ⟨hall, hblk, q1, q2, hit, hclear⟩
  · rw [hit] at hv
    cases hv
    exact Or.inl ⟨hall, rfl, rfl, rfl⟩
  · rw [hit] at hv
    cases hv
  · rw [hit] at hv
    cases hv
    exact Or.inr ⟨hall, hblk, rfl, hclear⟩

/-- A pass from a state in which all candidates exceed `IMPOSSIBLE` returns `-1`. -/
theorem returnsWith_of_allExceed (sqrt : α → α) (C : CostModel α) (T : RangeTerrain α)
    (b : BaseArc α) (s : SearchState α) (h : allExceed sqrt C b s) :
    returnsWith sqrt C T b s
      { difficulty := -1, p1_adjusted := s.p1_adjusted, p2_adjusted := s.p2_adjusted,
        distance := b.distance } := by
  rcases iteration_cases sqrt C T b s with ⟨-, hit⟩ | ⟨hall, -, -⟩ | ⟨hall, -, -⟩
  · exact ⟨_, _, _, hit, rfl⟩
  · exact absurd h hall
  · exact absurd h hall

/-- When every pass finds its state below the bound and its perturbations blocked, the
loop yields nothing, whatever the fuel. -/
theorem searchLoop_eq_none_of_blocked (sqrt : α → α) (C : CostModel α) (T : RangeTerrain α)
    (b : BaseArc α) (s : SearchState α)
    (h : ∀ n, ¬ allExceed sqrt C b (stateAfter sqrt C b s n) ∧
      testedBlocked sqrt C T b (stateAfter sqrt C b s n) = true) (fuel : Nat) :
    searchLoop sqrt C T b fuel s = none := by
  cases hs : searchLoop sqrt C T b fuel s with
  | none => rfl
  | some out =>
    rw [searchLoop_eq_some_iff] at hs
    obtain ⟨n, -, -, hret⟩ := hs
    obtain ⟨-, ⟨hall, -⟩ | ⟨-, hblk, -⟩⟩ := returnsWith_cases sqrt C T b _ out hret
    · exact absurd hall (h n).1
    · rw [(h n).2] at hblk
      exact absurd hblk (by simp)

theorem advance_of_height (sqrt : α → α) (C : CostModel α) (b : BaseArc α)
    (s : SearchState α) (h : minDifficulty sqrt C b s = heightDifficulty C b s) :
    advance sqrt C b s =
      { s with heightSteps := s.heightSteps + 1,
               p1_adjusted :=
                 b.p1 + b.up.scale (((s.heightSteps + 1 : Int) : α) * heightPerStep),
               p2_adjusted :=
                 b.p2 + b.up.scale (((s.heightSteps + 1 : Int) : α) * heightPerStep) } := by
  unfold advance
  rw [if_pos h]

theorem testedBlocked_of_height (sqrt : α → α) (C : CostModel α) (T : RangeTerrain α)
    (b : BaseArc α) (s : SearchState α)
    (h : minDifficulty sqrt C b s = heightDifficulty C b s) :
    testedBlocked sqrt C T b s =
      !PathIsClear T b.adjustedTee
        (b.p1 + b.up.scale (((s.heightSteps + 1 : Int) : α) * heightPerStep))
        (b.p2 + b.up.scale (((s.heightSteps + 1 : Int) : α) * heightPerStep))
        b.adjustedTarget := by
  unfold testedBlocked
  rw [if_pos h]

/-- With increasing costs and `sqrt 2` not negative, higher counters give a higher least
candidate. -/
theorem minDifficulty_mono (sqrt : α → α) (C : CostModel α) (b : BaseArc α)
    (s s' : SearchState α) (hsqrt2 : 0 ≤ sqrt 2)
    (hH : Monotone C.HeightDifficulty) (hC : Monotone C.CurveDifficulty)
    (hK : ∀ x x' y y', x ≤ x' → y ≤ y' → C.ComboDifficulty x y ≤ C.ComboDifficulty x' y')
    (hh : s.heightSteps ≤ s'.heightSteps) (hc : s.curveSteps ≤ s'.curveSteps)
    (hk : s.comboSteps ≤ s'.comboSteps) :
    minDifficulty sqrt C b s ≤ minDifficulty sqrt C b s' := by
  have c1 : ((s.heightSteps + 1 : Int) : α) * heightPerStep
      ≤ ((s'.heightSteps + 1 : Int) : α) * heightPerStep := by
    have : ((s.heightSteps + 1 : Int) : α) ≤ ((s'.heightSteps + 1 : Int) : α) := by
      exact_mod_cast (by omega)
    simpa [heightPerStep] using this
  have c2 : ((s.curveSteps + 1 : Int) : α) * curvePerStep
      ≤ ((s'.curveSteps + 1 : Int) : α) * curvePerStep := by
    have : ((s.curveSteps + 1 : Int) : α) ≤ ((s'.curveSteps + 1 : Int) : α) := by
      exact_mod_cast (by omega)
    simpa [curvePerStep] using this
  have c3 : ((s.comboSteps + 1 : Int) : α) * comboPerStep sqrt
      ≤ ((s'.comboSteps + 1 : Int) : α) * comboPerStep sqrt := by
    have : ((s.comboSteps + 1 : Int) : α) ≤ ((s'.comboSteps + 1 : Int) : α) := by
      exact_mod_cast (by omega)
    exact mul_le_mul_of_nonneg_right this (div_nonneg zero_le_one hsqrt2)
  have e1 := hH c1
  have e2 := hC c2
  have e3 := hK _ _ _ _ c3 c3
  unfold minDifficulty heightDifficulty curveDifficulty comboDifficulty
  refine le_min ?_ (le_min ?_ ?_)
  · exact le_trans (min_le_left _ _) (by linarith)
  · exact le_trans (le_trans (min_le_right _ _) (min_le_left _ _)) (by linarith)
  · exact le_trans (le_trans (min_le_right _ _) (min_le_right _ _)) (by linarith)

/-- A path that is clear over a terrain is clear over every terrain that blocks no more. -/
theorem PathIsClear_anti (M M' : RangeTerrain α)
    (hsub : ∀ a b, IntersectionBetweenPoints M a b = true →
      IntersectionBetweenPoints M' a b = true)
    (tee p1 p2 target : Vec3 α) (h : PathIsClear M' tee p1 p2 target = true) :
    PathIsClear M tee p1 p2 target = true := by
  have key : ∀ a b, IntersectionBetweenPoints M' a b = false →
      IntersectionBetweenPoints M a b = false := by
    intro a b hf
    cases hm : IntersectionBetweenPoints M a b with
    | false => rfl
    | true => rw [hsub a b hm] at hf; exact absurd hf (by simp)
  simp only [PathIsClear, Bool.and_eq_true, Bool.not_eq_true'] at h ⊢
  exact ⟨⟨key _ _ h.1.1, key _ _ h.1.2⟩, key _ _ h.2⟩

/-- Perturbations that are blocked over a terrain are blocked over every terrain that
blocks at least as much. -/
theorem testedBlocked_mono (sqrt : α → α) (C : CostModel α) (M M' : RangeTerrain α)
    (hsub : ∀ a b, IntersectionBetweenPoints M a b = true →
      IntersectionBetweenPoints M' a b = true)
    (b : BaseArc α) (s : SearchState α) (h : testedBlocked sqrt C M b s = true) :
    testedBlocked sqrt C M' b s = true := by
  have key : ∀ p1 p2, PathIsClear M b.adjustedTee p1 p2 b.adjustedTarget = false →
      PathIsClear M' b.adjustedTee p1 p2 b.adjustedTarget = false := by
    intro p1 p2 hf
    cases hm : PathIsClear M' b.adjustedTee p1 p2 b.adjustedTarget with
    | false => rfl
    | true =>
      rw [PathIsClear_anti M M' hsub _ _ _ _ hm] at hf
      exact absurd hf (by simp)
  unfold testedBlocked at h ⊢
  split_ifs at h ⊢
  · simp only [Bool.not_eq_true'] at h ⊢
    exact key _ _ h
  · simp only [Bool.and_eq_true, Bool.not_eq_true'] at h ⊢
    exact ⟨key _ _ h.1, key _ _ h.2⟩
  · simp only [Bool.and_eq_true, Bool.not_eq_true'] at h ⊢
    exact ⟨key _ _ h.1, key _ _ h.2⟩
  · rfl

end PassLemmas

/-! ## Lemmas: the base arc and the fast path -/

section BaseLemmas

variable {α : Type} [LinearOrderedField α]

/-- When the loops visit no offset, no segment is blocked. -/
theorem IntersectionBetweenPoints_of_loopBound_nonpos (T : RangeTerrain α)
    (hT : T.loopBound ≤ 0) (start end_ : Vec3 α) :
    IntersectionBetweenPoints T start end_ = false := by
  cases h : IntersectionBetweenPoints T start end_ with
  | false => rfl
  | true =>
    rw [IntersectionBetweenPoints_iff] at h
    obtain ⟨i, ⟨h0, -, hb⟩, -⟩ := h
    omega

/-- When the loops visit no offset, every path is clear. -/
theorem PathIsClear_of_loopBound_nonpos (T : RangeTerrain α) (hT : T.loopBound ≤ 0)
    (tee p1 p2 target : Vec3 α) : PathIsClear T tee p1 p2 target = true := by
  simp [PathIsClear, IntersectionBetweenPoints_of_loopBound_nonpos T hT]

/-- A path with a blocked first leg is not clear. -/
theorem PathIsClear_of_first_leg (T : RangeTerrain α) (tee p1 p2 target : Vec3 α)
    (h : IntersectionBetweenPoints T tee p1 = true) :
    PathIsClear T tee p1 p2 target = false := by
  simp [PathIsClear, h]

theorem baseArc_h [FloorRing α] (sqrt : α → α) (C : CostModel α) (tee target : Vec3 α) :
    (baseArc sqrt C tee target).h = target.y - tee.y := by
  show (target + (⟨0, 1 / 10, 0⟩ : Vec3 α)).y - (tee + (⟨0, 1 / 10, 0⟩ : Vec3 α)).y = _
  simp only [Vec3.add_y]
  ring

theorem baseArc_distance [FloorRing α] (sqrt : α → α) (C : CostModel α)
    (tee target : Vec3 α) :
    (baseArc sqrt C tee target).distance = length sqrt (target - tee) := rfl

theorem baseArc_heightSteps [FloorRing α] (sqrt : α → α) (C : CostModel α)
    (tee target : Vec3 α) :
    (baseArc sqrt C tee target).heightSteps =
      if target.y - tee.y + 1 > 20 then 1 + Int.ceil (target.y - tee.y - 20) else 0 := by
  have hh := baseArc_h sqrt C tee target
  unfold baseArc at hh ⊢
  simp only at hh ⊢
  simp only [hh, heightPerStep, defaultShotHeight, div_one, decide_eq_true_eq]

theorem baseArc_initialHeightDifficulty [FloorRing α] (sqrt : α → α) (C : CostModel α)
    (tee target : Vec3 α) :
    (baseArc sqrt C tee target).initialHeightDifficulty =
      if target.y - tee.y + 1 > 20 then
        C.HeightDifficulty (((baseArc sqrt C tee target).heightSteps : α) * heightPerStep)
      else 0 := by
  have hh := baseArc_h sqrt C tee target
  unfold baseArc at hh ⊢
  simp only at hh ⊢
  simp only [hh, heightPerStep, defaultShotHeight, div_one, decide_eq_true_eq]

/-- The counter `heightSteps` is not negative when the loop is entered. -/
theorem baseArc_heightSteps_nonneg [FloorRing α] (sqrt : α → α) (C : CostModel α)
    (tee target : Vec3 α) : 0 ≤ (baseArc sqrt C tee target).heightSteps := by
  rw [baseArc_heightSteps]
  split_ifs with h
  · have : (0 : Int) ≤ Int.ceil (target.y - tee.y - 20) := by
      apply Int.le_ceil_iff.mpr
      push_cast
      linarith
    omega
  · exact le_refl 0

/-- The fast path: with a clear base arc `CalculateDifficulty` returns at once, whatever
the fuel, the value `distance + HeightDifficulty(heightSteps * heightPerStep) +
initialHeightDifficulty` and the base control points. -/
theorem CalculateDifficulty_of_clear [FloorRing α] (sqrt : α → α) (C : CostModel α)
    (T : RangeTerrain α) (fuel : Nat) (tee target : Vec3 α)
    (hclear : PathIsClear T (baseArc sqrt C tee target).adjustedTee
      (baseArc sqrt C tee target).p1 (baseArc sqrt C tee target).p2
      (baseArc sqrt C tee target).adjustedTarget = true) :
    CalculateDifficulty sqrt C T fuel tee target =
      some { difficulty := (baseArc sqrt C tee target).distance
               + C.HeightDifficulty
                   (((baseArc sqrt C tee target).heightSteps : α) * heightPerStep)
               + (baseArc sqrt C tee target).initialHeightDifficulty,
             p1_adjusted := (baseArc sqrt C tee target).p1,
             p2_adjusted := (baseArc sqrt C tee target).p2,
             distance := (baseArc sqrt C tee target).distance } := by
  unfold CalculateDifficulty
  simp only [hclear, if_true]

/-- With a blocked base arc `CalculateDifficulty` is the search loop. -/
theorem CalculateDifficulty_of_blocked [FloorRing α] (sqrt : α → α) (C : CostModel α)
    (T : RangeTerrain α) (fuel : Nat) (tee target : Vec3 α)
    (hblocked : PathIsClear T (baseArc sqrt C tee target).adjustedTee
      (baseArc sqrt C tee target).p1 (baseArc sqrt C tee target).p2
      (baseArc sqrt C tee target).adjustedTarget = false) :
    CalculateDifficulty sqrt C T fuel tee target =
      searchLoop sqrt C T (baseArc sqrt C tee target) fuel
        (initialState (baseArc sqrt C tee target)) := by
  unfold CalculateDifficulty
  simp only [hblocked, Bool.false_eq_true, if_false]

/-- The two ways in which `CalculateDifficulty` yields a result: the fast path, or a
trace of the loop. -/
theorem CalculateDifficulty_eq_some_cases [FloorRing α] (sqrt : α → α) (C : CostModel α)
    (T : RangeTerrain α) (fuel : Nat) (tee target : Vec3 α) (out : Outcome α)
    (h : CalculateDifficulty sqrt C T fuel tee target = some out) :
    (PathIsClear T (baseArc sqrt C tee target).adjustedTee (baseArc sqrt C tee target).p1
        (baseArc sqrt C tee target).p2 (baseArc sqrt C tee target).adjustedTarget = true ∧
      out = { difficulty := (baseArc sqrt C tee target).distance
                + C.HeightDifficulty
                    (((baseArc sqrt C tee target).heightSteps : α) * heightPerStep)
                + (baseArc sqrt C tee target).initialHeightDifficulty,
              p1_adjusted := (baseArc sqrt C tee target).p1,
              p2_adjusted := (baseArc sqrt C tee target).p2,
              distance := (baseArc sqrt C tee target).distance }) ∨
    (PathIsClear T (baseArc sqrt C tee target).adjustedTee (baseArc sqrt C tee target).p1
        (baseArc sqrt C tee target).p2 (baseArc sqrt C tee target).adjustedTarget = false ∧
      ∃ n, n < fuel ∧
        (∀ m, m < n →
          ¬ allExceed sqrt C (baseArc sqrt C tee target)
              (stateAfter sqrt C (baseArc sqrt C tee target)
                (initialState (baseArc sqrt C tee target)) m) ∧
          testedBlocked sqrt C T (baseArc sqrt C tee target)
              (stateAfter sqrt C (baseArc sqrt C tee target)
                (initialState (baseArc sqrt C tee target)) m) = true) ∧
        returnsWith sqrt C T (baseArc sqrt C tee target)
          (stateAfter sqrt C (baseArc sqrt C tee target)
            (initialState (baseArc sqrt C tee target)) n) out) := by
  cases hc : PathIsClear T (baseArc sqrt C tee target).adjustedTee
      (baseArc sqrt C tee target).p1 (baseArc sqrt C tee target).p2
      (baseArc sqrt C tee target).adjustedTarget with
  | true =>
    left
    rw [CalculateDifficulty_of_clear sqrt C T fuel tee target hc] at h
    exact ⟨rfl, (Option.some.inj h).symm⟩
  | false =>
    right
    rw [CalculateDifficulty_of_blocked sqrt C T fuel tee target hc,
      searchLoop_eq_some_iff] at h
    exact ⟨rfl, h⟩

/-- The horizontal length `L` is the length of `target - tee` with its `y` set to 0. -/
theorem baseArc_L [FloorRing α] (sqrt : α → α) (C : CostModel α) (tee target : Vec3 α) :
    (baseArc sqrt C tee target).L
      = length sqrt { (target - tee) with y := 0 } := by
  show length sqrt _ = length sqrt _
  unfold length dot
  congr 1
  simp only [Vec3.add_x, Vec3.add_z, Vec3.sub_x, Vec3.sub_z]
  ring

/-- With costs that are 0 at 0 and increasing, the baseline height penalty is not
negative. -/
theorem baseArc_initialHeightDifficulty_nonneg [FloorRing α] (sqrt : α → α)
    (C : CostModel α) (tee target : Vec3 α)
    (hH0 : C.HeightDifficulty 0 = 0) (hH : Monotone C.HeightDifficulty) :
    0 ≤ (baseArc sqrt C tee target).initialHeightDifficulty := by
  rw [baseArc_initialHeightDifficulty]
  split_ifs
  · rw [← hH0]
    apply hH
    have : (0 : α) ≤ ((baseArc sqrt C tee target).heightSteps : α) := by
      exact_mod_cast baseArc_heightSteps_nonneg sqrt C tee target
    simpa [heightPerStep] using this
  · exact le_refl 0

/-- Whatever the outcome, the output `distance` is the local `distance` of the base arc. -/
theorem CalculateDifficulty_some_distance [FloorRing α] (sqrt : α → α) (C : CostModel α)
    (T : RangeTerrain α) (fuel : Nat) (tee target : Vec3 α) (out : Outcome α)
    (h : CalculateDifficulty sqrt C T fuel tee target = some out) :
    out.distance = (baseArc sqrt C tee target).distance := by
  rcases CalculateDifficulty_eq_some_cases sqrt C T fuel tee target out h with
    ⟨-, rfl⟩ | ⟨-, n, -, -, hret⟩
  · rfl
  · exact (returnsWith_cases sqrt C T _ _ out hret).1

end BaseLemmas

/-! ## Lemmas: the example from `(0,0,0)` to `(4,0,0)` -/

section ExampleLemmas

/-- The terrain `teeCover` blocks every segment that starts at the lifted tee
`(0, 1/10, 0)` and ends at height 1 or more above a square around the tee. -/
theorem teeCover_blocks {α : Type} [LinearOrderedField α] (A P : Vec3 α)
    (hA : A = ⟨0, 1 / 10, 0⟩) (hy : 1 ≤ P.y)
    (hx : -1 ≤ P.x) (hx' : P.x ≤ 4) (hz : -1 ≤ P.z) (hz' : P.z ≤ 4) :
    IntersectionBetweenPoints (teeCover : RangeTerrain α) A P = true := by
  subst hA
  have hd : (0 : α) < P.y - 1 / 10 := by linarith
  have htd : (1 / 10) / (P.y - 1 / 10) * (P.y - 1 / 10) = 1 / 10 :=
    div_mul_cancel₀ _ (ne_of_gt hd)
  have ht0 : (0 : α) < (1 / 10) / (P.y - 1 / 10) := div_pos (by norm_num) hd
  have ht1 : (1 / 10) / (P.y - 1 / 10) ≤ (1 : α) / 9 := by
    rw [div_le_iff₀ hd]
    linarith
  generalize (1 / 10) / (P.y - 1 / 10) = t at htd ht0 ht1
  have hscan : (teeCover : RangeTerrain α).scanned 0 :=
    ⟨le_refl 0, dvd_zero 36, by
      show (0 : Int) < (2 - 1) * (2 - 1) * 36 * 2 - 36
      decide⟩
  apply IntersectionBetweenPoints_of_scanned teeCover _ _ 0
    ⟨t, (P.x * t + 1) / 4, (P.z * t + 1) / 4⟩ hscan
  · have e : ((teeCover : RangeTerrain α).systemMatrix (P - ⟨0, 1 / 10, 0⟩) 0).determinant
        = 16 * (P.y - 1 / 10) := by
      norm_num [RangeTerrain.systemMatrix, RangeTerrain.v0, RangeTerrain.v1, RangeTerrain.v2,
        teeCover, packTriangles, Mat3.determinant]
      ring
    rw [e]
    exact ne_of_gt (by linarith)
  · unfold RangeTerrain.solves
    ext <;> norm_num [RangeTerrain.v0, RangeTerrain.v1, RangeTerrain.v2, teeCover,
      packTriangles] <;> linarith
  · rw [segmentTest_iff]
    refine ⟨ht0, by linarith, ?_, ?_, ?_⟩ <;> norm_num <;> nlinarith

/-- The locals of `CalculateDifficulty` for the tee `(0,0,0)` and the target `(4,0,0)`. -/
theorem baseArc_example (C : CostModel ℝ) :
    baseArc Real.sqrt C ⟨0, 0, 0⟩ ⟨4, 0, 0⟩ = exampleArc := by
  have h16 : Real.sqrt 16 = 4 := by
    rw [show (16 : ℝ) = 4 ^ 2 by norm_num]
    exact Real.sqrt_sq (by norm_num)
  have e1 : ((⟨4, 0, 0⟩ : Vec3 ℝ) + ⟨0, 1 / 10, 0⟩) = ⟨4, 1 / 10, 0⟩ := by
    ext <;> norm_num
  have e0 : ((⟨0, 0, 0⟩ : Vec3 ℝ) + ⟨0, 1 / 10, 0⟩) = ⟨0, 1 / 10, 0⟩ := by
    ext <;> norm_num
  have e2 : ((⟨4, 0, 0⟩ : Vec3 ℝ) - ⟨0, 0, 0⟩) = ⟨4, 0, 0⟩ := by
    ext <;> norm_num
  have e3 : ((⟨4, 1 / 10, 0⟩ : Vec3 ℝ) - ⟨0, 1 / 10, 0⟩) = ⟨4, 0, 0⟩ := by
    ext <;> norm_num
  have ed : dot (⟨4, 0, 0⟩ : Vec3 ℝ) ⟨4, 0, 0⟩ = 16 := by norm_num [dot]
  unfold baseArc exampleArc
  simp only [e0, e1, e2, e3, length, normalize, ed, h16]
  norm_num [heightPerStep, defaultShotHeight, p1_relative, p2_relative, cross, Vec3.scale]
  refine ⟨?_, ?_⟩ <;> ext <;> norm_num

theorem sqrt_two_le_two : Real.sqrt 2 ≤ 2 := by
  rw [Real.sqrt_le_left (by norm_num)]
  norm_num

theorem one_le_two_div_sqrt_two : (1 : ℝ) ≤ 2 * (1 / Real.sqrt 2) := by
  have h0 : 0 < Real.sqrt 2 := Real.sqrt_pos.mpr (by norm_num)
  rw [mul_one_div, le_div_iff₀ h0]
  linarith [sqrt_two_le_two]

/-- With the costs `boundedHeightCosts`, from `(0,0,0)` to `(4,0,0)` over `teeCover`: in a
state with `curveSteps = comboSteps = 0` the height track is the cheapest, its candidate
is below 5, and the raised arc that the pass tests is blocked. -/
theorem boundedHeight_pass (s : SearchState ℝ) (hh : 0 ≤ s.heightSteps)
    (hc : s.curveSteps = 0) (hk : s.comboSteps = 0) :
    minDifficulty Real.sqrt boundedHeightCosts exampleArc s
      = heightDifficulty boundedHeightCosts exampleArc s ∧
    ¬ allExceed Real.sqrt boundedHeightCosts exampleArc s ∧
    testedBlocked Real.sqrt boundedHeightCosts teeCover exampleArc s = true := by
  have hx : (0 : ℝ) ≤ ((s.heightSteps + 1 : Int) : ℝ) := by exact_mod_cast (by omega)
  have h1 : heightDifficulty boundedHeightCosts exampleArc s < 5 := by
    unfold heightDifficulty
    simp only [boundedHeightCosts, heightPerStep, mul_one, exampleArc]
    have : ((s.heightSteps + 1 : Int) : ℝ) / (1 + |((s.heightSteps + 1 : Int) : ℝ)|) < 1 := by
      rw [div_lt_one (by positivity), abs_of_nonneg hx]
      linarith
    linarith
  have h2 : curveDifficulty boundedHeightCosts exampleArc s = 6 := by
    unfold curveDifficulty
    simp only [boundedHeightCosts, curvePerStep, hc, exampleArc]
    norm_num
  have h3 : 6 ≤ comboDifficulty Real.sqrt boundedHeightCosts exampleArc s := by
    unfold comboDifficulty
    simp only [boundedHeightCosts, comboPerStep, hk, exampleArc]
    norm_num
    have := one_le_two_div_sqrt_two
    simp only [one_div] at this
    linarith
  have hmin : minDifficulty Real.sqrt boundedHeightCosts exampleArc s = heightDifficulty boundedHeightCosts exampleArc s := by
    unfold minDifficulty
    apply min_eq_left
    apply le_min <;> linarith
  refine ⟨hmin, ?_, ?_⟩
  · intro hall
    have := hall.1
    unfold IMPOSSIBLE at this
    linarith
  · rw [testedBlocked_of_height _ _ _ _ _ hmin, Bool.not_eq_true', PathIsClear_of_first_leg]
    apply teeCover_blocks _ _ rfl <;>
      simp only [Vec3.add_x, Vec3.add_y, Vec3.add_z, Vec3.scale_x, Vec3.scale_y,
        Vec3.scale_z, heightPerStep, exampleArc] <;> nlinarith

/-- With the costs `boundedHeightCosts`, from `(0,0,0)` to `(4,0,0)` over `teeCover`, the
state after any number of blocked passes has only its height counter raised. -/
theorem boundedHeight_state (n : Nat) :
    0 ≤ (stateAfter Real.sqrt boundedHeightCosts exampleArc (initialState exampleArc)
          n).heightSteps ∧
    (stateAfter Real.sqrt boundedHeightCosts exampleArc (initialState exampleArc)
        n).curveSteps = 0 ∧
    (stateAfter Real.sqrt boundedHeightCosts exampleArc (initialState exampleArc)
        n).comboSteps = 0 := by
  induction n with
  | zero =>
    rw [stateAfter_zero]
    exact ⟨le_refl 0, rfl, rfl⟩
  | succ n ih =>
    obtain ⟨i1, i2, i3⟩ := ih
    rw [stateAfter_succ, advance_of_height _ _ _ _ (boundedHeight_pass _ i1 i2 i3).1]
    exact ⟨by show (0 : Int) ≤ _ + 1; omega, i2, i3⟩

/-- From `(0,0,0)` to `(4,0,0)` over `teeCover`, the base arc is blocked. -/
theorem teeCover_base_blocked (C : CostModel ℝ) :
    PathIsClear teeCover (baseArc Real.sqrt C ⟨0, 0, 0⟩ ⟨4, 0, 0⟩).adjustedTee
      (baseArc Real.sqrt C ⟨0, 0, 0⟩ ⟨4, 0, 0⟩).p1
      (baseArc Real.sqrt C ⟨0, 0, 0⟩ ⟨4, 0, 0⟩).p2
      (baseArc Real.sqrt C ⟨0, 0, 0⟩ ⟨4, 0, 0⟩).adjustedTarget = false := by
  rw [baseArc_example]
  apply PathIsClear_of_first_leg
  apply teeCover_blocks _ _ rfl <;> norm_num [exampleArc]

/-- The height cost of `boundedHeightCosts` is strictly increasing. -/
theorem boundedHeight_strictMono : StrictMono (fun h : ℝ => h / (1 + |h|)) := by
  intro a b hab
  show a / (1 + |a|) < b / (1 + |b|)
  rw [div_lt_div_iff₀ (by positivity) (by positivity)]
  rcases le_or_lt 0 a with ha | ha
  · have hb : 0 ≤ b := le_trans ha hab.le
    rw [abs_of_nonneg ha, abs_of_nonneg hb]
    nlinarith
  · rcases le_or_lt 0 b with hb | hb
    · rw [abs_of_neg ha, abs_of_nonneg hb]
      nlinarith [mul_nonneg hb (neg_nonneg.mpr ha.le)]
    · rw [abs_of_neg ha, abs_of_neg hb]
      nlinarith

/-- The height cost of `boundedHeightCosts` is continuous. -/
theorem boundedHeight_continuous : Continuous (fun h : ℝ => h / (1 + |h|)) := by
  apply Continuous.div continuous_id (continuous_const.add continuous_abs)
  intro x
  positivity

/-- With the costs `boundedHeightCosts`, from `(0,0,0)` to `(4,0,0)` over `teeCover`, every
pass finds its state below the bound and the perturbation it tests blocked. -/
theorem boundedHeight_all_blocked (n : Nat) :
    ¬ allExceed Real.sqrt boundedHeightCosts exampleArc
        (stateAfter Real.sqrt boundedHeightCosts exampleArc (initialState exampleArc) n) ∧
    testedBlocked Real.sqrt boundedHeightCosts teeCover exampleArc
        (stateAfter Real.sqrt boundedHeightCosts exampleArc (initialState exampleArc) n)
      = true := by
  obtain ⟨i1, i2, i3⟩ := boundedHeight_state n
  exact (boundedHeight_pass _ i1 i2 i3).2

/-- With the costs `boundedHeightCosts`, from `(0,0,0)` to `(4,0,0)` over `teeCover`,
`CalculateDifficulty` yields nothing, whatever the fuel. -/
theorem boundedHeight_no_result (fuel : Nat) :
    CalculateDifficulty Real.sqrt boundedHeightCosts teeCover fuel ⟨0, 0, 0⟩ ⟨4, 0, 0⟩
      = none := by
  rw [CalculateDifficulty_of_blocked _ _ _ _ _ _ (teeCover_base_blocked _),
    baseArc_example]
  exact searchLoop_eq_none_of_blocked _ _ _ _ _ boundedHeight_all_blocked fuel

/-- With the costs `steepCosts`, from `(0,0,0)` to `(4,0,0)`, all three candidates of the
first pass exceed `IMPOSSIBLE`. -/
theorem steep_allExceed :
    allExceed Real.sqrt steepCosts exampleArc (initialState (exampleArc : BaseArc ℝ)) := by
  have h := one_le_two_div_sqrt_two
  refine ⟨?_, ?_, ?_⟩
  · show IMPOSSIBLE < heightDifficulty steepCosts exampleArc (initialState exampleArc)
    norm_num [heightDifficulty, steepCosts, exampleArc, initialState, heightPerStep,
      IMPOSSIBLE]
  · show IMPOSSIBLE < curveDifficulty steepCosts exampleArc (initialState exampleArc)
    norm_num [curveDifficulty, steepCosts, exampleArc, initialState, curvePerStep,
      IMPOSSIBLE]
  · show IMPOSSIBLE < comboDifficulty Real.sqrt steepCosts exampleArc
      (initialState exampleArc)
    simp only [comboDifficulty, steepCosts, exampleArc, initialState, comboPerStep,
      IMPOSSIBLE]
    norm_num
    simp only [one_div] at h
    linarith

/-- From `(0,0,0)` to `(4,0,0)` over `wall`, the base arc is blocked (on its middle leg). -/
theorem wall_base_blocked :
    PathIsClear (wall : RangeTerrain ℝ) exampleArc.adjustedTee exampleArc.p1 exampleArc.p2
      exampleArc.adjustedTarget = false := by
  have h : IntersectionBetweenPoints (wall : RangeTerrain ℝ) ⟨2, 201 / 10, 0⟩
      ⟨14 / 5, 201 / 10, 0⟩ = true := by
    unfold IntersectionBetweenPoints
    rw [IntersectionBetweenPoints.loop]
    norm_num [RangeTerrain.loopBound, RangeTerrain.floatCount, wall, segmentTest,
      RangeTerrain.solve, RangeTerrain.systemMatrix, RangeTerrain.v0, RangeTerrain.v1,
      RangeTerrain.v2, packTriangles, Mat3.inverse, Mat3.mulVec, Mat3.determinant]
  simp [PathIsClear, exampleArc, h]

/-- From `(0,0,0)` to `(4,0,0)` over `wall`, the arc raised by one height step is clear. -/
theorem wall_raised_clear :
    PathIsClear (wall : RangeTerrain ℝ) exampleArc.adjustedTee
      (exampleArc.p1 + exampleArc.up.scale
        ((((initialState (exampleArc : BaseArc ℝ)).heightSteps + 1 : Int) : ℝ) * heightPerStep))
      (exampleArc.p2 + exampleArc.up.scale
        ((((initialState (exampleArc : BaseArc ℝ)).heightSteps + 1 : Int) : ℝ) * heightPerStep))
      exampleArc.adjustedTarget = true := by
  have e1 : (exampleArc : BaseArc ℝ).p1 + exampleArc.up.scale
      ((((initialState (exampleArc : BaseArc ℝ)).heightSteps + 1 : Int) : ℝ) * heightPerStep)
      = ⟨2, 211 / 10, 0⟩ := by
    ext <;> norm_num [exampleArc, initialState, heightPerStep]
  have e2 : (exampleArc : BaseArc ℝ).p2 + exampleArc.up.scale
      ((((initialState (exampleArc : BaseArc ℝ)).heightSteps + 1 : Int) : ℝ) * heightPerStep)
      = ⟨14 / 5, 211 / 10, 0⟩ := by
    ext <;> norm_num [exampleArc, initialState, heightPerStep]
  rw [e1, e2]
  have h1 : IntersectionBetweenPoints (wall : RangeTerrain ℝ) ⟨0, 1 / 10, 0⟩
      ⟨2, 211 / 10, 0⟩ = false := by
    unfold IntersectionBetweenPoints
    rw [IntersectionBetweenPoints.loop, IntersectionBetweenPoints.loop]
    norm_num [RangeTerrain.loopBound, RangeTerrain.floatCount, wall, segmentTest,
      RangeTerrain.solve, RangeTerrain.systemMatrix, RangeTerrain.v0, RangeTerrain.v1,
      RangeTerrain.v2, packTriangles, Mat3.inverse, Mat3.mulVec, Mat3.determinant]
  have h2 : IntersectionBetweenPoints (wall : RangeTerrain ℝ) ⟨2, 211 / 10, 0⟩
      ⟨14 / 5, 211 / 10, 0⟩ = false := by
    unfold IntersectionBetweenPoints
    rw [IntersectionBetweenPoints.loop, IntersectionBetweenPoints.loop]
    norm_num [RangeTerrain.loopBound, RangeTerrain.floatCount, wall, segmentTest,
      RangeTerrain.solve, RangeTerrain.systemMatrix, RangeTerrain.v0, RangeTerrain.v1,
      RangeTerrain.v2, packTriangles, Mat3.inverse, Mat3.mulVec, Mat3.determinant]
  have h3 : IntersectionBetweenPoints (wall : RangeTerrain ℝ) ⟨14 / 5, 211 / 10, 0⟩
      ⟨4, 1 / 10, 0⟩ = false := by
    unfold IntersectionBetweenPoints
    rw [IntersectionBetweenPoints.loop, IntersectionBetweenPoints.loop]
    norm_num [RangeTerrain.loopBound, RangeTerrain.floatCount, wall, segmentTest,
      RangeTerrain.solve, RangeTerrain.systemMatrix, RangeTerrain.v0, RangeTerrain.v1,
      RangeTerrain.v2, packTriangles, Mat3.inverse, Mat3.mulVec, Mat3.determinant]
  show (!IntersectionBetweenPoints (wall : RangeTerrain ℝ) ⟨0, 1 / 10, 0⟩ ⟨2, 211 / 10, 0⟩
    && !IntersectionBetweenPoints (wall : RangeTerrain ℝ) ⟨2, 211 / 10, 0⟩
      ⟨14 / 5, 211 / 10, 0⟩
    && !IntersectionBetweenPoints (wall : RangeTerrain ℝ) ⟨14 / 5, 211 / 10, 0⟩
      ⟨4, 1 / 10, 0⟩) = true
  rw [h1, h2, h3]
  rfl

/-- With the costs `linearCosts`, from `(0,0,0)` to `(4,0,0)` over `wall`, the search
resolves in its first pass, on the height track, with difficulty `5`. -/
theorem wall_result :
    ∃ out, CalculateDifficulty Real.sqrt linearCosts wall 1 ⟨0, 0, 0⟩ ⟨4, 0, 0⟩ = some out ∧
      out.difficulty = 5 := by
  have hb : PathIsClear (wall : RangeTerrain ℝ)
      (baseArc Real.sqrt linearCosts ⟨0, 0, 0⟩ ⟨4, 0, 0⟩).adjustedTee
      (baseArc Real.sqrt linearCosts ⟨0, 0, 0⟩ ⟨4, 0, 0⟩).p1
      (baseArc Real.sqrt linearCosts ⟨0, 0, 0⟩ ⟨4, 0, 0⟩).p2
      (baseArc Real.sqrt linearCosts ⟨0, 0, 0⟩ ⟨4, 0, 0⟩).adjustedTarget = false := by
    rw [baseArc_example]; exact wall_base_blocked
  rw [CalculateDifficulty_of_blocked _ _ _ _ _ _ hb, baseArc_example]
  have h1 : heightDifficulty linearCosts exampleArc (initialState (exampleArc : BaseArc ℝ))
      = 5 := by
    norm_num [heightDifficulty, linearCosts, exampleArc, initialState, heightPerStep]
  have h2 : curveDifficulty linearCosts exampleArc (initialState (exampleArc : BaseArc ℝ))
      = 5 := by
    norm_num [curveDifficulty, linearCosts, exampleArc, initialState, curvePerStep]
  have h3 : 5 ≤ comboDifficulty Real.sqrt linearCosts exampleArc
      (initialState (exampleArc : BaseArc ℝ)) := by
    have h := one_le_two_div_sqrt_two
    simp only [comboDifficulty, linearCosts, exampleArc, initialState, comboPerStep]
    norm_num
    simp only [one_div] at h
    linarith
  have hmin : minDifficulty Real.sqrt linearCosts exampleArc
      (initialState (exampleArc : BaseArc ℝ))
      = heightDifficulty linearCosts exampleArc (initialState exampleArc) := by
    unfold minDifficulty
    apply min_eq_left
    apply le_min <;> linarith
  have hnot : ¬ allExceed Real.sqrt linearCosts exampleArc
      (initialState (exampleArc : BaseArc ℝ)) := by
    intro hall
    have := hall.1
    rw [h1] at this
    norm_num [IMPOSSIBLE] at this
  have htb : testedBlocked Real.sqrt linearCosts wall exampleArc
      (initialState (exampleArc : BaseArc ℝ)) = false := by
    rw [testedBlocked_of_height _ _ _ _ _ hmin, wall_raised_clear]
    rfl
  rcases iteration_cases Real.sqrt linearCosts wall exampleArc
      (initialState (exampleArc : BaseArc ℝ)) with ⟨hall, -⟩ | ⟨-, hblk, -⟩ |
    ⟨-, -, p1, p2, hit, -⟩
  · exact absurd hall hnot
  · rw [htb] at hblk
    exact absurd hblk (by simp)
  · exact ⟨_, searchLoop_of_ret _ _ _ _ 0 _ _ _ _ hit, by
      show minDifficulty Real.sqrt linearCosts exampleArc (initialState exampleArc) = 5
      rw [hmin, h1]⟩

end ExampleLemmas

/-! ## Lemmas: the three tracks -/

section TrackLemmas
variable {α : Type} [LinearOrderedField α]

theorem heightDifficulty_eq_candidate (sqrt : α → α) (C : CostModel α) (b : BaseArc α)
    (s : SearchState α) :
    heightDifficulty C b s = candidate sqrt C b Track.height (s.heightSteps + 1) := rfl

theorem curveDifficulty_eq_candidate (sqrt : α → α) (C : CostModel α) (b : BaseArc α)
    (s : SearchState α) :
    curveDifficulty C b s = candidate sqrt C b Track.curve (s.curveSteps + 1) := rfl

theorem comboDifficulty_eq_candidate (sqrt : α → α) (C : CostModel α) (b : BaseArc α)
    (s : SearchState α) :
    comboDifficulty sqrt C b s = candidate sqrt C b Track.combo (s.comboSteps + 1) := rfl

/-- One of the three comparisons of the chain always holds. -/
theorem chosenTrack_ne_none (sqrt : α → α) (C : CostModel α) (b : BaseArc α)
    (s : SearchState α) : chosenTrack sqrt C b s ≠ none := by
  unfold chosenTrack
  split_ifs with h1 h2 h3
  · simp
  · simp
  · simp
  · exfalso
    unfold minDifficulty at h1 h2 h3
    rcases min_choice (heightDifficulty C b s)
      (min (curveDifficulty C b s) (comboDifficulty sqrt C b s)) with h | h
    · exact h1 h
    · rcases min_choice (curveDifficulty C b s) (comboDifficulty sqrt C b s) with h' | h'
      · exact h2 (h.trans h')
      · exact h3 (h.trans h')

/-- The candidate of the chosen track is the least candidate. -/
theorem candidate_of_chosenTrack (sqrt : α → α) (C : CostModel α) (b : BaseArc α)
    (s : SearchState α) (t : Track) (h : chosenTrack sqrt C b s = some t) :
    candidate sqrt C b t (s.counter t + 1) = minDifficulty sqrt C b s := by
  unfold chosenTrack at h
  split_ifs at h with h1 h2 h3
  · cases h; exact h1.symm
  · cases h; exact h2.symm
  · cases h; exact h3.symm

/-- A pass that does not return `-1` runs the branch of the chosen track. -/
theorem iteration_eq_trackPass (sqrt : α → α) (C : CostModel α) (T : RangeTerrain α)
    (b : BaseArc α) (s : SearchState α) (t : Track) (hall : ¬ allExceed sqrt C b s)
    (h : chosenTrack sqrt C b s = some t) :
    iteration sqrt C T b s = trackPass sqrt C T b s t := by
  have hall2 := hall
  unfold allExceed at hall2
  unfold chosenTrack at h
  unfold iteration
  simp only [hall2, if_false]
  unfold minDifficulty at h
  split_ifs at h with h1 h2 h3
  · cases h
    rw [if_pos h1]
    unfold trackPass clearWith
    simp only [shift, SearchState.counter, if_true]
    split_ifs <;> rfl
  · cases h
    rw [if_neg h1, if_pos h2]
    unfold trackPass clearWith
    simp only [shift, SearchState.counter, if_false, reduceCtorEq]
    split_ifs <;> rfl
  · cases h
    rw [if_neg h1, if_neg h2, if_pos h3]
    unfold trackPass clearWith
    simp only [shift, SearchState.counter, if_false, reduceCtorEq]
    split_ifs <;> rfl

/-- Height is chosen exactly when its candidate is the least. -/
theorem chosenTrack_height_iff (sqrt : α → α) (C : CostModel α) (b : BaseArc α)
    (s : SearchState α) :
    chosenTrack sqrt C b s = some Track.height ↔
      heightDifficulty C b s = minDifficulty sqrt C b s := by
  unfold chosenTrack
  split_ifs with h1 h2 h3
  · simp [h1]
  · simp only [Option.some.injEq, reduceCtorEq, false_iff]; exact fun h => h1 h.symm
  · simp only [Option.some.injEq, reduceCtorEq, false_iff]; exact fun h => h1 h.symm
  · simp only [reduceCtorEq, false_iff]; exact fun h => h1 h.symm

/-- Curve is chosen exactly when the height candidate is above the least and the curve
candidate is the least. -/
theorem chosenTrack_curve_iff (sqrt : α → α) (C : CostModel α) (b : BaseArc α)
    (s : SearchState α) :
    chosenTrack sqrt C b s = some Track.curve ↔
      minDifficulty sqrt C b s < heightDifficulty C b s ∧
      curveDifficulty C b s = minDifficulty sqrt C b s := by
  have hle : minDifficulty sqrt C b s ≤ heightDifficulty C b s := min_le_left _ _
  unfold chosenTrack
  split_ifs with h1 h2 h3
  · simp only [Option.some.injEq, reduceCtorEq, false_iff]
    rintro ⟨h, -⟩
    exact absurd h1 (ne_of_lt h)
  · simp only [true_iff]
    exact ⟨lt_of_le_of_ne hle h1, h2.symm⟩
  · simp only [Option.some.injEq, reduceCtorEq, false_iff]
    rintro ⟨-, h⟩
    exact h2 h.symm
  · simp only [reduceCtorEq, false_iff]
    rintro ⟨-, h⟩
    exact h2 h.symm

/-- Combo is chosen exactly when both other candidates are above the least. -/
theorem chosenTrack_combo_iff (sqrt : α → α) (C : CostModel α) (b : BaseArc α)
    (s : SearchState α) :
    chosenTrack sqrt C b s = some Track.combo ↔
      minDifficulty sqrt C b s < heightDifficulty C b s ∧
      minDifficulty sqrt C b s < curveDifficulty C b s := by
  have hle1 : minDifficulty sqrt C b s ≤ heightDifficulty C b s := min_le_left _ _
  have hle2 : minDifficulty sqrt C b s ≤ curveDifficulty C b s :=
    le_trans (min_le_right _ _) (min_le_left _ _)
  constructor
  · intro h
    have hn := chosenTrack_height_iff sqrt C b s
    have hc := chosenTrack_curve_iff sqrt C b s
    rw [h] at hn hc
    simp only [Option.some.injEq, reduceCtorEq, false_iff] at hn hc
    have h1 : minDifficulty sqrt C b s < heightDifficulty C b s :=
      lt_of_le_of_ne hle1 (fun e => hn e.symm)
    refine ⟨h1, lt_of_le_of_ne hle2 (fun e => hc ⟨h1, e.symm⟩)⟩
  · rintro ⟨h1, h2⟩
    cases hct : chosenTrack sqrt C b s with
    | none => exact absurd hct (chosenTrack_ne_none sqrt C b s)
    | some t =>
      cases t with
      | height =>
        rw [chosenTrack_height_iff] at hct
        exact absurd hct (ne_of_gt h1)
      | curve =>
        rw [chosenTrack_curve_iff] at hct
        exact absurd hct.2 (ne_of_gt h2)
      | combo => rfl

/-- The counters after a blocked pass on track `t`. -/
theorem SearchState.counter_bump (b : BaseArc α) (s : SearchState α) (t t' : Track)
    (v : Vec3 α) :
    (s.bump b t v).counter t' = if t' = t then s.counter t + 1 else s.counter t' := by
  cases t <;> cases t' <;> simp [SearchState.bump, SearchState.counter]

/-- The state after a blocked pass, by the chosen track. -/
theorem advance_eq_bump (sqrt : α → α) (C : CostModel α) (b : BaseArc α)
    (s : SearchState α) (t : Track) (h : chosenTrack sqrt C b s = some t) :
    advance sqrt C b s = s.bump b t (shift b t true (s.counter t + 1)) := by
  unfold chosenTrack at h
  unfold advance
  split_ifs at h with h1 h2 h3
  · cases h; rw [if_pos h1]; rfl
  · cases h; rw [if_neg h1, if_pos h2]; rfl
  · cases h; rw [if_neg h1, if_neg h2, if_pos h3]; rfl

/-- A pass finds its perturbations blocked exactly when both trials of the chosen track
at its next step count are blocked. -/
theorem testedBlocked_iff (sqrt : α → α) (C : CostModel α) (T : RangeTerrain α)
    (b : BaseArc α) (s : SearchState α) (t : Track)
    (h : chosenTrack sqrt C b s = some t) :
    testedBlocked sqrt C T b s = true ↔
      ∀ mirrored, clearWith T b (shift b t mirrored (s.counter t + 1)) = false := by
  unfold chosenTrack at h
  unfold testedBlocked clearWith
  split_ifs at h with h1 h2 h3
  · cases h
    rw [if_pos h1]
    simp only [Bool.not_eq_true', shift, SearchState.counter]
    exact ⟨fun hb _ => hb, fun hb => hb false⟩
  · cases h
    rw [if_neg h1, if_pos h2]
    simp only [Bool.and_eq_true, Bool.not_eq_true', SearchState.counter]
    exact ⟨fun hb m => by cases m; exact hb.1; exact hb.2, fun hb => ⟨hb false, hb true⟩⟩
  · cases h
    rw [if_neg h1, if_neg h2, if_pos h3]
    simp only [Bool.and_eq_true, Bool.not_eq_true', SearchState.counter]
    exact ⟨fun hb m => by cases m; exact hb.1; exact hb.2, fun hb => ⟨hb false, hb true⟩⟩

/-- The least candidate is at most the candidate of each track at its next step count. -/
theorem minDifficulty_le_candidate (sqrt : α → α) (C : CostModel α) (b : BaseArc α)
    (s : SearchState α) (t : Track) :
    minDifficulty sqrt C b s ≤ candidate sqrt C b t (s.counter t + 1) := by
  cases t
  · exact min_le_left _ _
  · exact le_trans (min_le_right _ _) (min_le_left _ _)
  · exact le_trans (min_le_right _ _) (min_le_right _ _)

/-- With increasing costs and `sqrt 2` not negative, the candidate of a track does not
decrease with the step count. -/
theorem candidate_mono (sqrt : α → α) (C : CostModel α) (b : BaseArc α) (t : Track)
    (j k : Int) (hjk : j ≤ k) (hsqrt2 : 0 ≤ sqrt 2)
    (hH : Monotone C.HeightDifficulty) (hC : Monotone C.CurveDifficulty)
    (hK : ∀ x x' y y', x ≤ x' → y ≤ y' → C.ComboDifficulty x y ≤ C.ComboDifficulty x' y') :
    candidate sqrt C b t j ≤ candidate sqrt C b t k := by
  have hc : (j : α) ≤ (k : α) := by exact_mod_cast hjk
  cases t
  · have : (j : α) * heightPerStep ≤ (k : α) * heightPerStep := by
      simpa [heightPerStep] using hc
    have := hH this
    simp only [candidate]
    linarith
  · have : (j : α) * curvePerStep ≤ (k : α) * curvePerStep := by
      simpa [curvePerStep] using hc
    have := hC this
    simp only [candidate]
    linarith
  · have h3 : (j : α) * comboPerStep sqrt ≤ (k : α) * comboPerStep sqrt :=
      mul_le_mul_of_nonneg_right hc (div_nonneg zero_le_one hsqrt2)
    have := hK _ _ _ _ h3 h3
    simp only [candidate]
    linarith

/-- Along blocked passes every step count between the first and the last value of a
counter is the target of one pass on that track. -/
theorem counter_reached (sqrt : α → α) (C : CostModel α) (b : BaseArc α)
    (s : SearchState α) (t : Track) (j : Int) (n : Nat)
    (h0 : s.counter t < j) (hn : j ≤ (stateAfter sqrt C b s n).counter t) :
    ∃ m, m < n ∧ chosenTrack sqrt C b (stateAfter sqrt C b s m) = some t ∧
      (stateAfter sqrt C b s m).counter t + 1 = j := by
  induction n with
  | zero =>
    rw [stateAfter_zero] at hn
    omega
  | succ n ih =>
    by_cases hlt : j ≤ (stateAfter sqrt C b s n).counter t
    · obtain ⟨m, hm, h1, h2⟩ := ih hlt
      exact ⟨m, Nat.lt_succ_of_lt hm, h1, h2⟩
    · rw [not_le] at hlt
      refine ⟨n, Nat.lt_succ_self n, ?_, ?_⟩
      · cases hct : chosenTrack sqrt C b (stateAfter sqrt C b s n) with
        | none => exact absurd hct (chosenTrack_ne_none sqrt C b _)
        | some t' =>
          rw [stateAfter_succ, advance_eq_bump sqrt C b _ t' hct,
            SearchState.counter_bump] at hn
          by_cases e : t = t'
          · rw [e]
          · rw [if_neg e] at hn
            omega
      · cases hct : chosenTrack sqrt C b (stateAfter sqrt C b s n) with
        | none => exact absurd hct (chosenTrack_ne_none sqrt C b _)
        | some t' =>
          rw [stateAfter_succ, advance_eq_bump sqrt C b _ t' hct,
            SearchState.counter_bump] at hn
          by_cases e : t = t'
          · rw [if_pos e] at hn
            rw [← e] at hn
            omega
          · rw [if_neg e] at hn
            omega

/-- The counter of each track never goes down along blocked passes. -/
theorem stateAfter_counter_le (sqrt : α → α) (C : CostModel α) (b : BaseArc α)
    (s : SearchState α) (t : Track) (n : Nat) :
    s.counter t ≤ (stateAfter sqrt C b s n).counter t := by
  obtain ⟨h1, h2, h3⟩ := stateAfter_counters_le sqrt C b s n
  cases t
  · exact h1
  · exact h2
  · exact h3

/-- What a returning pass that is not the `-1` return yields, by track: the candidate of
the chosen track at its next step count, and `p1`, `p2` shifted by one of the trials of
that track at that step count, which is clear. -/
theorem returnsWith_track (sqrt : α → α) (C : CostModel α) (T : RangeTerrain α)
    (b : BaseArc α) (s : SearchState α) (out : Outcome α)
    (h : returnsWith sqrt C T b s out) (hall : ¬ allExceed sqrt C b s) :
    ∃ t mirrored, chosenTrack sqrt C b s = some t ∧
      out.difficulty = candidate sqrt C b t (s.counter t + 1) ∧
      out.p1_adjusted = b.p1 + shift b t mirrored (s.counter t + 1) ∧
      out.p2_adjusted = b.p2 + shift b t mirrored (s.counter t + 1) ∧
      clearWith T b (shift b t mirrored (s.counter t + 1)) = true := by
  obtain ⟨v, p1, p2, hv, rfl⟩ := h
  cases hct : chosenTrack sqrt C b s with
  | none => exact absurd hct (chosenTrack_ne_none sqrt C b s)
  | some t =>
    rw [iteration_eq_trackPass sqrt C T b s t hall hct] at hv
    unfold trackPass at hv
    split_ifs at hv with h1 h2 h3
    · cases hv
      exact ⟨t, false, rfl, rfl, rfl, rfl, h1⟩
    · cases hv
      exact ⟨t, true, rfl, rfl, rfl, rfl, h3⟩

end TrackLemmas

/-! ## Lemmas: the working height -/

section HeightLemmas

variable {α : Type} [LinearOrderedField α]

theorem baseArc_adjustedHeight [FloorRing α] (sqrt : α → α) (C : CostModel α)
    (tee target : Vec3 α) :
    (baseArc sqrt C tee target).adjustedHeight =
      if target.y - tee.y + 1 > 20 then
        20 + ((baseArc sqrt C tee target).heightSteps : α) * heightPerStep
      else 20 := by
  have hh := baseArc_h sqrt C tee target
  unfold baseArc at hh ⊢
  simp only at hh ⊢
  simp only [hh, heightPerStep, defaultShotHeight, div_one, decide_eq_true_eq]

/-- The working height is at least `h + heightPerStep`. -/
theorem baseArc_adjustedHeight_ge [FloorRing α] (sqrt : α → α) (C : CostModel α)
    (tee target : Vec3 α) :
    target.y - tee.y + 1 ≤ (baseArc sqrt C tee target).adjustedHeight := by
  rw [baseArc_adjustedHeight, baseArc_heightSteps]
  split_ifs with h
  · have := Int.le_ceil (target.y - tee.y - 20)
    push_cast
    simp only [heightPerStep, mul_one]
    linarith
  · linarith

/-- The working height is at least `defaultShotHeight`. -/
theorem baseArc_adjustedHeight_ge_default [FloorRing α] (sqrt : α → α) (C : CostModel α)
    (tee target : Vec3 α) :
    20 ≤ (baseArc sqrt C tee target).adjustedHeight := by
  rw [baseArc_adjustedHeight]
  split_ifs with h
  · have h0 : (0 : α) ≤ ((baseArc sqrt C tee target).heightSteps : α) := by
      exact_mod_cast baseArc_heightSteps_nonneg sqrt C tee target
    simp only [heightPerStep, mul_one]
    linarith
  · exact le_refl _

end HeightLemmas

/-! ## Lemmas: the example from `(0,0,0)` to `(7,24,0)` -/

section ElevatedLemmas

/-- The locals of `CalculateDifficulty` for the tee `(0,0,0)`, the target `(7,24,0)` and
the costs `linearCosts`. -/
theorem baseArc_elevated :
    baseArc Real.sqrt linearCosts ⟨0, 0, 0⟩ ⟨7, 24, 0⟩ = elevatedArc := by
  have h49 : Real.sqrt 49 = 7 := by
    rw [show (49 : ℝ) = 7 ^ 2 by norm_num]
    exact Real.sqrt_sq (by norm_num)
  have h625 : Real.sqrt 625 = 25 := by
    rw [show (625 : ℝ) = 25 ^ 2 by norm_num]
    exact Real.sqrt_sq (by norm_num)
  have e1 : ((⟨7, 24, 0⟩ : Vec3 ℝ) + ⟨0, 1 / 10, 0⟩) = ⟨7, 241 / 10, 0⟩ := by
    ext <;> norm_num
  have e0 : ((⟨0, 0, 0⟩ : Vec3 ℝ) + ⟨0, 1 / 10, 0⟩) = ⟨0, 1 / 10, 0⟩ := by
    ext <;> norm_num
  have e2 : ((⟨7, 24, 0⟩ : Vec3 ℝ) - ⟨0, 0, 0⟩) = ⟨7, 24, 0⟩ := by
    ext <;> norm_num
  have e3 : ((⟨7, 241 / 10, 0⟩ : Vec3 ℝ) - ⟨0, 1 / 10, 0⟩) = ⟨7, 24, 0⟩ := by
    ext <;> norm_num
  have ed : dot (⟨7, 24, 0⟩ : Vec3 ℝ) ⟨7, 24, 0⟩ = 625 := by norm_num [dot]
  have ed' : dot (⟨7, 0, 0⟩ : Vec3 ℝ) ⟨7, 0, 0⟩ = 49 := by norm_num [dot]
  have hc : Int.ceil ((24 : ℝ) - 20) = 4 := by
    rw [Int.ceil_eq_iff]
    norm_num
  unfold baseArc elevatedArc
  simp only [e0, e1, e2, e3, length, normalize, ed, ed', h49, h625]
  norm_num [heightPerStep, defaultShotHeight, p1_relative, p2_relative, cross, Vec3.scale,
    hc, linearCosts]
  refine ⟨?_, ?_⟩ <;> ext <;> norm_num

end ElevatedLemmas

section ElevatedPass

theorem one_lt_sqrt_two : (1 : ℝ) < Real.sqrt 2 := by
  rw [show (1 : ℝ) = Real.sqrt 1 by simp]
  exact Real.sqrt_lt_sqrt (by norm_num) (by norm_num)

/-- From `(0,0,0)` to `(7,24,0)` over `highWall`, the base arc is blocked (on its middle
leg). -/
theorem highWall_base_blocked :
    PathIsClear (highWall : RangeTerrain ℝ) elevatedArc.adjustedTee elevatedArc.p1
      elevatedArc.p2 elevatedArc.adjustedTarget = false := by
  have h : IntersectionBetweenPoints (highWall : RangeTerrain ℝ) ⟨875 / 178, 251 / 10, 0⟩
      ⟨1225 / 178, 251 / 10, 0⟩ = true := by
    unfold IntersectionBetweenPoints
    rw [IntersectionBetweenPoints.loop]
    norm_num [RangeTerrain.loopBound, RangeTerrain.floatCount, highWall, segmentTest,
      RangeTerrain.solve, RangeTerrain.systemMatrix, RangeTerrain.v0, RangeTerrain.v1,
      RangeTerrain.v2, packTriangles, Mat3.inverse, Mat3.mulVec, Mat3.determinant]
  simp [PathIsClear, elevatedArc, h]

/-- From `(0,0,0)` to `(7,24,0)` over `highWall`, the arc moved by one combined step, up
and to the right, is clear. -/
theorem highWall_combo_clear :
    clearWith (highWall : RangeTerrain ℝ) elevatedArc
      (shift elevatedArc Track.combo false
        ((initialState (elevatedArc : BaseArc ℝ)).counter Track.combo + 1)) = true := by
  have e1 : (elevatedArc : BaseArc ℝ).p1 + shift elevatedArc Track.combo false
      ((initialState (elevatedArc : BaseArc ℝ)).counter Track.combo + 1)
      = ⟨875 / 178, 261 / 10, 1⟩ := by
    ext <;> norm_num [elevatedArc, initialState, heightPerStep, curvePerStep, shift,
      SearchState.counter]
  have e2 : (elevatedArc : BaseArc ℝ).p2 + shift elevatedArc Track.combo false
      ((initialState (elevatedArc : BaseArc ℝ)).counter Track.combo + 1)
      = ⟨1225 / 178, 261 / 10, 1⟩ := by
    ext <;> norm_num [elevatedArc, initialState, heightPerStep, curvePerStep, shift,
      SearchState.counter]
  unfold clearWith
  rw [e1, e2]
  have h1 : IntersectionBetweenPoints (highWall : RangeTerrain ℝ) ⟨0, 1 / 10, 0⟩
      ⟨875 / 178, 261 / 10, 1⟩ = false := by
    unfold IntersectionBetweenPoints
    rw [IntersectionBetweenPoints.loop, IntersectionBetweenPoints.loop]
    norm_num [RangeTerrain.loopBound, RangeTerrain.floatCount, highWall, segmentTest,
      RangeTerrain.solve, RangeTerrain.systemMatrix, RangeTerrain.v0, RangeTerrain.v1,
      RangeTerrain.v2, packTriangles, Mat3.inverse, Mat3.mulVec, Mat3.determinant]
  have h2 : IntersectionBetweenPoints (highWall : RangeTerrain ℝ) ⟨875 / 178, 261 / 10, 1⟩
      ⟨1225 / 178, 261 / 10, 1⟩ = false := by
    unfold IntersectionBetweenPoints
    rw [IntersectionBetweenPoints.loop, IntersectionBetweenPoints.loop]
    norm_num [RangeTerrain.loopBound, RangeTerrain.floatCount, highWall, segmentTest,
      RangeTerrain.solve, RangeTerrain.systemMatrix, RangeTerrain.v0, RangeTerrain.v1,
      RangeTerrain.v2, packTriangles, Mat3.inverse, Mat3.mulVec, Mat3.determinant]
  have h3 : IntersectionBetweenPoints (highWall : RangeTerrain ℝ) ⟨1225 / 178, 261 / 10, 1⟩
      ⟨7, 241 / 10, 0⟩ = false := by
    unfold IntersectionBetweenPoints
    rw [IntersectionBetweenPoints.loop, IntersectionBetweenPoints.loop]
    norm_num [RangeTerrain.loopBound, RangeTerrain.floatCount, highWall, segmentTest,
      RangeTerrain.solve, RangeTerrain.systemMatrix, RangeTerrain.v0, RangeTerrain.v1,
      RangeTerrain.v2, packTriangles, Mat3.inverse, Mat3.mulVec, Mat3.determinant]
  show (!IntersectionBetweenPoints (highWall : RangeTerrain ℝ) ⟨0, 1 / 10, 0⟩
      ⟨875 / 178, 261 / 10, 1⟩
    && !IntersectionBetweenPoints (highWall : RangeTerrain ℝ) ⟨875 / 178, 261 / 10, 1⟩
      ⟨1225 / 178, 261 / 10, 1⟩
    && !IntersectionBetweenPoints (highWall : RangeTerrain ℝ) ⟨1225 / 178, 261 / 10, 1⟩
      ⟨7, 241 / 10, 0⟩) = true
  rw [h1, h2, h3]
  rfl

/-- The candidates of the first pass from `(0,0,0)` to `(7,24,0)` with `linearCosts`. -/
theorem elevated_candidates :
    heightDifficulty linearCosts elevatedArc (initialState (elevatedArc : BaseArc ℝ)) = 31 ∧
    curveDifficulty linearCosts elevatedArc (initialState (elevatedArc : BaseArc ℝ)) = 31 ∧
    comboDifficulty Real.sqrt linearCosts elevatedArc (initialState (elevatedArc : BaseArc ℝ))
      = 25 + (1 / Real.sqrt 2 + 1 / Real.sqrt 2) ∧
    comboDifficulty Real.sqrt linearCosts elevatedArc (initialState (elevatedArc : BaseArc ℝ))
      < 27 := by
  have hc : comboDifficulty Real.sqrt linearCosts elevatedArc
      (initialState (elevatedArc : BaseArc ℝ)) = 25 + (1 / Real.sqrt 2 + 1 / Real.sqrt 2) := by
    simp only [comboDifficulty, linearCosts, elevatedArc, initialState, comboPerStep]
    norm_num
  refine ⟨?_, ?_, hc, ?_⟩
  · norm_num [heightDifficulty, linearCosts, elevatedArc, initialState, heightPerStep]
  · norm_num [curveDifficulty, linearCosts, elevatedArc, initialState, curvePerStep]
  · rw [hc]
    have h1 : 1 / Real.sqrt 2 < 1 := by
      rw [div_lt_one (by linarith [one_lt_sqrt_two])]
      exact one_lt_sqrt_two
    linarith

/-- With the costs `linearCosts`, from `(0,0,0)` to `(7,24,0)` over `highWall`, the search
resolves in its first pass, on the combined track, with the combined candidate. -/
theorem highWall_result :
    CalculateDifficulty Real.sqrt linearCosts highWall 1 ⟨0, 0, 0⟩ ⟨7, 24, 0⟩
      = some { difficulty := 25 + (1 / Real.sqrt 2 + 1 / Real.sqrt 2),
               p1_adjusted := ⟨875 / 178, 261 / 10, 1⟩,
               p2_adjusted := ⟨1225 / 178, 261 / 10, 1⟩,
               distance := 25 } := by
  have hb : PathIsClear (highWall : RangeTerrain ℝ)
      (baseArc Real.sqrt linearCosts ⟨0, 0, 0⟩ ⟨7, 24, 0⟩).adjustedTee
      (baseArc Real.sqrt linearCosts ⟨0, 0, 0⟩ ⟨7, 24, 0⟩).p1
      (baseArc Real.sqrt linearCosts ⟨0, 0, 0⟩ ⟨7, 24, 0⟩).p2
      (baseArc Real.sqrt linearCosts ⟨0, 0, 0⟩ ⟨7, 24, 0⟩).adjustedTarget = false := by
    rw [baseArc_elevated]; exact highWall_base_blocked
  rw [CalculateDifficulty_of_blocked _ _ _ _ _ _ hb, baseArc_elevated]
  obtain ⟨h1, h2, h3, h4⟩ := elevated_candidates
  have hmin : minDifficulty Real.sqrt linearCosts elevatedArc
      (initialState (elevatedArc : BaseArc ℝ))
      = comboDifficulty Real.sqrt linearCosts elevatedArc (initialState elevatedArc) := by
    unfold minDifficulty
    have ha : min (curveDifficulty linearCosts elevatedArc (initialState elevatedArc))
        (comboDifficulty Real.sqrt linearCosts elevatedArc
          (initialState (elevatedArc : BaseArc ℝ)))
        = comboDifficulty Real.sqrt linearCosts elevatedArc (initialState elevatedArc) :=
      min_eq_right (by linarith)
    rw [ha]
    exact min_eq_right (by linarith)
  have hnot : ¬ allExceed Real.sqrt linearCosts elevatedArc
      (initialState (elevatedArc : BaseArc ℝ)) := by
    intro hall
    have := hall.1
    rw [h1] at this
    norm_num [IMPOSSIBLE] at this
  have hch : chosenTrack Real.sqrt linearCosts elevatedArc
      (initialState (elevatedArc : BaseArc ℝ)) = some Track.combo := by
    rw [chosenTrack_combo_iff, hmin, h1, h2]
    exact ⟨by linarith, by linarith⟩
  have hit := iteration_eq_trackPass Real.sqrt linearCosts highWall elevatedArc
    (initialState (elevatedArc : BaseArc ℝ)) Track.combo hnot hch
  unfold trackPass at hit
  rw [if_pos highWall_combo_clear] at hit
  rw [searchLoop_of_ret _ _ _ _ 0 _ _ _ _ hit]
  have e1 : (elevatedArc : BaseArc ℝ).p1 + shift elevatedArc Track.combo false
      ((initialState (elevatedArc : BaseArc ℝ)).counter Track.combo + 1)
      = ⟨875 / 178, 261 / 10, 1⟩ := by
    ext <;> norm_num [elevatedArc, initialState, heightPerStep, curvePerStep, shift,
      SearchState.counter]
  have e2 : (elevatedArc : BaseArc ℝ).p2 + shift elevatedArc Track.combo false
      ((initialState (elevatedArc : BaseArc ℝ)).counter Track.combo + 1)
      = ⟨1225 / 178, 261 / 10, 1⟩ := by
    ext <;> norm_num [elevatedArc, initialState, heightPerStep, curvePerStep, shift,
      SearchState.counter]
  have e3 : candidate Real.sqrt linearCosts elevatedArc Track.combo
      ((initialState (elevatedArc : BaseArc ℝ)).counter Track.combo + 1)
      = 25 + (1 / Real.sqrt 2 + 1 / Real.sqrt 2) := h3
  rw [e1, e2, e3]
  rfl

end ElevatedPass

/-! ## Lemmas: the frame `up`, `right` and the lengths of the shifts -/

section FrameLemmas

/-- For a horizontal vector `v` of non-zero length, `cross(normalize(v), (0,1,0))` is
horizontal of length 1. -/
theorem cross_normalize_up (v : Vec3 ℝ) (hv : v.y = 0) (hne : Real.sqrt (dot v v) ≠ 0) :
    (cross (normalize Real.sqrt v) (⟨0, 1, 0⟩ : Vec3 ℝ)).y = 0 ∧
    (cross (normalize Real.sqrt v) (⟨0, 1, 0⟩ : Vec3 ℝ)).x ^ 2
      + (cross (normalize Real.sqrt v) (⟨0, 1, 0⟩ : Vec3 ℝ)).z ^ 2 = 1 := by
  have hD0 : 0 ≤ dot v v := by
    simp only [dot]
    nlinarith [sq_nonneg v.x, sq_nonneg v.y, sq_nonneg v.z]
  have hsq := Real.sq_sqrt hD0
  simp only [cross, normalize, Vec3.scale_x, Vec3.scale_y, Vec3.scale_z]
  generalize Real.sqrt (dot v v) = r at hne hsq
  simp only [dot, hv] at hsq
  refine ⟨by ring, ?_⟩
  field_simp
  nlinarith [hsq]

/-- With non-zero horizontal travel, `up` and `right` are orthogonal unit vectors: `up` is
`(0,1,0)`, and `right` is horizontal of length 1. -/
theorem baseArc_frame (C : CostModel ℝ) (tee target : Vec3 ℝ)
    (hL : (baseArc Real.sqrt C tee target).L ≠ 0) :
    (baseArc Real.sqrt C tee target).up = ⟨0, 1, 0⟩ ∧
    (baseArc Real.sqrt C tee target).right.y = 0 ∧
    (baseArc Real.sqrt C tee target).right.x ^ 2
      + (baseArc Real.sqrt C tee target).right.z ^ 2 = 1 :=
  ⟨rfl, cross_normalize_up _ rfl hL⟩

/-- The squared lengths of the three kinds of shift, with orthogonal unit vectors `up` and
`right`: `k^2` for height and curve, `2 k^2` for combo. -/
theorem shift_dot (b : BaseArc ℝ) (k : Int) (mirrored : Bool)
    (hup : b.up = ⟨0, 1, 0⟩) (hy : b.right.y = 0) (hr : b.right.x ^ 2 + b.right.z ^ 2 = 1) :
    dot (shift b Track.height mirrored k) (shift b Track.height mirrored k) = (k : ℝ) ^ 2 ∧
    dot (shift b Track.curve mirrored k) (shift b Track.curve mirrored k) = (k : ℝ) ^ 2 ∧
    dot (shift b Track.combo mirrored k) (shift b Track.combo mirrored k)
      = (k : ℝ) ^ 2 * 2 := by
  cases mirrored <;>
  · simp only [shift, dot, hup, Vec3.add_x, Vec3.add_y, Vec3.add_z, Vec3.sub_x, Vec3.sub_y,
      Vec3.sub_z, Vec3.neg_x, Vec3.neg_y, Vec3.neg_z, Vec3.scale_x, Vec3.scale_y,
      Vec3.scale_z, hy, heightPerStep, curvePerStep]
    refine ⟨by ring, ?_, ?_⟩
    · linear_combination ((k : ℝ) ^ 2) * hr
    · linear_combination ((k : ℝ) ^ 2) * hr

end FrameLemmas

/-! ## Lemmas: first passes of the examples -/

section FirstPassLemmas

/-- The candidates of the first pass from `(0,0,0)` to `(4,0,0)` with `linearCosts`:
height and curve tie at 5, combo is not below. -/
theorem example_candidates :
    heightDifficulty linearCosts exampleArc (initialState (exampleArc : BaseArc ℝ)) = 5 ∧
    curveDifficulty linearCosts exampleArc (initialState (exampleArc : BaseArc ℝ)) = 5 ∧
    5 ≤ comboDifficulty Real.sqrt linearCosts exampleArc
      (initialState (exampleArc : BaseArc ℝ)) := by
  refine ⟨?_, ?_, ?_⟩
  · norm_num [heightDifficulty, linearCosts, exampleArc, initialState, heightPerStep]
  · norm_num [curveDifficulty, linearCosts, exampleArc, initialState, curvePerStep]
  · have h := one_le_two_div_sqrt_two
    simp only [comboDifficulty, linearCosts, exampleArc, initialState, comboPerStep]
    norm_num
    simp only [one_div] at h
    linarith

theorem example_minDifficulty :
    minDifficulty Real.sqrt linearCosts exampleArc (initialState (exampleArc : BaseArc ℝ))
      = heightDifficulty linearCosts exampleArc (initialState exampleArc) := by
  obtain ⟨h1, h2, h3⟩ := example_candidates
  unfold minDifficulty
  apply min_eq_left
  apply le_min <;> linarith

theorem example_not_allExceed :
    ¬ allExceed Real.sqrt linearCosts exampleArc (initialState (exampleArc : BaseArc ℝ)) := by
  intro hall
  have := hall.1
  rw [example_candidates.1] at this
  norm_num [IMPOSSIBLE] at this

/-- From `(0,0,0)` to `(4,0,0)` over `wall`, the base arc is blocked. -/
theorem wall_blocked (C : CostModel ℝ) :
    PathIsClear (wall : RangeTerrain ℝ)
      (baseArc Real.sqrt C ⟨0, 0, 0⟩ ⟨4, 0, 0⟩).adjustedTee
      (baseArc Real.sqrt C ⟨0, 0, 0⟩ ⟨4, 0, 0⟩).p1
      (baseArc Real.sqrt C ⟨0, 0, 0⟩ ⟨4, 0, 0⟩).p2
      (baseArc Real.sqrt C ⟨0, 0, 0⟩ ⟨4, 0, 0⟩).adjustedTarget = false := by
  rw [baseArc_example]; exact wall_base_blocked

/-- With the costs `linearCosts`, from `(0,0,0)` to `(4,0,0)` over `teeCover`, the first
pass of the loop falls through to a second one. -/
theorem teeCover_first_pass :
    iteration Real.sqrt linearCosts teeCover exampleArc
        (initialState (exampleArc : BaseArc ℝ))
      = Step.next (advance Real.sqrt linearCosts exampleArc (initialState exampleArc)) := by
  have htb : testedBlocked Real.sqrt linearCosts teeCover exampleArc
      (initialState (exampleArc : BaseArc ℝ)) = true := by
    rw [testedBlocked_of_height _ _ _ _ _ example_minDifficulty]
    have hleg : PathIsClear (teeCover : RangeTerrain ℝ) exampleArc.adjustedTee
        (exampleArc.p1 + exampleArc.up.scale
          ((((initialState (exampleArc : BaseArc ℝ)).heightSteps + 1 : Int) : ℝ)
            * heightPerStep))
        (exampleArc.p2 + exampleArc.up.scale
          ((((initialState (exampleArc : BaseArc ℝ)).heightSteps + 1 : Int) : ℝ)
            * heightPerStep))
        exampleArc.adjustedTarget = false := by
      apply PathIsClear_of_first_leg
      apply teeCover_blocks _ _ rfl <;>
        norm_num [exampleArc, initialState, heightPerStep]
    rw [hleg]
    rfl
  rcases iteration_cases Real.sqrt linearCosts teeCover exampleArc
      (initialState (exampleArc : BaseArc ℝ)) with ⟨hall, -⟩ | ⟨-, -, hit⟩ | ⟨-, hblk, -⟩
  · exact absurd hall example_not_allExceed
  · exact hit
  · rw [htb] at hblk
    exact absurd hblk (by simp)

/-- With the costs `linearCosts`, over the terrain without triangles, the fast path
returns 500 from `(0,0,0)` to `(500,0,0)`. -/
theorem far_result (fuel : Nat) :
    ∃ out, CalculateDifficulty Real.sqrt linearCosts noTriangles fuel ⟨0, 0, 0⟩ ⟨500, 0, 0⟩
      = some out ∧ out.difficulty = 500 := by
  have hs : (baseArc Real.sqrt linearCosts ⟨0, 0, 0⟩ ⟨500, 0, 0⟩).heightSteps = 0 := by
    rw [baseArc_heightSteps]
    norm_num
  have hi : (baseArc Real.sqrt linearCosts ⟨0, 0, 0⟩ ⟨500, 0, 0⟩).initialHeightDifficulty
      = 0 := by
    rw [baseArc_initialHeightDifficulty]
    norm_num
  have hd : (baseArc Real.sqrt linearCosts ⟨0, 0, 0⟩ ⟨500, 0, 0⟩).distance = 500 := by
    rw [baseArc_distance]
    have e : dot ((⟨500, 0, 0⟩ : Vec3 ℝ) - ⟨0, 0, 0⟩) ((⟨500, 0, 0⟩ : Vec3 ℝ) - ⟨0, 0, 0⟩)
        = 500 ^ 2 := by
      norm_num [dot]
    rw [length, e]
    exact Real.sqrt_sq (by norm_num)
  rw [CalculateDifficulty_of_clear _ _ _ _ _ _
    (PathIsClear_of_loopBound_nonpos _ (by decide) _ _ _ _), hs, hi, hd]
  exact ⟨_, rfl, by norm_num [linearCosts, heightPerStep]⟩

end FirstPassLemmas

/-! ## Lemmas: a search of two passes -/

section TwoPassLemmas

theorem half_lt_one_div_sqrt_two : (1 : ℝ) / 2 < 1 / Real.sqrt 2 := by
  have h0 : (0 : ℝ) < Real.sqrt 2 := by linarith [one_lt_sqrt_two]
  have h2 : Real.sqrt 2 < 2 := by
    have h4 : Real.sqrt 4 = 2 := by
      rw [show (4 : ℝ) = 2 ^ 2 by norm_num]
      exact Real.sqrt_sq (by norm_num)
    calc Real.sqrt 2 < Real.sqrt 4 := Real.sqrt_lt_sqrt (by norm_num) (by norm_num)
      _ = 2 := h4
  exact one_div_lt_one_div_of_lt h0 h2

theorem one_div_sqrt_two_lt_one : (1 : ℝ) / Real.sqrt 2 < 1 := by
  rw [div_lt_one (by linarith [one_lt_sqrt_two])]
  exact one_lt_sqrt_two

/-- From `(0,0,0)` to `(4,0,0)` over `tallWall`, the base arc is blocked. -/
theorem tallWall_base_blocked (C : CostModel ℝ) :
    PathIsClear (tallWall : RangeTerrain ℝ)
      (baseArc Real.sqrt C ⟨0, 0, 0⟩ ⟨4, 0, 0⟩).adjustedTee
      (baseArc Real.sqrt C ⟨0, 0, 0⟩ ⟨4, 0, 0⟩).p1
      (baseArc Real.sqrt C ⟨0, 0, 0⟩ ⟨4, 0, 0⟩).p2
      (baseArc Real.sqrt C ⟨0, 0, 0⟩ ⟨4, 0, 0⟩).adjustedTarget = false := by
  rw [baseArc_example]
  have h : IntersectionBetweenPoints (tallWall : RangeTerrain ℝ) ⟨2, 201 / 10, 0⟩
      ⟨14 / 5, 201 / 10, 0⟩ = true := by
    unfold IntersectionBetweenPoints
    rw [IntersectionBetweenPoints.loop]
    norm_num [RangeTerrain.loopBound, RangeTerrain.floatCount, tallWall, segmentTest,
      RangeTerrain.solve, RangeTerrain.systemMatrix, RangeTerrain.v0, RangeTerrain.v1,
      RangeTerrain.v2, packTriangles, Mat3.inverse, Mat3.mulVec, Mat3.determinant]
  simp [PathIsClear, exampleArc, h]

/-- Over `tallWall`, the arc raised by one height step is blocked as well. -/
theorem tallWall_raised_blocked :
    clearWith (tallWall : RangeTerrain ℝ) exampleArc
      (shift exampleArc Track.height false
        ((initialState (exampleArc : BaseArc ℝ)).counter Track.height + 1)) = false := by
  have e1 : (exampleArc : BaseArc ℝ).p1 + shift exampleArc Track.height false
      ((initialState (exampleArc : BaseArc ℝ)).counter Track.height + 1)
      = ⟨2, 211 / 10, 0⟩ := by
    ext <;> norm_num [exampleArc, initialState, heightPerStep, shift, SearchState.counter]
  have e2 : (exampleArc : BaseArc ℝ).p2 + shift exampleArc Track.height false
      ((initialState (exampleArc : BaseArc ℝ)).counter Track.height + 1)
      = ⟨14 / 5, 211 / 10, 0⟩ := by
    ext <;> norm_num [exampleArc, initialState, heightPerStep, shift, SearchState.counter]
  unfold clearWith
  rw [e1, e2]
  have h : IntersectionBetweenPoints (tallWall : RangeTerrain ℝ) ⟨2, 211 / 10, 0⟩
      ⟨14 / 5, 211 / 10, 0⟩ = true := by
    unfold IntersectionBetweenPoints
    rw [IntersectionBetweenPoints.loop]
    norm_num [RangeTerrain.loopBound, RangeTerrain.floatCount, tallWall, segmentTest,
      RangeTerrain.solve, RangeTerrain.systemMatrix, RangeTerrain.v0, RangeTerrain.v1,
      RangeTerrain.v2, packTriangles, Mat3.inverse, Mat3.mulVec, Mat3.determinant]
  simp [PathIsClear, h]

/-- Over `tallWall`, the arc moved by one combined step, up and to the right, is clear. -/
theorem tallWall_combo_clear :
    clearWith (tallWall : RangeTerrain ℝ) exampleArc
      (shift exampleArc Track.combo false 1) = true := by
  have e1 : (exampleArc : BaseArc ℝ).p1 + shift exampleArc Track.combo false 1
      = ⟨2, 211 / 10, 1⟩ := by
    ext <;> norm_num [exampleArc, heightPerStep, curvePerStep, shift]
  have e2 : (exampleArc : BaseArc ℝ).p2 + shift exampleArc Track.combo false 1
      = ⟨14 / 5, 211 / 10, 1⟩ := by
    ext <;> norm_num [exampleArc, heightPerStep, curvePerStep, shift]
  unfold clearWith
  rw [e1, e2]
  have h1 : IntersectionBetweenPoints (tallWall : RangeTerrain ℝ) ⟨0, 1 / 10, 0⟩
      ⟨2, 211 / 10, 1⟩ = false := by
    unfold IntersectionBetweenPoints
    rw [IntersectionBetweenPoints.loop, IntersectionBetweenPoints.loop]
    norm_num [RangeTerrain.loopBound, RangeTerrain.floatCount, tallWall, segmentTest,
      RangeTerrain.solve, RangeTerrain.systemMatrix, RangeTerrain.v0, RangeTerrain.v1,
      RangeTerrain.v2, packTriangles, Mat3.inverse, Mat3.mulVec, Mat3.determinant]
  have h2 : IntersectionBetweenPoints (tallWall : RangeTerrain ℝ) ⟨2, 211 / 10, 1⟩
      ⟨14 / 5, 211 / 10, 1⟩ = false := by
    unfold IntersectionBetweenPoints
    rw [IntersectionBetweenPoints.loop, IntersectionBetweenPoints.loop]
    norm_num [RangeTerrain.loopBound, RangeTerrain.floatCount, tallWall, segmentTest,
      RangeTerrain.solve, RangeTerrain.systemMatrix, RangeTerrain.v0, RangeTerrain.v1,
      RangeTerrain.v2, packTriangles, Mat3.inverse, Mat3.mulVec, Mat3.determinant]
  have h3 : IntersectionBetweenPoints (tallWall : RangeTerrain ℝ) ⟨14 / 5, 211 / 10, 1⟩
      ⟨4, 1 / 10, 0⟩ = false := by
    unfold IntersectionBetweenPoints
    rw [IntersectionBetweenPoints.loop, IntersectionBetweenPoints.loop]
    norm_num [RangeTerrain.loopBound, RangeTerrain.floatCount, tallWall, segmentTest,
      RangeTerrain.solve, RangeTerrain.systemMatrix, RangeTerrain.v0, RangeTerrain.v1,
      RangeTerrain.v2, packTriangles, Mat3.inverse, Mat3.mulVec, Mat3.determinant]
  show (!IntersectionBetweenPoints (tallWall : RangeTerrain ℝ) ⟨0, 1 / 10, 0⟩
      ⟨2, 211 / 10, 1⟩
    && !IntersectionBetweenPoints (tallWall : RangeTerrain ℝ) ⟨2, 211 / 10, 1⟩
      ⟨14 / 5, 211 / 10, 1⟩
    && !IntersectionBetweenPoints (tallWall : RangeTerrain ℝ) ⟨14 / 5, 211 / 10, 1⟩
      ⟨4, 1 / 10, 0⟩) = true
  rw [h1, h2, h3]
  rfl

/-- With the costs `dearCurveCosts`, from `(0,0,0)` to `(4,0,0)` over `tallWall`: the
first pass raises the arc (candidate 5) and finds it blocked, the second pass resolves on
the combined track with a difficulty above 5. -/
theorem tallWall_result :
    ∃ out, CalculateDifficulty Real.sqrt dearCurveCosts tallWall 2 ⟨0, 0, 0⟩ ⟨4, 0, 0⟩
        = some out ∧
      out.difficulty = 4 + (1 / Real.sqrt 2 + 1 / Real.sqrt 2) := by
  rw [CalculateDifficulty_of_blocked _ _ _ _ _ _ (tallWall_base_blocked _), baseArc_example]
  have hlo := half_lt_one_div_sqrt_two
  have hhi := one_div_sqrt_two_lt_one
  -- the first pass
  have a1 : heightDifficulty dearCurveCosts exampleArc
      (initialState (exampleArc : BaseArc ℝ)) = 5 := by
    norm_num [heightDifficulty, dearCurveCosts, exampleArc, initialState, heightPerStep]
  have a2 : curveDifficulty dearCurveCosts exampleArc
      (initialState (exampleArc : BaseArc ℝ)) = 6 := by
    norm_num [curveDifficulty, dearCurveCosts, exampleArc, initialState, curvePerStep]
  have a3 : comboDifficulty Real.sqrt dearCurveCosts exampleArc
      (initialState (exampleArc : BaseArc ℝ)) = 4 + (1 / Real.sqrt 2 + 1 / Real.sqrt 2) := by
    simp only [comboDifficulty, dearCurveCosts, exampleArc, initialState, comboPerStep]
    norm_num
  have amin : minDifficulty Real.sqrt dearCurveCosts exampleArc
      (initialState (exampleArc : BaseArc ℝ))
      = heightDifficulty dearCurveCosts exampleArc (initialState exampleArc) := by
    unfold minDifficulty
    apply min_eq_left
    apply le_min <;> linarith
  have anot : ¬ allExceed Real.sqrt dearCurveCosts exampleArc
      (initialState (exampleArc : BaseArc ℝ)) := by
    intro hall
    have := hall.1
    rw [a1] at this
    norm_num [IMPOSSIBLE] at this
  have ach : chosenTrack Real.sqrt dearCurveCosts exampleArc
      (initialState (exampleArc : BaseArc ℝ)) = some Track.height :=
    (chosenTrack_height_iff _ _ _ _).2 amin.symm
  have ait := iteration_eq_trackPass Real.sqrt dearCurveCosts tallWall exampleArc
    (initialState (exampleArc : BaseArc ℝ)) Track.height anot ach
  unfold trackPass at ait
  rw [if_neg (by rw [tallWall_raised_blocked]; simp), if_pos rfl] at ait
  rw [searchLoop_of_next _ _ _ _ 1 _ _ ait]
  -- the second pass
  generalize hs : (initialState (exampleArc : BaseArc ℝ)).bump exampleArc Track.height
    (shift exampleArc Track.height false
      ((initialState (exampleArc : BaseArc ℝ)).counter Track.height + 1)) = s
  have c1 : s.heightSteps = 1 := by rw [← hs]; rfl
  have c2 : s.curveSteps = 0 := by rw [← hs]; rfl
  have c3 : s.comboSteps = 0 := by rw [← hs]; rfl
  have b1 : heightDifficulty dearCurveCosts exampleArc s = 6 := by
    norm_num [heightDifficulty, dearCurveCosts, exampleArc, c1, heightPerStep]
  have b2 : curveDifficulty dearCurveCosts exampleArc s = 6 := by
    norm_num [curveDifficulty, dearCurveCosts, exampleArc, c2, curvePerStep]
  have b3 : comboDifficulty Real.sqrt dearCurveCosts exampleArc s
      = 4 + (1 / Real.sqrt 2 + 1 / Real.sqrt 2) := by
    simp only [comboDifficulty, dearCurveCosts, exampleArc, c3, comboPerStep]
    norm_num
  have bmin : minDifficulty Real.sqrt dearCurveCosts exampleArc s
      = comboDifficulty Real.sqrt dearCurveCosts exampleArc s := by
    unfold minDifficulty
    have ha : min (curveDifficulty dearCurveCosts exampleArc s)
        (comboDifficulty Real.sqrt dearCurveCosts exampleArc s)
        = comboDifficulty Real.sqrt dearCurveCosts exampleArc s :=
      min_eq_right (by linarith)
    rw [ha]
    exact min_eq_right (by linarith)
  have bnot : ¬ allExceed Real.sqrt dearCurveCosts exampleArc s := by
    intro hall
    have := hall.1
    rw [b1] at this
    norm_num [IMPOSSIBLE] at this
  have bch : chosenTrack Real.sqrt dearCurveCosts exampleArc s = some Track.combo := by
    rw [chosenTrack_combo_iff, bmin, b1, b2, b3]
    exact ⟨by linarith, by linarith⟩
  have bit := iteration_eq_trackPass Real.sqrt dearCurveCosts tallWall exampleArc s
    Track.combo bnot bch
  have hk : s.counter Track.combo + 1 = 1 := by
    show s.comboSteps + 1 = 1
    rw [c3]; rfl
  unfold trackPass at bit
  rw [hk, if_pos tallWall_combo_clear] at bit
  rw [searchLoop_of_ret _ _ _ _ 0 _ _ _ _ bit]
  refine ⟨_, rfl, ?_⟩
  show candidate Real.sqrt dearCurveCosts exampleArc Track.combo 1 = _
  simp only [candidate, dearCurveCosts, exampleArc, comboPerStep]
  norm_num

end TwoPassLemmas

/-! ## Lemmas: the base arc with an unbounded `heightSteps` -/

section UnboundedLemmas

variable {α : Type} [LinearOrderedField α]

/-- For `CalculateDifficulty`, whose `heightSteps` is an unbounded integer: with cost
functions that are 0 at 0 and increasing, and a square root that is increasing and not
negative at 2, every value returned other than `-1` is at least the horizontal length `L`
(and at least the output `distance`). -/
theorem CalculateDifficulty_ge_horizontal [FloorRing α] (sqrt : α → α) (C : CostModel α)
    (T : RangeTerrain α) (fuel : Nat) (tee target : Vec3 α) (out : Outcome α)
    (hsqrt2 : 0 ≤ sqrt 2) (hsqrt : ∀ x y, x ≤ y → sqrt x ≤ sqrt y)
    (hH0 : C.HeightDifficulty 0 = 0) (hH : Monotone C.HeightDifficulty)
    (hC0 : C.CurveDifficulty 0 = 0) (hC : Monotone C.CurveDifficulty)
    (hK0 : C.ComboDifficulty 0 0 = 0)
    (hK : ∀ x x' y y', x ≤ x' → y ≤ y' → C.ComboDifficulty x y ≤ C.ComboDifficulty x' y')
    (h : CalculateDifficulty sqrt C T fuel tee target = some out)
    (hne : out.difficulty ≠ -1) :
    (baseArc sqrt C tee target).L ≤ out.difficulty ∧ out.distance ≤ out.difficulty := by
  have hLd : (baseArc sqrt C tee target).L ≤ (baseArc sqrt C tee target).distance := by
    rw [baseArc_L, baseArc_distance]
    apply hsqrt
    unfold dot
    simp only [Vec3.sub_x, Vec3.sub_y, Vec3.sub_z]
    nlinarith [sq_nonneg (target.y - tee.y)]
  have hinit := baseArc_initialHeightDifficulty_nonneg sqrt C tee target hH0 hH
  have hs0 := baseArc_heightSteps_nonneg sqrt C tee target
  have hdist : out.distance = (baseArc sqrt C tee target).distance :=
    CalculateDifficulty_some_distance sqrt C T fuel tee target out h
  suffices hmain : (baseArc sqrt C tee target).distance ≤ out.difficulty from
    ⟨le_trans hLd hmain, by rw [hdist]; exact hmain⟩
  rcases CalculateDifficulty_eq_some_cases sqrt C T fuel tee target out h with
    ⟨-, rfl⟩ | ⟨-, n, -, -, hret⟩
  · have : 0 ≤ C.HeightDifficulty
        (((baseArc sqrt C tee target).heightSteps : α) * heightPerStep) := by
      rw [← hH0]
      apply hH
      have : (0 : α) ≤ ((baseArc sqrt C tee target).heightSteps : α) := by
        exact_mod_cast hs0
      simpa [heightPerStep] using this
    show _ ≤ _ + _ + _
    linarith
  · obtain ⟨-, ⟨-, hm1, -⟩ | ⟨-, -, hmin, -⟩⟩ := returnsWith_cases sqrt C T _ _ out hret
    · exact absurd hm1 hne
    · rw [hmin]
      obtain ⟨g1, g2, g3⟩ := stateAfter_counters_le sqrt C (baseArc sqrt C tee target)
        (initialState (baseArc sqrt C tee target)) n
      exact distance_le_minDifficulty sqrt C _ _ hsqrt2 hH0 hH hC0 hC hK0 hK hinit
        (le_trans hs0 g1) g2 g3

/-- For `baseArc`, whose `heightSteps` is an unbounded integer: the three counters are
never negative at the start of a pass; a pass that does not return raises exactly one
counter by exactly one and leaves the two others as they were; hence, with increasing
costs, no candidate is lower in the next pass. -/
theorem search_state_invariant [FloorRing α] (sqrt : α → α) (C : CostModel α)
    (T : RangeTerrain α) (tee target : Vec3 α) :
    (∀ n, 0 ≤ (passState sqrt C tee target n).heightSteps ∧
      0 ≤ (passState sqrt C tee target n).curveSteps ∧
      0 ≤ (passState sqrt C tee target n).comboSteps) ∧
    (∀ s s', iteration sqrt C T (baseArc sqrt C tee target) s = Step.next s' →
      (s'.heightSteps = s.heightSteps + 1 ∧ s'.curveSteps = s.curveSteps ∧
        s'.comboSteps = s.comboSteps) ∨
      (s'.heightSteps = s.heightSteps ∧ s'.curveSteps = s.curveSteps + 1 ∧
        s'.comboSteps = s.comboSteps) ∨
      (s'.heightSteps = s.heightSteps ∧ s'.curveSteps = s.curveSteps ∧
        s'.comboSteps = s.comboSteps + 1)) ∧
    (0 ≤ sqrt 2 → Monotone C.HeightDifficulty → Monotone C.CurveDifficulty →
      (∀ x x' y y', x ≤ x' → y ≤ y' → C.ComboDifficulty x y ≤ C.ComboDifficulty x' y') →
      ∀ s s', iteration sqrt C T (baseArc sqrt C tee target) s = Step.next s' →
        heightDifficulty C (baseArc sqrt C tee target) s
          ≤ heightDifficulty C (baseArc sqrt C tee target) s' ∧
        curveDifficulty C (baseArc sqrt C tee target) s
          ≤ curveDifficulty C (baseArc sqrt C tee target) s' ∧
        comboDifficulty sqrt C (baseArc sqrt C tee target) s
          ≤ comboDifficulty sqrt C (baseArc sqrt C tee target) s') := by
  have hstep : ∀ s s', iteration sqrt C T (baseArc sqrt C tee target) s = Step.next s' →
      (s'.heightSteps = s.heightSteps + 1 ∧ s'.curveSteps = s.curveSteps ∧
        s'.comboSteps = s.comboSteps) ∨
      (s'.heightSteps = s.heightSteps ∧ s'.curveSteps = s.curveSteps + 1 ∧
        s'.comboSteps = s.comboSteps) ∨
      (s'.heightSteps = s.heightSteps ∧ s'.curveSteps = s.curveSteps ∧
        s'.comboSteps = s.comboSteps + 1) := by
    intro s s' hit
    rcases iteration_cases sqrt C T (baseArc sqrt C tee target) s with
      ⟨-, h⟩ | ⟨-, -, h⟩ | ⟨-, -, p1, p2, h, -⟩
    · rw [h] at hit; cases hit
    · rw [h] at hit
      cases hit
      rcases advance_cases sqrt C (baseArc sqrt C tee target) s with
        ⟨-, h1, h2, h3⟩ | ⟨-, h1, h2, h3⟩ | ⟨-, h1, h2, h3⟩
      · exact Or.inl ⟨h1, h2, h3⟩
      · exact Or.inr (Or.inl ⟨h1, h2, h3⟩)
      · exact Or.inr (Or.inr ⟨h1, h2, h3⟩)
    · rw [h] at hit; cases hit
  refine ⟨fun n => ?_, hstep, fun hsqrt2 hH hC hK s s' hit => ?_⟩
  · obtain ⟨g1, g2, g3⟩ := stateAfter_counters_le sqrt C (baseArc sqrt C tee target)
      (initialState (baseArc sqrt C tee target)) n
    have hs0 := baseArc_heightSteps_nonneg sqrt C tee target
    exact ⟨le_trans hs0 g1, g2, g3⟩
  · have hcnt : ∀ t, s.counter t + 1 ≤ s'.counter t + 1 := by
      intro t
      rcases hstep s s' hit with ⟨h1, h2, h3⟩ | ⟨h1, h2, h3⟩ | ⟨h1, h2, h3⟩ <;>
        cases t <;> simp only [SearchState.counter] <;> omega
    exact ⟨candidate_mono sqrt C _ Track.height _ _ (hcnt Track.height) hsqrt2 hH hC hK,
      candidate_mono sqrt C _ Track.curve _ _ (hcnt Track.curve) hsqrt2 hH hC hK,
      candidate_mono sqrt C _ Track.combo _ _ (hcnt Track.combo) hsqrt2 hH hC hK⟩

/-- For `baseArc`, whose `heightSteps` is an unbounded integer: the two cases of the
forced elevation, and the working height, which is at least `h + heightPerStep`. -/
theorem baseArc_elevation [FloorRing α] (sqrt : α → α) (C : CostModel α)
    (tee target : Vec3 α) :
    (baseArc sqrt C tee target).h = target.y - tee.y ∧
    ((baseArc sqrt C tee target).h + heightPerStep > defaultShotHeight →
      (baseArc sqrt C tee target).heightSteps
        = 1 + Int.ceil (((baseArc sqrt C tee target).h - defaultShotHeight) / heightPerStep) ∧
      1 ≤ (baseArc sqrt C tee target).heightSteps ∧
      (baseArc sqrt C tee target).adjustedHeight
        = defaultShotHeight + ((baseArc sqrt C tee target).heightSteps : α) * heightPerStep ∧
      (baseArc sqrt C tee target).initialHeightDifficulty
        = C.HeightDifficulty
            (((baseArc sqrt C tee target).heightSteps : α) * heightPerStep)) ∧
    (¬ (baseArc sqrt C tee target).h + heightPerStep > defaultShotHeight →
      (baseArc sqrt C tee target).heightSteps = 0 ∧
      (baseArc sqrt C tee target).adjustedHeight = defaultShotHeight ∧
      (baseArc sqrt C tee target).initialHeightDifficulty = 0) ∧
    (baseArc sqrt C tee target).h + heightPerStep
      ≤ (baseArc sqrt C tee target).adjustedHeight ∧
    (baseArc sqrt C tee target).h < (baseArc sqrt C tee target).adjustedHeight := by
  have hh := baseArc_h sqrt C tee target
  have hcases := baseArc_adjustedHeight sqrt C tee target
  have hsteps := baseArc_heightSteps sqrt C tee target
  have hinit := baseArc_initialHeightDifficulty sqrt C tee target
  have hbound := baseArc_adjustedHeight_ge sqrt C tee target
  refine ⟨hh, fun hel => ?_, fun hel => ?_, ?_, ?_⟩
  · rw [hh] at hel ⊢
    simp only [heightPerStep, defaultShotHeight, div_one, mul_one] at hel ⊢
    rw [if_pos hel] at hsteps hinit hcases
    refine ⟨hsteps, ?_, ?_, ?_⟩
    · have : (0 : Int) ≤ Int.ceil (target.y - tee.y - 20) := by
        apply Int.le_ceil_iff.mpr
        push_cast
        linarith
      omega
    · simpa [heightPerStep] using hcases
    · simpa [heightPerStep] using hinit
  · rw [hh] at hel
    simp only [heightPerStep, defaultShotHeight] at hel ⊢
    rw [if_neg hel] at hsteps hinit hcases
    exact ⟨hsteps, hcases, hinit⟩
  · rw [hh]; simpa [heightPerStep] using hbound
  · rw [hh]; linarith

/-- For `baseArc`, whose `heightSteps` is an unbounded integer: the denominator of the
landing ratio `l` is positive; with a square root that is never negative, `l` is not
negative, and it is 0 exactly when the horizontal travel `L` is 0. -/
theorem landing_ratio_defined [FloorRing α] (sqrt : α → α) (C : CostModel α)
    (tee target : Vec3 α) (hsqrt : ∀ x, 0 ≤ sqrt x) :
    0 < (baseArc sqrt C tee target).adjustedHeight
      - (baseArc sqrt C tee target).h * (1 - p2_relative) ∧
    (baseArc sqrt C tee target).l
      = (baseArc sqrt C tee target).L * (baseArc sqrt C tee target).adjustedHeight
        / ((baseArc sqrt C tee target).adjustedHeight
          - (baseArc sqrt C tee target).h * (1 - p2_relative)) ∧
    0 ≤ (baseArc sqrt C tee target).l ∧
    ((baseArc sqrt C tee target).l = 0 ↔ (baseArc sqrt C tee target).L = 0) := by
  have hh := baseArc_h sqrt C tee target
  have hbound := baseArc_adjustedHeight_ge sqrt C tee target
  have h20 := baseArc_adjustedHeight_ge_default sqrt C tee target
  have hL : 0 ≤ (baseArc sqrt C tee target).L := hsqrt _
  have hden : 0 < (baseArc sqrt C tee target).adjustedHeight
      - (baseArc sqrt C tee target).h * (1 - p2_relative) := by
    rw [hh]
    simp only [p2_relative]
    rcases le_or_lt 0 (target.y - tee.y) with hpos | hneg
    · nlinarith
    · nlinarith
  have hl : (baseArc sqrt C tee target).l
      = (baseArc sqrt C tee target).L * (baseArc sqrt C tee target).adjustedHeight
        / ((baseArc sqrt C tee target).adjustedHeight
          - (baseArc sqrt C tee target).h * (1 - p2_relative)) := rfl
  have hH : 0 < (baseArc sqrt C tee target).adjustedHeight := by linarith
  refine ⟨hden, hl, ?_, ?_⟩
  · rw [hl]
    exact div_nonneg (mul_nonneg hL hH.le) hden.le
  · rw [hl, div_eq_zero_iff, mul_eq_zero]
    constructor
    · rintro ((h | h) | h)
      · exact h
      · exact absurd h (ne_of_gt hH)
      · exact absurd h (ne_of_gt hden)
    · intro h
      exact Or.inl (Or.inl h)

end UnboundedLemmas

/-! ## Lemmas: the 32-bit `int heightSteps` -/

section Int32Lemmas

variable {α : Type} [LinearOrderedField α] [FloorRing α]

/-- An integer that fits 32 bits is converted to itself. -/
theorem toInt32_intCast (n : Int) (h1 : -2147483648 ≤ n) (h2 : n < 2147483648) :
    toInt32 (n : α) = n := by
  unfold toInt32
  have e1 : (-2147483649 : α) < (n : α) := by
    have : (-2147483649 : Int) < n := by omega
    exact_mod_cast this
  have e2 : (n : α) < 2147483648 := by exact_mod_cast h2
  rw [if_pos ⟨e1, e2⟩]
  split_ifs <;> simp

/-- An integer beyond the 32-bit range is converted to `INT_MIN`. -/
theorem toInt32_of_large (x : α) (h : 2147483648 ≤ x) : toInt32 x = -2147483648 := by
  unfold toInt32
  rw [if_neg]
  intro hc
  exact absurd hc.2 (not_lt.mpr h)

theorem baseArcInt32_h (sqrt : α → α) (C : CostModel α) (tee target : Vec3 α) :
    (baseArcInt32 sqrt C tee target).h = target.y - tee.y := by
  show (target + (⟨0, 1 / 10, 0⟩ : Vec3 α)).y - (tee + (⟨0, 1 / 10, 0⟩ : Vec3 α)).y = _
  simp only [Vec3.add_y]
  ring

/-- The counter `heightSteps` with which the loop is entered, by cases. -/
theorem baseArcInt32_heightSteps (sqrt : α → α) (C : CostModel α) (tee target : Vec3 α) :
    (baseArcInt32 sqrt C tee target).heightSteps =
      if target.y - tee.y + 1 > 20 then
        toInt32 ((1 : α) + ((Int.ceil (target.y - tee.y - 20) : Int) : α))
      else 0 := by
  have hh := baseArcInt32_h sqrt C tee target
  unfold baseArcInt32 at hh ⊢
  simp only at hh ⊢
  simp only [hh, heightPerStep, defaultShotHeight, div_one, decide_eq_true_eq]

/-- While the vertical delta stays below `2^31`, the conversion to `int` changes nothing:
`baseArcInt32` is `baseArc`. -/
theorem baseArcInt32_eq_baseArc (sqrt : α → α) (C : CostModel α) (tee target : Vec3 α)
    (hh : (baseArcInt32 sqrt C tee target).h < 2147483648) :
    baseArcInt32 sqrt C tee target = baseArc sqrt C tee target := by
  rw [baseArcInt32_h] at hh
  have e0 : (target + (⟨0, 1 / 10, 0⟩ : Vec3 α)).y - (tee + (⟨0, 1 / 10, 0⟩ : Vec3 α)).y
      = target.y - tee.y := by
    simp only [Vec3.add_y]
    ring
  have key : ∀ el : Bool, (el = true → target.y - tee.y + 1 > 20) →
      (if el then
        toInt32 ((1 : α) + ((Int.ceil ((target.y - tee.y - defaultShotHeight)
          / heightPerStep) : Int) : α))
       else 0)
      = (if el then 1 + Int.ceil ((target.y - tee.y - defaultShotHeight) / heightPerStep)
         else 0) := by
    intro el hel
    cases el with
    | false => rfl
    | true =>
      have hgt := hel rfl
      simp only [if_true, heightPerStep, defaultShotHeight, div_one]
      have h0 : (0 : Int) ≤ Int.ceil (target.y - tee.y - 20) := by
        apply Int.le_ceil_iff.mpr
        push_cast
        linarith
      have h1 : Int.ceil (target.y - tee.y - 20) < 2147483647 := by
        have := Int.ceil_lt_add_one (target.y - tee.y - 20)
        have h2 : ((Int.ceil (target.y - tee.y - 20) : Int) : α) < ((2147483647 : Int) : α) := by
          push_cast
          linarith
        exact_mod_cast h2
      have e : (1 : α) + ((Int.ceil (target.y - tee.y - 20) : Int) : α)
          = ((1 + Int.ceil (target.y - tee.y - 20) : Int) : α) := by push_cast; ring
      rw [e, toInt32_intCast _ (by omega) (by omega)]
  unfold baseArcInt32 baseArc
  simp only [e0]
  rw [key _ (by simp [heightPerStep, defaultShotHeight])]

/-- While the vertical delta stays below `2^31`, `CalculateDifficultyInt32` is
`CalculateDifficulty`. -/
theorem CalculateDifficultyInt32_eq (sqrt : α → α) (C : CostModel α) (T : RangeTerrain α)
    (fuel : Nat) (tee target : Vec3 α)
    (hh : (baseArcInt32 sqrt C tee target).h < 2147483648) :
    CalculateDifficultyInt32 sqrt C T fuel tee target
      = CalculateDifficulty sqrt C T fuel tee target := by
  unfold CalculateDifficultyInt32 CalculateDifficulty
  rw [baseArcInt32_eq_baseArc sqrt C tee target hh]

theorem passStateInt32_eq (sqrt : α → α) (C : CostModel α) (tee target : Vec3 α) (n : Nat)
    (hh : (baseArcInt32 sqrt C tee target).h < 2147483648) :
    passStateInt32 sqrt C tee target n = passState sqrt C tee target n := by
  unfold passStateInt32 passState
  rw [baseArcInt32_eq_baseArc sqrt C tee target hh]

end Int32Lemmas

section Int32Fields

variable {α : Type} [LinearOrderedField α] [FloorRing α]

theorem baseArcInt32_distance (sqrt : α → α) (C : CostModel α) (tee target : Vec3 α) :
    (baseArcInt32 sqrt C tee target).distance = length sqrt (target - tee) := rfl

theorem baseArcInt32_L (sqrt : α → α) (C : CostModel α) (tee target : Vec3 α) :
    (baseArcInt32 sqrt C tee target).L = length sqrt { (target - tee) with y := 0 } := by
  show length sqrt _ = length sqrt _
  unfold length dot
  congr 1
  simp only [Vec3.add_x, Vec3.add_z, Vec3.sub_x, Vec3.sub_z]
  ring

theorem baseArcInt32_adjustedHeight (sqrt : α → α) (C : CostModel α) (tee target : Vec3 α) :
    (baseArcInt32 sqrt C tee target).adjustedHeight =
      if target.y - tee.y + 1 > 20 then
        20 + ((baseArcInt32 sqrt C tee target).heightSteps : α) * heightPerStep
      else 20 := by
  have hh := baseArcInt32_h sqrt C tee target
  unfold baseArcInt32 at hh ⊢
  simp only at hh ⊢
  simp only [hh, heightPerStep, defaultShotHeight, div_one, decide_eq_true_eq]

theorem baseArcInt32_initialHeightDifficulty (sqrt : α → α) (C : CostModel α)
    (tee target : Vec3 α) :
    (baseArcInt32 sqrt C tee target).initialHeightDifficulty =
      if target.y - tee.y + 1 > 20 then
        C.HeightDifficulty (((baseArcInt32 sqrt C tee target).heightSteps : α) * heightPerStep)
      else 0 := by
  have hh := baseArcInt32_h sqrt C tee target
  unfold baseArcInt32 at hh ⊢
  simp only at hh ⊢
  simp only [hh, heightPerStep, defaultShotHeight, div_one, decide_eq_true_eq]

/-- The fast path of `CalculateDifficultyInt32`. -/
theorem CalculateDifficultyInt32_of_clear (sqrt : α → α) (C : CostModel α)
    (T : RangeTerrain α) (fuel : Nat) (tee target : Vec3 α)
    (hclear : PathIsClear T (baseArcInt32 sqrt C tee target).adjustedTee
      (baseArcInt32 sqrt C tee target).p1 (baseArcInt32 sqrt C tee target).p2
      (baseArcInt32 sqrt C tee target).adjustedTarget = true) :
    CalculateDifficultyInt32 sqrt C T fuel tee target =
      some { difficulty := (baseArcInt32 sqrt C tee target).distance
               + C.HeightDifficulty
                   (((baseArcInt32 sqrt C tee target).heightSteps : α) * heightPerStep)
               + (baseArcInt32 sqrt C tee target).initialHeightDifficulty,
             p1_adjusted := (baseArcInt32 sqrt C tee target).p1,
             p2_adjusted := (baseArcInt32 sqrt C tee target).p2,
             distance := (baseArcInt32 sqrt C tee target).distance } := by
  unfold CalculateDifficultyInt32
  simp only [hclear, if_true]

end Int32Fields

/-! ## Lemmas: a target `3 * 2^30` above the tee -/

section SkyLemmas

/-- From `(0,0,0)` to `(2^32, 3 * 2^30, 0)` the value `1 + ceil(h - 20)` does not fit the
`int heightSteps`, which becomes `INT_MIN`. -/
theorem sky_heightSteps (C : CostModel ℝ) :
    (baseArcInt32 Real.sqrt C ⟨0, 0, 0⟩ ⟨4294967296, 3221225472, 0⟩).heightSteps
      = -2147483648 := by
  rw [baseArcInt32_heightSteps, if_pos (by norm_num)]
  apply toInt32_of_large
  have := Int.le_ceil ((3221225472 : ℝ) - 0 - 20)
  linarith

theorem sky_h (C : CostModel ℝ) :
    (baseArcInt32 Real.sqrt C ⟨0, 0, 0⟩ ⟨4294967296, 3221225472, 0⟩).h = 3221225472 := by
  rw [baseArcInt32_h]
  norm_num

theorem sky_adjustedHeight (C : CostModel ℝ) :
    (baseArcInt32 Real.sqrt C ⟨0, 0, 0⟩ ⟨4294967296, 3221225472, 0⟩).adjustedHeight
      = -2147483628 := by
  rw [baseArcInt32_adjustedHeight, if_pos (by norm_num), sky_heightSteps]
  norm_num [heightPerStep]

theorem sky_initialHeightDifficulty :
    (baseArcInt32 Real.sqrt linearCosts ⟨0, 0, 0⟩
      ⟨4294967296, 3221225472, 0⟩).initialHeightDifficulty = -2147483648 := by
  rw [baseArcInt32_initialHeightDifficulty, if_pos (by norm_num), sky_heightSteps]
  norm_num [linearCosts, heightPerStep]

theorem sky_distance (C : CostModel ℝ) :
    (baseArcInt32 Real.sqrt C ⟨0, 0, 0⟩ ⟨4294967296, 3221225472, 0⟩).distance
      = 5368709120 := by
  rw [baseArcInt32_distance]
  have e : dot ((⟨4294967296, 3221225472, 0⟩ : Vec3 ℝ) - ⟨0, 0, 0⟩)
      ((⟨4294967296, 3221225472, 0⟩ : Vec3 ℝ) - ⟨0, 0, 0⟩) = 5368709120 ^ 2 := by
    norm_num [dot]
  rw [length, e]
  exact Real.sqrt_sq (by norm_num)

theorem sky_L (C : CostModel ℝ) :
    (baseArcInt32 Real.sqrt C ⟨0, 0, 0⟩ ⟨4294967296, 3221225472, 0⟩).L = 4294967296 := by
  rw [baseArcInt32_L]
  have e : dot ({ ((⟨4294967296, 3221225472, 0⟩ : Vec3 ℝ) - ⟨0, 0, 0⟩) with y := 0 } : Vec3 ℝ)
      { ((⟨4294967296, 3221225472, 0⟩ : Vec3 ℝ) - ⟨0, 0, 0⟩) with y := 0 }
      = 4294967296 ^ 2 := by
    norm_num [dot]
  rw [length, e]
  exact Real.sqrt_sq (by norm_num)

/-- With the costs `linearCosts`, over the terrain without triangles, from `(0,0,0)` to
`(2^32, 3 * 2^30, 0)` the fast path returns `2^30`. -/
theorem sky_result (fuel : Nat) :
    ∃ out, CalculateDifficultyInt32 Real.sqrt linearCosts noTriangles fuel ⟨0, 0, 0⟩
        ⟨4294967296, 3221225472, 0⟩ = some out ∧ out.difficulty = 1073741824 := by
  rw [CalculateDifficultyInt32_of_clear _ _ _ _ _ _
    (PathIsClear_of_loopBound_nonpos _ (by decide) _ _ _ _), sky_heightSteps,
    sky_initialHeightDifficulty, sky_distance]
  exact ⟨_, rfl, by norm_num [linearCosts, heightPerStep]⟩

end SkyLemmas

section NextLemmas

variable {α : Type} [LinearOrderedField α]

/-- A pass that falls through leaves the loop variables as `advance` describes. -/
theorem iteration_next_eq_advance (sqrt : α → α) (C : CostModel α) (T : RangeTerrain α)
    (b : BaseArc α) (s s' : SearchState α) (h : iteration sqrt C T b s = Step.next s') :
    s' = advance sqrt C b s := by
  rcases iteration_cases sqrt C T b s with ⟨-, hit⟩ | ⟨-, -, hit⟩ | ⟨-, -, p1, p2, hit, -⟩
  · rw [hit] at h; cases h
  · rw [hit] at h; cases h; rfl
  · rw [hit] at h; cases h

end NextLemmas

/-! ## The claims -/

section Claims

variable {α : Type} [LinearOrderedField α]

/-- C1, at a failing input: over the terrain without triangles, from the tee `(0,0,0)` to
the target `(7,24,0)` with the costs `linearCosts`, the elevation is forced
(`heightSteps = 5`, `initialHeightDifficulty = 5`), `distance` is `25`, and the fast path
returns `35 = distance + 2 * initialHeightDifficulty`: the baseline height penalty is
counted twice, not once (`30`). -/
theorem CalculateDifficulty_fast_path_counts_height_twice (fuel : Nat) :
    (baseArc Real.sqrt linearCosts ⟨0, 0, 0⟩ ⟨7, 24, 0⟩).heightSteps = 5 ∧
    (baseArc Real.sqrt linearCosts ⟨0, 0, 0⟩ ⟨7, 24, 0⟩).initialHeightDifficulty = 5 ∧
    CalculateDifficulty Real.sqrt linearCosts noTriangles fuel ⟨0, 0, 0⟩ ⟨7, 24, 0⟩ =
      some { difficulty := 35,
             p1_adjusted := (baseArc Real.sqrt linearCosts ⟨0, 0, 0⟩ ⟨7, 24, 0⟩).p1,
             p2_adjusted := (baseArc Real.sqrt linearCosts ⟨0, 0, 0⟩ ⟨7, 24, 0⟩).p2,
             distance := 25 } := by
  have hs : (baseArc Real.sqrt linearCosts ⟨0, 0, 0⟩ ⟨7, 24, 0⟩).heightSteps = 5 := by
    rw [baseArc_heightSteps]
    norm_num
  have hi : (baseArc Real.sqrt linearCosts ⟨0, 0, 0⟩ ⟨7, 24, 0⟩).initialHeightDifficulty
      = 5 := by
    rw [baseArc_initialHeightDifficulty, hs]
    norm_num [linearCosts, heightPerStep]
  have hd : (baseArc Real.sqrt linearCosts ⟨0, 0, 0⟩ ⟨7, 24, 0⟩).distance = 25 := by
    rw [baseArc_distance]
    have e : dot ((⟨7, 24, 0⟩ : Vec3 ℝ) - ⟨0, 0, 0⟩) ((⟨7, 24, 0⟩ : Vec3 ℝ) - ⟨0, 0, 0⟩)
        = 25 ^ 2 := by
      norm_num [dot]
    rw [length, e]
    exact Real.sqrt_sq (by norm_num)
  refine ⟨hs, hi, ?_⟩
  rw [CalculateDifficulty_of_clear _ _ _ _ _ _
    (PathIsClear_of_loopBound_nonpos _ (by decide) _ _ _ _), hs, hi, hd]
  norm_num [linearCosts, heightPerStep]

/-- C3, at a failing input: in the terrain `twoTriangles` the triangle stored last (offset
36) is crossed by the segment from `(0,1,0)` to `(0,-1,0)` at `t = 1/2`, `u = v = 1/4`, yet
`IntersectionBetweenPoints` answers `false`, because the loop stops before the last
triangle; with the same two triangles stored in the other order it answers `true`. -/
theorem IntersectionBetweenPoints_skips_last_triangle :
    twoTriangles.stored 36 ∧
    twoTriangles.solves ⟨0, 1, 0⟩ (⟨0, -1, 0⟩ - ⟨0, 1, 0⟩) 36 ⟨1 / 2, 1 / 4, 1 / 4⟩ ∧
    segmentTest (⟨1 / 2, 1 / 4, 1 / 4⟩ : Vec3 ℚ) = true ∧
    IntersectionBetweenPoints twoTriangles ⟨0, 1, 0⟩ ⟨0, -1, 0⟩ = false ∧
    IntersectionBetweenPoints twoTrianglesSwapped ⟨0, 1, 0⟩ ⟨0, -1, 0⟩ = true := by
  refine ⟨⟨by decide, by decide, by decide⟩, ?_, ?_, ?_, ?_⟩
  · unfold RangeTerrain.solves
    ext <;> norm_num [RangeTerrain.v0, RangeTerrain.v1, RangeTerrain.v2, twoTriangles,
      packTriangles]
  · norm_num [segmentTest]
  · unfold IntersectionBetweenPoints
    rw [IntersectionBetweenPoints.loop, IntersectionBetweenPoints.loop]
    norm_num [RangeTerrain.loopBound, RangeTerrain.floatCount, twoTriangles, segmentTest,
      RangeTerrain.solve, RangeTerrain.systemMatrix, RangeTerrain.v0, RangeTerrain.v1,
      RangeTerrain.v2, packTriangles, Mat3.inverse, Mat3.mulVec, Mat3.determinant]
  · unfold IntersectionBetweenPoints
    rw [IntersectionBetweenPoints.loop]
    norm_num [RangeTerrain.loopBound, RangeTerrain.floatCount, twoTrianglesSwapped,
      segmentTest, RangeTerrain.solve, RangeTerrain.systemMatrix, RangeTerrain.v0,
      RangeTerrain.v1, RangeTerrain.v2, packTriangles, Mat3.inverse, Mat3.mulVec,
      Mat3.determinant]

/-- C5, at two failing inputs.  In `nearStoredLast` the ray from `(0,1,0)` in direction
`(0,-1,0)` has a valid solution `t = 1` on the triangle stored last, but
`ClosestIntersection` reports the distance `6` of the triangle stored first; in
`twoTriangles` the same ray has a valid solution `t = 1` on the triangle stored last and
`ClosestIntersection` reports no hit.  The loop stops before the last triangle. -/
theorem ClosestIntersection_skips_last_triangle :
    (nearStoredLast.stored 36 ∧
      nearStoredLast.solves ⟨0, 1, 0⟩ ⟨0, -1, 0⟩ 36 ⟨1, 1 / 4, 1 / 4⟩ ∧
      rayTest FLT_MAX (⟨1, 1 / 4, 1 / 4⟩ : Vec3 ℚ) = true ∧
      ∀ I0, ClosestIntersection nearStoredLast FLT_MAX ⟨0, 1, 0⟩ ⟨0, -1, 0⟩ I0
        = (true, { position := ⟨0, -5, 0⟩, distance := 6 })) ∧
    (twoTriangles.stored 36 ∧
      twoTriangles.solves ⟨0, 1, 0⟩ ⟨0, -1, 0⟩ 36 ⟨1, 1 / 4, 1 / 4⟩ ∧
      ∀ I0, ClosestIntersection twoTriangles FLT_MAX ⟨0, 1, 0⟩ ⟨0, -1, 0⟩ I0 = (false, I0)) := by
  refine ⟨⟨⟨by decide, by decide, by decide⟩, ?_, ?_, ?_⟩,
    ⟨⟨by decide, by decide, by decide⟩, ?_, ?_⟩⟩
  · unfold RangeTerrain.solves
    ext <;> norm_num [RangeTerrain.v0, RangeTerrain.v1, RangeTerrain.v2, nearStoredLast,
      packTriangles]
  · norm_num [rayTest, FLT_MAX]
  · intro I0
    unfold ClosestIntersection
    rw [ClosestIntersection.loop]
    norm_num [RangeTerrain.loopBound, RangeTerrain.floatCount, nearStoredLast, rayTest,
      RangeTerrain.solve, RangeTerrain.systemMatrix, RangeTerrain.v0, RangeTerrain.v1,
      RangeTerrain.v2, packTriangles, Mat3.inverse, Mat3.mulVec, Mat3.determinant, FLT_MAX]
    rw [ClosestIntersection.loop]
    norm_num [RangeTerrain.loopBound, RangeTerrain.floatCount]
    ext <;> norm_num
  · unfold RangeTerrain.solves
    ext <;> norm_num [RangeTerrain.v0, RangeTerrain.v1, RangeTerrain.v2, twoTriangles,
      packTriangles]
  · intro I0
    unfold ClosestIntersection
    rw [ClosestIntersection.loop]
    norm_num [RangeTerrain.loopBound, RangeTerrain.floatCount, twoTriangles, rayTest,
      RangeTerrain.solve, RangeTerrain.systemMatrix, RangeTerrain.v0, RangeTerrain.v1,
      RangeTerrain.v2, packTriangles, Mat3.inverse, Mat3.mulVec, Mat3.determinant, FLT_MAX]
    rw [ClosestIntersection.loop]
    norm_num [RangeTerrain.loopBound, RangeTerrain.floatCount]

/-- C7, counterexample: from the tee `(0,0,0)` to the target `(3,4,0)` the output
`distance` is `5`, the length of `target - tee` in space, while the horizontal
tee-to-target length `L` is `3`. -/
theorem CalculateDifficulty_distance_not_horizontal :
    ∃ out, CalculateDifficulty Real.sqrt linearCosts noTriangles 0 ⟨0, 0, 0⟩ ⟨3, 4, 0⟩
        = some out ∧
      out.distance = 5 ∧
      (baseArc Real.sqrt linearCosts ⟨0, 0, 0⟩ ⟨3, 4, 0⟩).L = 3 ∧
      out.distance ≠ (baseArc Real.sqrt linearCosts ⟨0, 0, 0⟩ ⟨3, 4, 0⟩).L := by
  have hd : (baseArc Real.sqrt linearCosts ⟨0, 0, 0⟩ ⟨3, 4, 0⟩).distance = 5 := by
    rw [baseArc_distance]
    have e : dot ((⟨3, 4, 0⟩ : Vec3 ℝ) - ⟨0, 0, 0⟩) ((⟨3, 4, 0⟩ : Vec3 ℝ) - ⟨0, 0, 0⟩)
        = 5 ^ 2 := by
      norm_num [dot]
    rw [length, e]
    exact Real.sqrt_sq (by norm_num)
  have hL : (baseArc Real.sqrt linearCosts ⟨0, 0, 0⟩ ⟨3, 4, 0⟩).L = 3 := by
    rw [baseArc_L]
    have e : dot ({ ((⟨3, 4, 0⟩ : Vec3 ℝ) - ⟨0, 0, 0⟩) with y := 0 } : Vec3 ℝ)
        { ((⟨3, 4, 0⟩ : Vec3 ℝ) - ⟨0, 0, 0⟩) with y := 0 } = 3 ^ 2 := by
      norm_num [dot]
    rw [length, e]
    exact Real.sqrt_sq (by norm_num)
  refine ⟨_, CalculateDifficulty_of_clear _ _ _ _ _ _
    (PathIsClear_of_loopBound_nonpos _ (by decide) _ _ _ _), hd, hL, ?_⟩
  rw [hL]
  show (baseArc Real.sqrt linearCosts ⟨0, 0, 0⟩ ⟨3, 4, 0⟩).distance ≠ 3
  rw [hd]
  norm_num

/-- C7, amended: whatever the outcome (fast path, resolved or `-1`), the output `distance`
is the length of `target - tee` in space; when tee and target are at the same height,
this is the horizontal length `L`. -/
theorem CalculateDifficulty_distance [FloorRing α] (sqrt : α → α) (C : CostModel α)
    (T : RangeTerrain α) (fuel : Nat) (tee target : Vec3 α) (out : Outcome α)
    (h : CalculateDifficulty sqrt C T fuel tee target = some out) :
    out.distance = length sqrt (target - tee) ∧
    (target.y = tee.y → out.distance = (baseArc sqrt C tee target).L) := by
  have hd : out.distance = length sqrt (target - tee) :=
    CalculateDifficulty_some_distance sqrt C T fuel tee target out h
  refine ⟨hd, fun hy => ?_⟩
  rw [hd, baseArc_L]
  unfold length dot
  congr 1
  simp only [Vec3.sub_x, Vec3.sub_y, Vec3.sub_z, hy]
  ring

/-- Witness of C7 (amended): from `(0,0,0)` to `(4,0,0)` over the terrain without
triangles, tee and target at the same height. -/
theorem CalculateDifficulty_distance_witness :
    ∃ out, CalculateDifficulty Real.sqrt linearCosts noTriangles 0 ⟨0, 0, 0⟩ ⟨4, 0, 0⟩
        = some out ∧
      out.distance = length Real.sqrt ((⟨4, 0, 0⟩ : Vec3 ℝ) - ⟨0, 0, 0⟩) ∧
      out.distance = (baseArc Real.sqrt linearCosts ⟨0, 0, 0⟩ ⟨4, 0, 0⟩).L :=
  ⟨_, CalculateDifficulty_of_clear _ _ _ _ _ _
      (PathIsClear_of_loopBound_nonpos _ (by decide) _ _ _ _),
   (CalculateDifficulty_distance Real.sqrt linearCosts noTriangles 0 ⟨0, 0, 0⟩ ⟨4, 0, 0⟩ _
      (CalculateDifficulty_of_clear _ _ _ _ _ _
        (PathIsClear_of_loopBound_nonpos _ (by decide) _ _ _ _))).1,
   (CalculateDifficulty_distance Real.sqrt linearCosts noTriangles 0 ⟨0, 0, 0⟩ ⟨4, 0, 0⟩ _
      (CalculateDifficulty_of_clear _ _ _ _ _ _
        (PathIsClear_of_loopBound_nonpos _ (by decide) _ _ _ _))).2 rfl⟩

/-- C9, counterexample: with the costs `steepCosts`, from `(0,0,0)` to `(4,0,0)`, the
difficulty over the terrain without triangles is `4`, and over the terrain `teeCover`,
which adds triangles to it, `CalculateDifficulty` returns `-1`, which is less. -/
theorem CalculateDifficulty_decreases_to_sentinel :
    (∀ i, ¬ (noTriangles : RangeTerrain ℝ).stored i) ∧
    (∀ fuel, CalculateDifficulty Real.sqrt steepCosts noTriangles fuel ⟨0, 0, 0⟩ ⟨4, 0, 0⟩
      = some { difficulty := 4, p1_adjusted := ⟨2, 201 / 10, 0⟩,
               p2_adjusted := ⟨14 / 5, 201 / 10, 0⟩, distance := 4 }) ∧
    (∀ fuel, CalculateDifficulty Real.sqrt steepCosts teeCover (fuel + 1) ⟨0, 0, 0⟩ ⟨4, 0, 0⟩
      = some { difficulty := -1, p1_adjusted := ⟨2, 201 / 10, 0⟩,
               p2_adjusted := ⟨14 / 5, 201 / 10, 0⟩, distance := 4 }) := by
  refine ⟨?_, ?_, ?_⟩
  · rintro i ⟨h0, -, h1⟩
    have : (noTriangles : RangeTerrain ℝ).floatCount = 0 := by decide
    rw [this] at h1
    omega
  · intro fuel
    rw [CalculateDifficulty_of_clear _ _ _ _ _ _
      (PathIsClear_of_loopBound_nonpos _ (by decide) _ _ _ _), baseArc_example]
    norm_num [exampleArc, steepCosts]
  · intro fuel
    rw [CalculateDifficulty_of_blocked _ _ _ _ _ _ (teeCover_base_blocked _),
      baseArc_example]
    obtain ⟨v, p1, p2, hit, hout⟩ := returnsWith_of_allExceed Real.sqrt steepCosts teeCover
      exampleArc (initialState exampleArc) steep_allExceed
    rw [searchLoop_of_ret _ _ _ _ _ _ _ _ _ hit, ← hout]
    rfl

/-- C9, amended: with costs that are 0 at 0 and increasing, for terrains `M` and `M'` such
that every segment blocked over `M` is blocked over `M'`, a difficulty returned over `M'`
that is not `-1` is at least the difficulty returned over `M`; left out is the case of a
base arc that is clear over `M` and blocked over `M'` with a forced elevation
(`heightSteps ≠ 0`). -/
theorem CalculateDifficulty_mono_terrain [FloorRing α] (sqrt : α → α) (C : CostModel α)
    (M M' : RangeTerrain α) (fuel fuel' : Nat) (tee target : Vec3 α) (o o' : Outcome α)
    (hsqrt2 : 0 ≤ sqrt 2)
    (hH0 : C.HeightDifficulty 0 = 0) (hH : Monotone C.HeightDifficulty)
    (hC0 : C.CurveDifficulty 0 = 0) (hC : Monotone C.CurveDifficulty)
    (hK0 : C.ComboDifficulty 0 0 = 0)
    (hK : ∀ x x' y y', x ≤ x' → y ≤ y' → C.ComboDifficulty x y ≤ C.ComboDifficulty x' y')
    (hsub : ∀ a b, IntersectionBetweenPoints M a b = true →
      IntersectionBetweenPoints M' a b = true)
    (hcase : PathIsClear M (baseArc sqrt C tee target).adjustedTee
        (baseArc sqrt C tee target).p1 (baseArc sqrt C tee target).p2
        (baseArc sqrt C tee target).adjustedTarget = true →
      PathIsClear M' (baseArc sqrt C tee target).adjustedTee
        (baseArc sqrt C tee target).p1 (baseArc sqrt C tee target).p2
        (baseArc sqrt C tee target).adjustedTarget = false →
      (baseArc sqrt C tee target).heightSteps = 0)
    (hM : CalculateDifficulty sqrt C M fuel tee target = some o)
    (hM' : CalculateDifficulty sqrt C M' fuel' tee target = some o')
    (hne : o'.difficulty ≠ -1) :
    o.difficulty ≤ o'.difficulty := by
  have hinit := baseArc_initialHeightDifficulty_nonneg sqrt C tee target hH0 hH
  have hs0 := baseArc_heightSteps_nonneg sqrt C tee target
  rcases CalculateDifficulty_eq_some_cases sqrt C M fuel tee target o hM with
    ⟨hc, rfl⟩ | ⟨hc, n, -, hpre, hret⟩
  · -- fast path over `M`
    rcases CalculateDifficulty_eq_some_cases sqrt C M' fuel' tee target o' hM' with
      ⟨-, rfl⟩ | ⟨hc', n', -, -, hret'⟩
    · exact le_refl _
    · have hsteps : (baseArc sqrt C tee target).heightSteps = 0 := hcase hc hc'
      obtain ⟨-, ⟨-, hm1, -⟩ | ⟨-, -, hmin, -⟩⟩ := returnsWith_cases sqrt C M' _ _ o' hret'
      · exact absurd hm1 hne
      · have hi0 : (baseArc sqrt C tee target).initialHeightDifficulty = 0 := by
          rw [baseArc_initialHeightDifficulty]
          have hhs := baseArc_heightSteps sqrt C tee target
          split_ifs with hel
          · rw [if_pos hel] at hhs
            have : (0 : Int) ≤ Int.ceil (target.y - tee.y - 20) := by
              apply Int.le_ceil_iff.mpr
              push_cast
              linarith
            omega
          · rfl
        obtain ⟨g1, g2, g3⟩ := stateAfter_counters_le sqrt C (baseArc sqrt C tee target)
          (initialState (baseArc sqrt C tee target)) n'
        have hge := distance_le_minDifficulty sqrt C (baseArc sqrt C tee target)
          (stateAfter sqrt C (baseArc sqrt C tee target)
            (initialState (baseArc sqrt C tee target)) n') hsqrt2 hH0 hH hC0 hC hK0 hK
          hinit (le_trans hs0 g1) g2 g3
        rw [hmin]
        show _ + C.HeightDifficulty (((baseArc sqrt C tee target).heightSteps : α) * heightPerStep)
          + (baseArc sqrt C tee target).initialHeightDifficulty ≤ _
        rw [hsteps, hi0]
        simp only [Int.cast_zero, zero_mul, hH0, add_zero]
        exact hge
  · -- loop over `M`
    rcases CalculateDifficulty_eq_some_cases sqrt C M' fuel' tee target o' hM' with
      ⟨hc', -⟩ | ⟨-, n', -, hpre', hret'⟩
    · rw [PathIsClear_anti M M' hsub _ _ _ _ hc'] at hc
      exact absurd hc (by simp)
    · obtain ⟨-, ⟨-, hm1, -⟩ | ⟨hall', hblk', hmin', -⟩⟩ :=
        returnsWith_cases sqrt C M' _ _ o' hret'
      · exact absurd hm1 hne
      · have hnn : n ≤ n' := by
          by_contra hlt
          rw [not_le] at hlt
          have := testedBlocked_mono sqrt C M M' hsub _ _ (hpre n' hlt).2
          rw [this] at hblk'
          exact absurd hblk' (by simp)
        obtain ⟨-, ⟨hall, -⟩ | ⟨-, -, hmin, -⟩⟩ := returnsWith_cases sqrt C M _ _ o hret
        · exfalso
          rcases Nat.lt_or_eq_of_le hnn with hlt | heq
          · exact (hpre' n hlt).1 hall
          · rw [heq] at hall
            exact hall' hall
        · rw [hmin, hmin']
          obtain ⟨g1, g2, g3⟩ := stateAfter_counters_mono sqrt C
            (baseArc sqrt C tee target) (initialState (baseArc sqrt C tee target)) n n' hnn
          exact minDifficulty_mono sqrt C _ _ _ hsqrt2 hH hC hK g1 g2 g3

/-- Witness of C9 (amended): with the costs `linearCosts`, from `(0,0,0)` to `(4,0,0)`, the
terrain without triangles gives a difficulty that is at most the one over `wall`, where
the base arc is blocked and the search resolves with `5`. -/
theorem CalculateDifficulty_mono_terrain_witness :
    ∃ o o', CalculateDifficulty Real.sqrt linearCosts noTriangles 0 ⟨0, 0, 0⟩ ⟨4, 0, 0⟩
        = some o ∧
      CalculateDifficulty Real.sqrt linearCosts wall 1 ⟨0, 0, 0⟩ ⟨4, 0, 0⟩ = some o' ∧
      o'.difficulty = 5 ∧ o.difficulty ≤ o'.difficulty := by
  obtain ⟨o', ho', h5⟩ := wall_result
  have ho := CalculateDifficulty_of_clear Real.sqrt linearCosts noTriangles 0 ⟨0, 0, 0⟩
    ⟨4, 0, 0⟩ (PathIsClear_of_loopBound_nonpos _ (by decide) _ _ _ _)
  exact ⟨_, o', ho, ho', h5,
    CalculateDifficulty_mono_terrain Real.sqrt linearCosts noTriangles wall 0 1
      ⟨0, 0, 0⟩ ⟨4, 0, 0⟩ _ o' (Real.sqrt_nonneg 2)
      rfl (fun _ _ h => h) rfl (fun _ _ h => h) (by simp [linearCosts])
      (fun _ _ _ _ h1 h2 => add_le_add h1 h2)
      (fun a b h => by
        rw [IntersectionBetweenPoints_of_loopBound_nonpos noTriangles (by decide)] at h
        exact absurd h (by simp))
      (fun _ _ => by rw [baseArc_example]; rfl) ho ho' (by rw [h5]; norm_num)⟩

/-- C11, at a failing input: the loop body computes the combined candidate as
`distance + ComboDifficulty(...)`, without the baseline penalty `initialHeightDifficulty`
that the curve candidate carries.  From `(0,0,0)` to `(7,24,0)` with the costs
`linearCosts` the baseline penalty is 5, the combined candidate of the first pass is not
`distance + ComboDifficulty(...) + initialHeightDifficulty`, and over `highWall` the search
returns a combined shot whose difficulty is below `distance + initialHeightDifficulty`. -/
theorem comboDifficulty_omits_initial_height :
    (∀ (sqrt : ℝ → ℝ) (C : CostModel ℝ) (b : BaseArc ℝ) (s : SearchState ℝ),
      heightDifficulty C b s
        = b.distance + C.HeightDifficulty (((s.heightSteps + 1 : Int) : ℝ) * heightPerStep) ∧
      curveDifficulty C b s
        = b.distance + C.CurveDifficulty (((s.curveSteps + 1 : Int) : ℝ) * curvePerStep)
          + b.initialHeightDifficulty ∧
      comboDifficulty sqrt C b s
        = b.distance + C.ComboDifficulty (((s.comboSteps + 1 : Int) : ℝ) * comboPerStep sqrt)
            (((s.comboSteps + 1 : Int) : ℝ) * comboPerStep sqrt)) ∧
    (baseArc Real.sqrt linearCosts ⟨0, 0, 0⟩ ⟨7, 24, 0⟩).initialHeightDifficulty = 5 ∧
    comboDifficulty Real.sqrt linearCosts (baseArc Real.sqrt linearCosts ⟨0, 0, 0⟩ ⟨7, 24, 0⟩)
        (initialState (baseArc Real.sqrt linearCosts ⟨0, 0, 0⟩ ⟨7, 24, 0⟩))
      ≠ (baseArc Real.sqrt linearCosts ⟨0, 0, 0⟩ ⟨7, 24, 0⟩).distance
        + linearCosts.ComboDifficulty
            ((((initialState (baseArc Real.sqrt linearCosts ⟨0, 0, 0⟩ ⟨7, 24, 0⟩)).comboSteps
              + 1 : Int) : ℝ) * comboPerStep Real.sqrt)
            ((((initialState (baseArc Real.sqrt linearCosts ⟨0, 0, 0⟩ ⟨7, 24, 0⟩)).comboSteps
              + 1 : Int) : ℝ) * comboPerStep Real.sqrt)
        + (baseArc Real.sqrt linearCosts ⟨0, 0, 0⟩ ⟨7, 24, 0⟩).initialHeightDifficulty ∧
    ∃ out, CalculateDifficulty Real.sqrt linearCosts highWall 1 ⟨0, 0, 0⟩ ⟨7, 24, 0⟩
        = some out ∧
      out.difficulty = 25 + (1 / Real.sqrt 2 + 1 / Real.sqrt 2) ∧
      out.difficulty < (baseArc Real.sqrt linearCosts ⟨0, 0, 0⟩ ⟨7, 24, 0⟩).distance
        + (baseArc Real.sqrt linearCosts ⟨0, 0, 0⟩ ⟨7, 24, 0⟩).initialHeightDifficulty := by
  obtain ⟨-, -, h3, h4⟩ := elevated_candidates
  refine ⟨fun _ _ _ _ => ⟨rfl, rfl, rfl⟩, ?_, ?_, ?_⟩
  · rw [baseArc_elevated]; rfl
  · rw [baseArc_elevated]
    intro h
    have e : comboDifficulty Real.sqrt linearCosts elevatedArc
        (initialState (elevatedArc : BaseArc ℝ))
        = comboDifficulty Real.sqrt linearCosts elevatedArc (initialState elevatedArc)
          + (elevatedArc : BaseArc ℝ).initialHeightDifficulty := h
    have e5 : (elevatedArc : BaseArc ℝ).initialHeightDifficulty = 5 := rfl
    rw [e5] at e
    linarith
  · refine ⟨_, highWall_result, rfl, ?_⟩
    rw [baseArc_elevated]
    show 25 + (1 / Real.sqrt 2 + 1 / Real.sqrt 2) < (25 : ℝ) + 5
    rw [← h3]
    linarith

/-- C12, at every input of the claim: with non-zero horizontal travel and `k >= 1` steps,
the height shift and the curve shift have length `k`, but the combo shift has length
`k * sqrt 2`, which is greater: the loop scales the combined displacement by
`heightPerStep` and `curvePerStep`, and uses `comboPerStep` in the cost only.  Scaled by
`comboPerStep` the combined displacement would have length `k`. -/
theorem combo_shift_length (C : CostModel ℝ) (tee target : Vec3 ℝ)
    (hL : (baseArc Real.sqrt C tee target).L ≠ 0) (k : Int) (hk : 1 ≤ k) (mirrored : Bool) :
    length Real.sqrt (shift (baseArc Real.sqrt C tee target) Track.height mirrored k) = k ∧
    length Real.sqrt (shift (baseArc Real.sqrt C tee target) Track.curve mirrored k) = k ∧
    length Real.sqrt (shift (baseArc Real.sqrt C tee target) Track.combo mirrored k)
      = k * Real.sqrt 2 ∧
    length Real.sqrt (shift (baseArc Real.sqrt C tee target) Track.height mirrored k)
      < length Real.sqrt (shift (baseArc Real.sqrt C tee target) Track.combo mirrored k) ∧
    length Real.sqrt (shift (baseArc Real.sqrt C tee target) Track.curve mirrored k)
      < length Real.sqrt (shift (baseArc Real.sqrt C tee target) Track.combo mirrored k) ∧
    length Real.sqrt
      ((baseArc Real.sqrt C tee target).up.scale ((k : ℝ) * comboPerStep Real.sqrt)
        + (baseArc Real.sqrt C tee target).right.scale ((k : ℝ) * comboPerStep Real.sqrt))
      = k := by
  obtain ⟨hup, hy, hr⟩ := baseArc_frame C tee target hL
  obtain ⟨d1, d2, d3⟩ := shift_dot (baseArc Real.sqrt C tee target) k mirrored hup hy hr
  have hk0 : (0 : ℝ) ≤ (k : ℝ) := by
    have : (0 : Int) ≤ k := by omega
    exact_mod_cast this
  have hk1 : (0 : ℝ) < (k : ℝ) := by
    have : (0 : Int) < k := by omega
    exact_mod_cast this
  have e1 : length Real.sqrt (shift (baseArc Real.sqrt C tee target) Track.height mirrored k)
      = k := by
    rw [length, d1]; exact Real.sqrt_sq hk0
  have e2 : length Real.sqrt (shift (baseArc Real.sqrt C tee target) Track.curve mirrored k)
      = k := by
    rw [length, d2]; exact Real.sqrt_sq hk0
  have e3 : length Real.sqrt (shift (baseArc Real.sqrt C tee target) Track.combo mirrored k)
      = k * Real.sqrt 2 := by
    rw [length, d3, Real.sqrt_mul (sq_nonneg _), Real.sqrt_sq hk0]
  have hlt : (k : ℝ) < k * Real.sqrt 2 := by
    have := one_lt_sqrt_two
    nlinarith
  refine ⟨e1, e2, e3, by rw [e1, e3]; exact hlt, by rw [e2, e3]; exact hlt, ?_⟩
  have hs : Real.sqrt 2 ≠ 0 := by
    have := one_lt_sqrt_two
    linarith
  have d4 : dot ((baseArc Real.sqrt C tee target).up.scale ((k : ℝ) * comboPerStep Real.sqrt)
        + (baseArc Real.sqrt C tee target).right.scale ((k : ℝ) * comboPerStep Real.sqrt))
      ((baseArc Real.sqrt C tee target).up.scale ((k : ℝ) * comboPerStep Real.sqrt)
        + (baseArc Real.sqrt C tee target).right.scale ((k : ℝ) * comboPerStep Real.sqrt))
      = (k : ℝ) ^ 2 := by
    simp only [dot, hup, Vec3.add_x, Vec3.add_y, Vec3.add_z, Vec3.scale_x, Vec3.scale_y,
      Vec3.scale_z, hy, comboPerStep]
    field_simp
    linear_combination ((k : ℝ) ^ 2) * hr
  rw [length, d4]
  exact Real.sqrt_sq hk0

/-- Witness of C12: from `(0,0,0)` to `(4,0,0)` the horizontal travel is 4; one height step
moves the control points by 1, one combined step by `sqrt 2`. -/
theorem combo_shift_length_witness :
    (baseArc Real.sqrt linearCosts ⟨0, 0, 0⟩ ⟨4, 0, 0⟩).L ≠ 0 ∧
    length Real.sqrt
      (shift (baseArc Real.sqrt linearCosts ⟨0, 0, 0⟩ ⟨4, 0, 0⟩) Track.height false 1)
      = ((1 : Int) : ℝ) ∧
    length Real.sqrt
      (shift (baseArc Real.sqrt linearCosts ⟨0, 0, 0⟩ ⟨4, 0, 0⟩) Track.combo false 1)
      = ((1 : Int) : ℝ) * Real.sqrt 2 := by
  have hL : (baseArc Real.sqrt linearCosts ⟨0, 0, 0⟩ ⟨4, 0, 0⟩).L ≠ 0 := by
    rw [baseArc_example]
    norm_num [exampleArc]
  obtain ⟨e1, -, e3, -⟩ :=
    combo_shift_length linearCosts ⟨0, 0, 0⟩ ⟨4, 0, 0⟩ hL 1 (le_refl 1) false
  exact ⟨hL, e1, e3⟩

/-- C14: in a pass that does not return `-1`, the branch that runs is the one of a track
whose candidate is the least of the three, with the priority height, curve, combo on
ties: height whenever `heightDifficulty` is the least; curve exactly when
`heightDifficulty` is above the least and `curveDifficulty` is the least; combo exactly
when both others are above the least. -/
theorem track_selection (sqrt : α → α) (C : CostModel α) (T : RangeTerrain α)
    (b : BaseArc α) (s : SearchState α) (hall : ¬ allExceed sqrt C b s) :
    ∃ t, iteration sqrt C T b s = trackPass sqrt C T b s t ∧
      candidate sqrt C b t (s.counter t + 1) = minDifficulty sqrt C b s ∧
      (t = Track.height ↔ heightDifficulty C b s = minDifficulty sqrt C b s) ∧
      (t = Track.curve ↔ minDifficulty sqrt C b s < heightDifficulty C b s ∧
        curveDifficulty C b s = minDifficulty sqrt C b s) ∧
      (t = Track.combo ↔ minDifficulty sqrt C b s < heightDifficulty C b s ∧
        minDifficulty sqrt C b s < curveDifficulty C b s) := by
  cases hct : chosenTrack sqrt C b s with
  | none => exact absurd hct (chosenTrack_ne_none sqrt C b s)
  | some t =>
    refine ⟨t, iteration_eq_trackPass sqrt C T b s t hall hct,
      candidate_of_chosenTrack sqrt C b s t hct, ?_, ?_, ?_⟩
    · rw [← chosenTrack_height_iff, hct]
      exact ⟨fun h => by rw [h], fun h => Option.some.inj h⟩
    · rw [← chosenTrack_curve_iff, hct]
      exact ⟨fun h => by rw [h], fun h => Option.some.inj h⟩
    · rw [← chosenTrack_combo_iff, hct]
      exact ⟨fun h => by rw [h], fun h => Option.some.inj h⟩

/-- Witness of C14: in the first pass from `(0,0,0)` to `(4,0,0)` with `linearCosts` the
height and the curve candidate tie (both are 5, the least), and the height branch runs. -/
theorem track_selection_witness :
    ¬ allExceed Real.sqrt linearCosts exampleArc (initialState (exampleArc : BaseArc ℝ)) ∧
    heightDifficulty linearCosts exampleArc (initialState (exampleArc : BaseArc ℝ))
      = curveDifficulty linearCosts exampleArc (initialState exampleArc) ∧
    iteration Real.sqrt linearCosts wall exampleArc (initialState exampleArc)
      = trackPass Real.sqrt linearCosts wall exampleArc (initialState exampleArc)
          Track.height := by
  obtain ⟨t, hit, -, hh, -, -⟩ := track_selection Real.sqrt linearCosts wall exampleArc
    (initialState (exampleArc : BaseArc ℝ)) example_not_allExceed
  have ht : t = Track.height := hh.2 example_minDifficulty.symm
  rw [ht] at hit
  exact ⟨example_not_allExceed,
    example_candidates.1.trans example_candidates.2.1.symm, hit⟩

/-- C19: with increasing costs, when the loop returns a difficulty `d` other than `-1`
in pass `n`: every perturbation (a track, one of its trials, a step count beyond the
initial counter of the track) whose candidate is below `d` was tested in a pass before
`n` and is blocked; so `d` is at most the candidate of every such perturbation that is
clear, and `d` itself is the candidate of one that is clear. -/
theorem greedy_minimality [FloorRing α] (sqrt : α → α) (C : CostModel α)
    (T : RangeTerrain α) (fuel : Nat) (tee target : Vec3 α) (out : Outcome α)
    (hsqrt2 : 0 ≤ sqrt 2)
    (hH : Monotone C.HeightDifficulty) (hC : Monotone C.CurveDifficulty)
    (hK : ∀ x x' y y', x ≤ x' → y ≤ y' → C.ComboDifficulty x y ≤ C.ComboDifficulty x' y')
    (hb : PathIsClear T (baseArc sqrt C tee target).adjustedTee
      (baseArc sqrt C tee target).p1 (baseArc sqrt C tee target).p2
      (baseArc sqrt C tee target).adjustedTarget = false)
    (h : CalculateDifficulty sqrt C T fuel tee target = some out)
    (hne : out.difficulty ≠ -1) :
    ∃ n, returnsWith sqrt C T (baseArc sqrt C tee target) (passState sqrt C tee target n) out ∧
      (∀ t mirrored j, (initialState (baseArc sqrt C tee target)).counter t < j →
        candidate sqrt C (baseArc sqrt C tee target) t j < out.difficulty →
        ∃ m, m < n ∧
          iteration sqrt C T (baseArc sqrt C tee target) (passState sqrt C tee target m)
            = trackPass sqrt C T (baseArc sqrt C tee target)
                (passState sqrt C tee target m) t ∧
          (passState sqrt C tee target m).counter t + 1 = j ∧
          clearWith T (baseArc sqrt C tee target)
            (shift (baseArc sqrt C tee target) t mirrored j) = false) ∧
      (∀ t mirrored j, (initialState (baseArc sqrt C tee target)).counter t < j →
        clearWith T (baseArc sqrt C tee target)
          (shift (baseArc sqrt C tee target) t mirrored j) = true →
        out.difficulty ≤ candidate sqrt C (baseArc sqrt C tee target) t j) ∧
      (∃ t mirrored j, (initialState (baseArc sqrt C tee target)).counter t < j ∧
        clearWith T (baseArc sqrt C tee target)
          (shift (baseArc sqrt C tee target) t mirrored j) = true ∧
        out.difficulty = candidate sqrt C (baseArc sqrt C tee target) t j) := by
  rcases CalculateDifficulty_eq_some_cases sqrt C T fuel tee target out h with
    ⟨hc, -⟩ | ⟨-, n, -, hpre, hret⟩
  · rw [hb] at hc
    exact absurd hc (by simp)
  have hall : ¬ allExceed sqrt C (baseArc sqrt C tee target)
      (stateAfter sqrt C (baseArc sqrt C tee target)
        (initialState (baseArc sqrt C tee target)) n) := by
    obtain ⟨-, ⟨-, hm1, -⟩ | ⟨hall, -⟩⟩ := returnsWith_cases sqrt C T _ _ out hret
    · exact absurd hm1 hne
    · exact hall
  obtain ⟨t0, m0, hct0, hd0, -, -, hcl0⟩ := returnsWith_track sqrt C T _ _ out hret hall
  have hmin : out.difficulty = minDifficulty sqrt C (baseArc sqrt C tee target)
      (stateAfter sqrt C (baseArc sqrt C tee target)
        (initialState (baseArc sqrt C tee target)) n) := by
    rw [hd0]
    exact candidate_of_chosenTrack sqrt C _ _ t0 hct0
  have key : ∀ t (mirrored : Bool) j,
      (initialState (baseArc sqrt C tee target)).counter t < j →
      candidate sqrt C (baseArc sqrt C tee target) t j < out.difficulty →
      ∃ m, m < n ∧
        iteration sqrt C T (baseArc sqrt C tee target) (passState sqrt C tee target m)
          = trackPass sqrt C T (baseArc sqrt C tee target)
              (passState sqrt C tee target m) t ∧
        (passState sqrt C tee target m).counter t + 1 = j ∧
        clearWith T (baseArc sqrt C tee target)
          (shift (baseArc sqrt C tee target) t mirrored j) = false := by
    intro t mirrored j hj hcand
    have hjn : j ≤ (stateAfter sqrt C (baseArc sqrt C tee target)
        (initialState (baseArc sqrt C tee target)) n).counter t := by
      by_contra hgt
      rw [not_le] at hgt
      have h1 := candidate_mono sqrt C (baseArc sqrt C tee target) t _ j
        (by omega : (stateAfter sqrt C (baseArc sqrt C tee target)
          (initialState (baseArc sqrt C tee target)) n).counter t + 1 ≤ j) hsqrt2 hH hC hK
      have h2 := minDifficulty_le_candidate sqrt C (baseArc sqrt C tee target)
        (stateAfter sqrt C (baseArc sqrt C tee target)
          (initialState (baseArc sqrt C tee target)) n) t
      rw [hmin] at hcand
      exact absurd (le_trans h2 h1) (not_le.mpr hcand)
    obtain ⟨m, hm, hct, hcnt⟩ := counter_reached sqrt C (baseArc sqrt C tee target)
      (initialState (baseArc sqrt C tee target)) t j n hj hjn
    refine ⟨m, hm, iteration_eq_trackPass sqrt C T _ _ t (hpre m hm).1 hct, hcnt, ?_⟩
    have := (testedBlocked_iff sqrt C T _ _ t hct).mp (hpre m hm).2 mirrored
    rw [hcnt] at this
    exact this
  refine ⟨n, hret, key, fun t mirrored j hj hcl => ?_, ?_⟩
  · by_contra hlt
    rw [not_le] at hlt
    obtain ⟨m, -, -, -, hblk⟩ := key t mirrored j hj hlt
    rw [hcl] at hblk
    exact absurd hblk (by simp)
  · refine ⟨t0, m0, _, ?_, hcl0, hd0⟩
    have := stateAfter_counter_le sqrt C (baseArc sqrt C tee target)
      (initialState (baseArc sqrt C tee target)) t0 n
    omega

/-- Witness of C19: with `dearCurveCosts` over `tallWall`, from `(0,0,0)` to `(4,0,0)`, the
search resolves in its second pass with a difficulty above 5; the raised arc, whose
candidate is 5, is blocked (it was tested in the first pass). -/
theorem greedy_minimality_witness :
    ∃ out, CalculateDifficulty Real.sqrt dearCurveCosts tallWall 2 ⟨0, 0, 0⟩ ⟨4, 0, 0⟩
        = some out ∧
      out.difficulty ≠ -1 ∧
      candidate Real.sqrt dearCurveCosts (baseArc Real.sqrt dearCurveCosts ⟨0, 0, 0⟩ ⟨4, 0, 0⟩)
        Track.height 1 < out.difficulty ∧
      clearWith tallWall (baseArc Real.sqrt dearCurveCosts ⟨0, 0, 0⟩ ⟨4, 0, 0⟩)
        (shift (baseArc Real.sqrt dearCurveCosts ⟨0, 0, 0⟩ ⟨4, 0, 0⟩) Track.height false 1)
        = false ∧
      (∀ t mirrored j,
        (initialState (baseArc Real.sqrt dearCurveCosts ⟨0, 0, 0⟩ ⟨4, 0, 0⟩)).counter t < j →
        clearWith tallWall (baseArc Real.sqrt dearCurveCosts ⟨0, 0, 0⟩ ⟨4, 0, 0⟩)
          (shift (baseArc Real.sqrt dearCurveCosts ⟨0, 0, 0⟩ ⟨4, 0, 0⟩) t mirrored j) = true →
        out.difficulty
          ≤ candidate Real.sqrt dearCurveCosts
              (baseArc Real.sqrt dearCurveCosts ⟨0, 0, 0⟩ ⟨4, 0, 0⟩) t j) := by
  obtain ⟨out, h, hd⟩ := tallWall_result
  have hlo := half_lt_one_div_sqrt_two
  have hne : out.difficulty ≠ -1 := by
    rw [hd]
    intro hc
    linarith
  have h0 : (initialState (baseArc Real.sqrt dearCurveCosts ⟨0, 0, 0⟩ ⟨4, 0, 0⟩)).counter
      Track.height < 1 := by
    rw [baseArc_example]
    decide
  have hlt : candidate Real.sqrt dearCurveCosts
      (baseArc Real.sqrt dearCurveCosts ⟨0, 0, 0⟩ ⟨4, 0, 0⟩) Track.height 1
      < out.difficulty := by
    rw [hd, baseArc_example]
    norm_num [candidate, dearCurveCosts, exampleArc, heightPerStep]
    simp only [one_div] at hlo
    linarith
  obtain ⟨n, -, hearlier, hleast, -⟩ := greedy_minimality Real.sqrt dearCurveCosts tallWall 2
    ⟨0, 0, 0⟩ ⟨4, 0, 0⟩ out (Real.sqrt_nonneg 2) (fun _ _ h => h)
    (fun a b h => by
      show 2 * a ≤ 2 * b
      linarith)
    (fun _ _ _ _ h1 h2 => add_le_add h1 h2) (tallWall_base_blocked dearCurveCosts) h hne
  obtain ⟨m, -, -, -, hblocked⟩ := hearlier Track.height false 1 h0 hlt
  exact ⟨out, h, hne, hlt, hblocked, hleast⟩

/-- C20: a value other than `-1` that `CalculateDifficulty` returns from its loop (base
arc blocked) is at most `IMPOSSIBLE`; on the fast path (base arc clear) the value is
`distance + HeightDifficulty(heightSteps * heightPerStep) + initialHeightDifficulty`,
returned without a comparison with `IMPOSSIBLE`, and it can exceed `IMPOSSIBLE`: over the
terrain without triangles, from `(0,0,0)` to `(500,0,0)` with `linearCosts`, it is 500. -/
theorem loop_result_le_IMPOSSIBLE [FloorRing α] (sqrt : α → α) (C : CostModel α)
    (T : RangeTerrain α) (fuel : Nat) (tee target : Vec3 α) (out : Outcome α)
    (h : CalculateDifficulty sqrt C T fuel tee target = some out) :
    (PathIsClear T (baseArc sqrt C tee target).adjustedTee (baseArc sqrt C tee target).p1
        (baseArc sqrt C tee target).p2 (baseArc sqrt C tee target).adjustedTarget = false →
      out.difficulty ≠ -1 → out.difficulty ≤ IMPOSSIBLE) ∧
    (PathIsClear T (baseArc sqrt C tee target).adjustedTee (baseArc sqrt C tee target).p1
        (baseArc sqrt C tee target).p2 (baseArc sqrt C tee target).adjustedTarget = true →
      out.difficulty = (baseArc sqrt C tee target).distance
        + C.HeightDifficulty (((baseArc sqrt C tee target).heightSteps : α) * heightPerStep)
        + (baseArc sqrt C tee target).initialHeightDifficulty) ∧
    (∃ far, CalculateDifficulty Real.sqrt linearCosts noTriangles fuel ⟨0, 0, 0⟩ ⟨500, 0, 0⟩
        = some far ∧ IMPOSSIBLE < far.difficulty) := by
  refine ⟨?_, ?_, ?_⟩
  · intro hb hne
    rcases CalculateDifficulty_eq_some_cases sqrt C T fuel tee target out h with
      ⟨hc, -⟩ | ⟨-, n, -, -, hret⟩
    · rw [hb] at hc
      exact absurd hc (by simp)
    · obtain ⟨-, ⟨-, hm1, -⟩ | ⟨hall, -, hmin, -⟩⟩ := returnsWith_cases sqrt C T _ _ out hret
      · exact absurd hm1 hne
      · rw [hmin]
        exact minDifficulty_le_of_not_allExceed sqrt C _ _ hall
  · intro hc
    rw [CalculateDifficulty_of_clear sqrt C T fuel tee target hc] at h
    rw [← Option.some.inj h]
  · obtain ⟨far, hfar, hd⟩ := far_result fuel
    exact ⟨far, hfar, by rw [hd]; norm_num [IMPOSSIBLE]⟩

/-- Witness of C20: the search from `(0,0,0)` to `(4,0,0)` over `wall` with `linearCosts`
returns from its loop a value other than `-1`, which is at most `IMPOSSIBLE`. -/
theorem loop_result_le_IMPOSSIBLE_witness :
    ∃ out, CalculateDifficulty Real.sqrt linearCosts wall 1 ⟨0, 0, 0⟩ ⟨4, 0, 0⟩ = some out ∧
      out.difficulty ≠ -1 ∧ out.difficulty ≤ IMPOSSIBLE := by
  obtain ⟨out, h, hd⟩ := wall_result
  have hne : out.difficulty ≠ -1 := by rw [hd]; norm_num
  exact ⟨out, h, hne,
    (loop_result_le_IMPOSSIBLE Real.sqrt linearCosts wall 1 ⟨0, 0, 0⟩ ⟨4, 0, 0⟩ out h).1
      (wall_blocked linearCosts) hne⟩

end Claims

end DGI
